import Mathlib

/-!
IntelVTdDxe, VtdReg.c.

A shallow embedding of the register-level VT-d driver code of
`IntelSiliconPkg/Feature/VTd/IntelVTdDxe/VtdReg.c`, and theorems about it.

* The driver's globals (`mVtdUnitNumber`, `mVtdUnitInformation`, `mVtdEnabled`), the system
  memory it stores descriptors to and the history of everything it did to the platform form the
  `World`.
* The platform (the remapping hardware behind the memory-mapped registers, and the page
  allocator) is a `Platform`: the value a register read returns and the address an allocation
  returns are arbitrary functions of the whole history so far, so every deterministic device
  is covered.
* Each C function is a function into the monad `M`; a C `do ... while` loop is `doWhile`, which
  runs the body once and then at most `fuel` more times; a loop that would go on is the outcome
  `Stop.spin`.  The world reached so far is kept in every outcome.
* Constants, macros and bit-field layouts of the included headers are not part of the file;
  they are the fields of `VtdHeader`.
* Machine integers are natural numbers, truncated by `UINT8` ... `UINT64` where the C code
  converts; `UINTN` is 64 bits wide.  Register addresses are sums of natural numbers.
* `DEBUG` output has no effect on the state and is left out.
-/

namespace VtdReg

/-! ## Data model -/

/-- The macro `BITn` of `Base.h`. -/
def BIT (n : Nat) : Nat := 2 ^ n

/-- Conversion to `UINT8`. -/
def UINT8 (x : Nat) : Nat := x % 2 ^ 8

/-- Conversion to `UINT16`. -/
def UINT16 (x : Nat) : Nat := x % 2 ^ 16

/-- Conversion to `UINT32`. -/
def UINT32 (x : Nat) : Nat := x % 2 ^ 32

/-- Conversion to `UINT64` (also `UINTN`, which is 64 bits wide here). -/
def UINT64 (x : Nat) : Nat := x % 2 ^ 64

/-- The status codes `VtdReg.c` returns (`RETURN_DEVICE_ERROR` is `EFI_DEVICE_ERROR`). -/
inductive EFI_STATUS where
  | EFI_SUCCESS
  | EFI_UNSUPPORTED
  | EFI_OUT_OF_RESOURCES
  | EFI_DEVICE_ERROR
  | EFI_INVALID_PARAMETER
  deriving DecidableEq, Repr

open EFI_STATUS

/-- The macro `EFI_ERROR`: every status but `EFI_SUCCESS` used here has the error bit. -/
def EFI_ERROR (Status : EFI_STATUS) : Bool := Status != EFI_SUCCESS

/-- The two-word invalidation descriptor `QI_DESC`. -/
structure QI_DESC where
  Low : Nat
  High : Nat
  deriving DecidableEq, Repr

/-- The fields of `VTD_UNIT_INFORMATION` that `VtdReg.c` uses.  Registers are kept as the raw
integer (`VerReg.Uint32`, `CapReg.Uint64`, `ECapReg.Uint64`); pointers are addresses, `0` is
`NULL`; `PciDeviceDataNumber` is `PciDeviceInfo.PciDeviceDataNumber`. -/
structure VTD_UNIT_INFORMATION where
  VtdUnitBaseAddress : Nat
  VerReg : Nat
  CapReg : Nat
  ECapReg : Nat
  RootEntryTable : Nat
  ExtRootEntryTable : Nat
  HasDirtyContext : Bool
  HasDirtyPages : Bool
  PciDeviceDataNumber : Nat
  EnableQueuedInvalidation : Nat
  QiDescLength : Nat
  QiDesc : Nat
  QiFreeHead : Nat
  deriving DecidableEq, Repr

/-- Constants, macros and bit-field accessors that `VtdReg.c` takes from the headers it
includes (`DmaProtection.h`, the VT-d register definitions, `Base.h`, `UefiBaseType.h`).  The
headers are not part of the translated source, so every one of them is a parameter. -/
structure VtdHeader where
  R_VER_REG : Nat
  R_CAP_REG : Nat
  R_ECAP_REG : Nat
  R_GCMD_REG : Nat
  R_GSTS_REG : Nat
  R_RTADDR_REG : Nat
  R_CCMD_REG : Nat
  R_FSTS_REG : Nat
  R_FECTL_REG : Nat
  R_FEDATA_REG : Nat
  R_FEADDR_REG : Nat
  R_FEUADDR_REG : Nat
  R_IQH_REG : Nat
  R_IQT_REG : Nat
  R_IQA_REG : Nat
  R_IVA_REG : Nat
  R_IOTLB_REG : Nat
  R_FRCD_REG : Nat
  R_PMEN_ENABLE_REG : Nat
  B_GMCD_REG_WBF : Nat
  B_GMCD_REG_QIE : Nat
  B_GMCD_REG_SRTP : Nat
  B_GMCD_REG_TE : Nat
  B_GSTS_REG_WBF : Nat
  B_GSTS_REG_QIES : Nat
  B_GSTS_REG_RTPS : Nat
  B_GSTS_REG_TE : Nat
  B_FSTS_REG_IQE : Nat
  B_FSTS_REG_ITE : Nat
  B_FSTS_REG_ICE : Nat
  B_CCMD_REG_ICC : Nat
  B_CCMD_REG_CIRG_MASK : Nat
  V_CCMD_REG_CIRG_GLOBAL : Nat
  B_IOTLB_REG_IVT : Nat
  B_IOTLB_REG_IIRG_MASK : Nat
  V_IOTLB_REG_IIRG_GLOBAL : Nat
  DMAR_IQ_SHIFT : Nat
  QI_CC_TYPE : Nat
  QI_IOTLB_TYPE : Nat
  QI_CC_FM : Nat → Nat
  QI_CC_SID : Nat → Nat
  QI_CC_DID : Nat → Nat
  QI_CC_GRAN : Nat → Nat
  QI_IOTLB_DID : Nat → Nat
  QI_IOTLB_DR : Nat → Nat
  QI_IOTLB_DW : Nat → Nat
  QI_IOTLB_GRAN : Nat → Nat
  QI_IOTLB_ADDR : Nat → Nat
  QI_IOTLB_IH : Nat → Nat
  QI_IOTLB_AM : Nat → Nat
  CAP_READ_DRAIN : Nat → Nat
  CAP_WRITE_DRAIN : Nat → Nat
  /-- The value of `sizeof (QI_DESC)`. -/
  sizeof_QI_DESC : Nat
  EFI_SIZE_TO_PAGES : Nat → Nat
  /-- The bit field `VTD_VER_REG.Bits.Major`, of the raw `Uint32`. -/
  VerReg_Major : Nat → Nat
  /-- The bit fields of `VTD_CAP_REG.Bits`, of the raw `Uint64`. -/
  CapReg_ND : Nat → Nat
  CapReg_RWBF : Nat → Nat
  CapReg_PLMR : Nat → Nat
  CapReg_PHMR : Nat → Nat
  CapReg_SAGAW : Nat → Nat
  CapReg_SLLPS : Nat → Nat
  CapReg_NFR : Nat → Nat
  CapReg_FRO : Nat → Nat
  /-- The bit fields of `VTD_ECAP_REG.Bits`, of the raw `Uint64`. -/
  ECapReg_C : Nat → Nat
  ECapReg_QI : Nat → Nat
  ECapReg_IRO : Nat → Nat
  /-- The bit field `VTD_FRCD_REG.Bits.F`, of the upper half `Uint64[1]`. -/
  FrcdReg_F : Nat → Nat

/-- What the driver does to the platform, in the order it does it. -/
inductive Event where
  | read32 (Address Value : Nat)
  | read64 (Address Value : Nat)
  | write32 (Address Value : Nat)
  | write64 (Address Value : Nat)
  | store64 (Address Value : Nat)
  | writeBack (Base Size : Nat)
  | allocPages (Pages Buffer : Nat)
  | freePages (Buffer Pages : Nat)
  | assertFalse
  | reportStatusCode
  deriving DecidableEq, Repr

/-- The platform the driver runs on.  `reg t width a` is the value the device shows when the
register at address `a` is read with the given width after the history `t`; `pages t n` is what
`AllocatePages (n)` returns after `t` (`0` is `NULL`); `fuel` bounds how many further times a
polling loop is followed after its first iteration. -/
structure Platform where
  reg : List Event → Nat → Nat → Nat
  pages : List Event → Nat → Nat
  fuel : Nat

/-- The driver's globals, system memory (64-bit words by address) and the history. -/
structure World where
  mVtdUnitNumber : Nat
  mVtdUnitInformation : Nat → VTD_UNIT_INFORMATION
  mVtdEnabled : Bool
  memory : Nat → Nat
  trace : List Event

/-- Why a run does not return: a polling loop outlives the fuel, or an integer division by
zero. -/
inductive Stop where
  | spin
  | divideByZero
  deriving DecidableEq, Repr

/-- The outcome of a run: the returned value, or the reason it does not return. -/
inductive Res (α : Type) where
  | ok (a : α)
  | stop (s : Stop)
  deriving DecidableEq, Repr

/-- Computations of the driver: from a world to an outcome and the world reached. -/
def M (α : Type) : Type := World → Res α × World

/-- Sequencing: the continuation runs only when the first part returned. -/
def M.andThen {α β : Type} (r : Res α × World) (f : α → M β) : Res β × World :=
  match r with
  | (Res.ok a, w) => f a w
  | (Res.stop s, w) => (Res.stop s, w)

instance : Monad M where
  pure a := fun w => (Res.ok a, w)
  bind m f := fun w => M.andThen (m w) f

/-- The run ends here and does not return. -/
def halt {α : Type} (s : Stop) : M α := fun w => (Res.stop s, w)

/-- A C `do body while (again)` loop: `body` yields a value and whether to go round again. -/
def doWhile {α : Type} (body : M (α × Bool)) : Nat → M α
  | 0 => do
    let r ← body
    if r.2 then halt Stop.spin else pure r.1
  | fuel + 1 => do
    let r ← body
    if r.2 then doWhile body fuel else pure r.1

/-! ## Primitives of the platform libraries -/

def MmioRead32 (P : Platform) (Address : Nat) : M Nat := fun w =>
  (Res.ok (UINT32 (P.reg w.trace 32 Address)),
    { w with trace := w.trace ++ [Event.read32 Address (UINT32 (P.reg w.trace 32 Address))] })

def MmioRead64 (P : Platform) (Address : Nat) : M Nat := fun w =>
  (Res.ok (UINT64 (P.reg w.trace 64 Address)),
    { w with trace := w.trace ++ [Event.read64 Address (UINT64 (P.reg w.trace 64 Address))] })

def MmioWrite32 (Address Value : Nat) : M Unit := fun w =>
  (Res.ok (), { w with trace := w.trace ++ [Event.write32 Address (UINT32 Value)] })

def MmioWrite64 (Address Value : Nat) : M Unit := fun w =>
  (Res.ok (), { w with trace := w.trace ++ [Event.write64 Address (UINT64 Value)] })

def WriteBackDataCacheRange (Base Size : Nat) : M Unit := fun w =>
  (Res.ok (), { w with trace := w.trace ++ [Event.writeBack Base Size] })

def AllocatePages (P : Platform) (Pages : Nat) : M Nat := fun w =>
  (Res.ok (P.pages w.trace Pages),
    { w with trace := w.trace ++ [Event.allocPages Pages (P.pages w.trace Pages)] })

def FreePages (Buffer Pages : Nat) : M Unit := fun w =>
  (Res.ok (), { w with trace := w.trace ++ [Event.freePages Buffer Pages] })

/-- A store of a `UINT64` to system memory. -/
def store64 (Address Value : Nat) : M Unit := fun w =>
  (Res.ok (), { w with
    memory := Function.update w.memory Address (UINT64 Value)
    trace := w.trace ++ [Event.store64 Address (UINT64 Value)] })

/-- Reading `mVtdUnitInformation[Index]`. -/
def unitInfo (Index : Nat) : M VTD_UNIT_INFORMATION := fun w =>
  (Res.ok (w.mVtdUnitInformation Index), w)

/-- Assigning fields of `mVtdUnitInformation[Index]`. -/
def setUnitInfo (Index : Nat) (f : VTD_UNIT_INFORMATION → VTD_UNIT_INFORMATION) : M Unit :=
  fun w => (Res.ok (), { w with
    mVtdUnitInformation := Function.update w.mVtdUnitInformation Index
      (f (w.mVtdUnitInformation Index)) })

/-- Reading the global `mVtdEnabled`. -/
def vtdEnabled : M Bool := fun w => (Res.ok w.mVtdEnabled, w)

/-- The statement `ASSERT (FALSE)`, recorded in the history. -/
def ASSERT_FALSE : M Unit := fun w =>
  (Res.ok (), { w with trace := w.trace ++ [Event.assertFalse] })

/-- The statement `mVtdEnabled = Value`. -/
def setVtdEnabled (Value : Bool) : M Unit := fun w =>
  (Res.ok (), { w with mVtdEnabled := Value })

/-- The statement `REPORT_STATUS_CODE (EFI_ERROR_CODE, PcdGet32 (PcdErrorCodeVTdError))`,
recorded in the history. -/
def REPORT_STATUS_CODE : M Unit := fun w =>
  (Res.ok (), { w with trace := w.trace ++ [Event.reportStatusCode] })

/-- A C loop `for (Index = 0; Index < n; Index++) body` whose body neither breaks nor returns:
the passes for `Index = 0, ..., n - 1` one after the other; `s` is what a pass hands to the
next one. -/
def forIndex {σ : Type} (body : Nat → σ → M σ) : Nat → σ → M σ
  | 0, s => pure s
  | n + 1, s => do
    let s ← forIndex body n s
    body n s

/-- Bitwise complement of a `UINT32`. -/
def not32 (x : Nat) : Nat := (2 ^ 32 - 1) ^^^ UINT32 x

/-- Bitwise complement of a `UINT64`. -/
def not64 (x : Nat) : Nat := (2 ^ 64 - 1) ^^^ UINT64 x

/-! ## VtdReg.c -/

/-- `FlushPageTableMemory`. -/
def FlushPageTableMemory (H : VtdHeader) (VtdIndex Base Size : Nat) : M Unit := do
  let U ← unitInfo VtdIndex
  if H.ECapReg_C U.ECapReg = 0 then
    WriteBackDataCacheRange Base Size

/-- `FlushWriteBuffer`. -/
def FlushWriteBuffer (H : VtdHeader) (P : Platform) (VtdIndex : Nat) : M Unit := do
  let U ← unitInfo VtdIndex
  if H.CapReg_RWBF U.CapReg ≠ 0 then
    let Reg32 ← MmioRead32 P (U.VtdUnitBaseAddress + H.R_GSTS_REG)
    MmioWrite32 (U.VtdUnitBaseAddress + H.R_GCMD_REG) (Reg32 ||| H.B_GMCD_REG_WBF)
    let _ ← doWhile (do
      let Reg32 ← MmioRead32 P (U.VtdUnitBaseAddress + H.R_GSTS_REG)
      pure (Reg32, decide (Reg32 &&& H.B_GSTS_REG_WBF ≠ 0))) P.fuel

/-- The second part of `PerpareCacheInvalidationInterface`, from "Initialize the Invalidation
Queue Tail Register to zero" to the end of the function. -/
def PerpareCacheInvalidationInterface.setup (H : VtdHeader) (P : Platform) (VtdIndex : Nat) :
    M EFI_STATUS := do
  -- Initialize the Invalidation Queue Tail Register to zero.
  MmioWrite64 ((← unitInfo VtdIndex).VtdUnitBaseAddress + H.R_IQT_REG) 0
  -- Setup the IQ address, size and descriptor width
  let QueueSize : Nat := 0
  setUnitInfo VtdIndex (fun U => { U with QiDescLength := UINT16 (1 <<< (QueueSize + 8)) })
  let Buffer ← AllocatePages P
    (H.EFI_SIZE_TO_PAGES (H.sizeof_QI_DESC * (← unitInfo VtdIndex).QiDescLength))
  setUnitInfo VtdIndex (fun U => { U with QiDesc := Buffer })
  if (← unitInfo VtdIndex).QiDesc = 0 then
    setUnitInfo VtdIndex (fun U => { U with QiDescLength := 0 })
    return EFI_OUT_OF_RESOURCES
  else
    let Reg64 := UINT64 (← unitInfo VtdIndex).QiDesc
    MmioWrite64 ((← unitInfo VtdIndex).VtdUnitBaseAddress + H.R_IQA_REG) (Reg64 ||| QueueSize)
    -- Enable the queued invalidation interface through the Global Command Register.
    let Reg32 ← MmioRead32 P ((← unitInfo VtdIndex).VtdUnitBaseAddress + H.R_GSTS_REG)
    MmioWrite32 ((← unitInfo VtdIndex).VtdUnitBaseAddress + H.R_GCMD_REG)
      (Reg32 ||| H.B_GMCD_REG_QIE)
    let _ ← doWhile (do
      let Reg32 ← MmioRead32 P ((← unitInfo VtdIndex).VtdUnitBaseAddress + H.R_GSTS_REG)
      pure (Reg32, decide (Reg32 &&& H.B_GSTS_REG_QIES = 0))) P.fuel
    setUnitInfo VtdIndex (fun U => { U with QiFreeHead := 0 })
    return EFI_SUCCESS

/-- `PerpareCacheInvalidationInterface`; its second part is
`PerpareCacheInvalidationInterface.setup`. -/
def PerpareCacheInvalidationInterface (H : VtdHeader) (P : Platform) (VtdIndex : Nat) :
    M EFI_STATUS := do
  if H.VerReg_Major (← unitInfo VtdIndex).VerReg ≤ 5 then
    setUnitInfo VtdIndex (fun U => { U with EnableQueuedInvalidation := 0 })
    return EFI_SUCCESS
  else if H.ECapReg_QI (← unitInfo VtdIndex).ECapReg = 0 then
    return EFI_UNSUPPORTED
  else
    setUnitInfo VtdIndex (fun U => { U with EnableQueuedInvalidation := 1 })
    let Reg32 ← MmioRead32 P ((← unitInfo VtdIndex).VtdUnitBaseAddress + H.R_GSTS_REG)
    if Reg32 &&& H.B_GSTS_REG_QIES ≠ 0 then
      MmioWrite32 ((← unitInfo VtdIndex).VtdUnitBaseAddress + H.R_GCMD_REG)
        (Reg32 &&& not32 H.B_GSTS_REG_QIES)
      let _ ← doWhile (do
        let Reg32 ← MmioRead32 P ((← unitInfo VtdIndex).VtdUnitBaseAddress + H.R_GSTS_REG)
        pure (Reg32, decide (Reg32 &&& H.B_GSTS_REG_QIES ≠ 0))) P.fuel
    PerpareCacheInvalidationInterface.setup H P VtdIndex

/-- `QueuedInvalidationCheckFault`. -/
def QueuedInvalidationCheckFault (H : VtdHeader) (P : Platform) (VtdIndex : Nat) :
    M EFI_STATUS := do
  let FaultReg ← MmioRead32 P ((← unitInfo VtdIndex).VtdUnitBaseAddress + H.R_FSTS_REG)
  if FaultReg &&& H.B_FSTS_REG_IQE ≠ 0 then
    MmioWrite32 ((← unitInfo VtdIndex).VtdUnitBaseAddress + H.R_FSTS_REG)
      (FaultReg ||| H.B_FSTS_REG_IQE)
    return EFI_DEVICE_ERROR
  else if FaultReg &&& H.B_FSTS_REG_ITE ≠ 0 then
    MmioWrite32 ((← unitInfo VtdIndex).VtdUnitBaseAddress + H.R_FSTS_REG)
      (FaultReg ||| H.B_FSTS_REG_ITE)
    return EFI_DEVICE_ERROR
  else if FaultReg &&& H.B_FSTS_REG_ICE ≠ 0 then
    MmioWrite32 ((← unitInfo VtdIndex).VtdUnitBaseAddress + H.R_FSTS_REG)
      (FaultReg ||| H.B_FSTS_REG_ICE)
    return EFI_DEVICE_ERROR
  else
    return EFI_SUCCESS

/-- The address of `BaseDesc[Index]`; its field `Low` is at offset 0, `High` one `UINT64`
further. -/
def descAddress (H : VtdHeader) (BaseDesc Index : Nat) : Nat :=
  BaseDesc + H.sizeof_QI_DESC * Index

/-- The body of the completion loop of `SubmitQueuedInvalidationDescriptor`: the `Status` of
the fault check and whether the loop goes round again (`break` on a fault, else until the head
register equals the tail value written). -/
def SubmitQueuedInvalidationDescriptor.poll (H : VtdHeader) (P : Platform) (VtdIndex : Nat)
    (Reg64Iqt : Nat) : M (EFI_STATUS × Bool) := do
  let Status ← QueuedInvalidationCheckFault H P VtdIndex
  if Status ≠ EFI_SUCCESS then
    pure (Status, false)
  else
    let Reg64Iqh ← MmioRead64 P ((← unitInfo VtdIndex).VtdUnitBaseAddress + H.R_IQH_REG)
    pure (Status, decide (Reg64Iqt ≠ Reg64Iqh))

/-- `SubmitQueuedInvalidationDescriptor`; `Desc` is `none` for a `NULL` pointer.  The remainder
by a `QiDescLength` of zero does not return. -/
def SubmitQueuedInvalidationDescriptor (H : VtdHeader) (P : Platform) (VtdIndex : Nat)
    (Desc : Option QI_DESC) : M EFI_STATUS := do
  match Desc with
  | none => return EFI_INVALID_PARAMETER
  | some Desc =>
    let QiDescLength := UINT16 (← unitInfo VtdIndex).QiDescLength
    let BaseDesc := (← unitInfo VtdIndex).QiDesc
    store64 (descAddress H BaseDesc (← unitInfo VtdIndex).QiFreeHead) Desc.Low
    store64 (descAddress H BaseDesc (← unitInfo VtdIndex).QiFreeHead + 8) Desc.High
    FlushPageTableMemory H VtdIndex (descAddress H BaseDesc (← unitInfo VtdIndex).QiFreeHead)
      H.sizeof_QI_DESC
    if QiDescLength = 0 then
      halt Stop.divideByZero
    else
      setUnitInfo VtdIndex
        (fun U => { U with QiFreeHead := UINT16 ((U.QiFreeHead + 1) % QiDescLength) })
      -- Update the HW tail register indicating the presence of new descriptors.
      let Reg64Iqt := UINT64 ((← unitInfo VtdIndex).QiFreeHead <<< H.DMAR_IQ_SHIFT)
      MmioWrite64 ((← unitInfo VtdIndex).VtdUnitBaseAddress + H.R_IQT_REG) Reg64Iqt
      doWhile (SubmitQueuedInvalidationDescriptor.poll H P VtdIndex Reg64Iqt) P.fuel

/-- `InvalidateContextCache`. -/
def InvalidateContextCache (H : VtdHeader) (P : Platform) (VtdIndex : Nat) : M EFI_STATUS := do
  if (← unitInfo VtdIndex).EnableQueuedInvalidation = 0 then
    -- Register-based Invalidation
    let Reg64 ← MmioRead64 P ((← unitInfo VtdIndex).VtdUnitBaseAddress + H.R_CCMD_REG)
    if Reg64 &&& H.B_CCMD_REG_ICC ≠ 0 then
      return EFI_DEVICE_ERROR
    else
      MmioWrite64 ((← unitInfo VtdIndex).VtdUnitBaseAddress + H.R_CCMD_REG)
        ((Reg64 &&& (not64 H.B_CCMD_REG_ICC &&& not64 H.B_CCMD_REG_CIRG_MASK))
          ||| (H.B_CCMD_REG_ICC ||| H.V_CCMD_REG_CIRG_GLOBAL))
      let _ ← doWhile (do
        let Reg64 ← MmioRead64 P ((← unitInfo VtdIndex).VtdUnitBaseAddress + H.R_CCMD_REG)
        pure (Reg64, decide (Reg64 &&& H.B_CCMD_REG_ICC ≠ 0))) P.fuel
      return EFI_SUCCESS
  else
    -- Queued Invalidation
    let QiDesc : QI_DESC :=
      { Low := UINT64 (H.QI_CC_FM 0 ||| H.QI_CC_SID 0 ||| H.QI_CC_DID 0 ||| H.QI_CC_GRAN 1
          ||| H.QI_CC_TYPE)
        High := 0 }
    SubmitQueuedInvalidationDescriptor H P VtdIndex (some QiDesc)

/-- The address of the IOTLB register of a unit: base, `ECapReg.Bits.IRO * 16`,
`R_IOTLB_REG`. -/
def iotlbAddress (H : VtdHeader) (U : VTD_UNIT_INFORMATION) : Nat :=
  U.VtdUnitBaseAddress + H.ECapReg_IRO U.ECapReg * 16 + H.R_IOTLB_REG

/-- `InvalidateIOTLB`. -/
def InvalidateIOTLB (H : VtdHeader) (P : Platform) (VtdIndex : Nat) : M EFI_STATUS := do
  if (← unitInfo VtdIndex).EnableQueuedInvalidation = 0 then
    -- Register-based Invalidation
    let Reg64 ← MmioRead64 P (iotlbAddress H (← unitInfo VtdIndex))
    if Reg64 &&& H.B_IOTLB_REG_IVT ≠ 0 then
      return EFI_DEVICE_ERROR
    else
      MmioWrite64 (iotlbAddress H (← unitInfo VtdIndex))
        ((Reg64 &&& (not64 H.B_IOTLB_REG_IVT &&& not64 H.B_IOTLB_REG_IIRG_MASK))
          ||| (H.B_IOTLB_REG_IVT ||| H.V_IOTLB_REG_IIRG_GLOBAL))
      let _ ← doWhile (do
        let Reg64 ← MmioRead64 P (iotlbAddress H (← unitInfo VtdIndex))
        pure (Reg64, decide (Reg64 &&& H.B_IOTLB_REG_IVT ≠ 0))) P.fuel
      return EFI_SUCCESS
  else
    -- Queued Invalidation
    let QiDesc : QI_DESC :=
      { Low := UINT64 (H.QI_IOTLB_DID 0
          ||| H.QI_IOTLB_DR (H.CAP_READ_DRAIN (← unitInfo VtdIndex).CapReg)
          ||| H.QI_IOTLB_DW (H.CAP_WRITE_DRAIN (← unitInfo VtdIndex).CapReg)
          ||| H.QI_IOTLB_GRAN 1 ||| H.QI_IOTLB_TYPE)
        High := UINT64 (H.QI_IOTLB_ADDR 0 ||| H.QI_IOTLB_IH 0 ||| H.QI_IOTLB_AM 0) }
    SubmitQueuedInvalidationDescriptor H P VtdIndex (some QiDesc)

/-- `InvalidateVtdIOTLBGlobal`. -/
def InvalidateVtdIOTLBGlobal (H : VtdHeader) (P : Platform) (VtdIndex : Nat) :
    M EFI_STATUS := do
  if !(← vtdEnabled) then
    return EFI_SUCCESS
  else
    -- Write Buffer Flush before invalidation
    FlushWriteBuffer H P VtdIndex
    -- Invalidate the context cache
    if (← unitInfo VtdIndex).HasDirtyContext then
      let _ ← InvalidateContextCache H P VtdIndex
    -- Invalidate the IOTLB cache
    if (← unitInfo VtdIndex).HasDirtyContext || (← unitInfo VtdIndex).HasDirtyPages then
      let _ ← InvalidateIOTLB H P VtdIndex
    return EFI_SUCCESS

/-- The body of the loop of `PrepareVtdConfig` for the engine `Index`.  The value is `true`
when the loop goes on to the next engine and `false` when the body executes `return`.  The
build-dependent `ASSERT (FALSE)` is recorded in the history and execution continues to the
`return` that follows it. -/
def PrepareVtdConfig.engine (H : VtdHeader) (P : Platform) (Index : Nat) : M Bool := do
  let Ver ← MmioRead32 P ((← unitInfo Index).VtdUnitBaseAddress + H.R_VER_REG)
  setUnitInfo Index (fun U => { U with VerReg := Ver })
  let Cap ← MmioRead64 P ((← unitInfo Index).VtdUnitBaseAddress + H.R_CAP_REG)
  setUnitInfo Index (fun U => { U with CapReg := Cap })
  let ECap ← MmioRead64 P ((← unitInfo Index).VtdUnitBaseAddress + H.R_ECAP_REG)
  setUnitInfo Index (fun U => { U with ECapReg := ECap })
  if H.CapReg_SAGAW (← unitInfo Index).CapReg &&& (BIT 3 ||| BIT 2) = 0 then
    return false
  else
    let DomainNumber :=
      UINT64 (1 <<< UINT8 (H.CapReg_ND (← unitInfo Index).CapReg * 2 + 4))
    if (← unitInfo Index).PciDeviceDataNumber ≥ DomainNumber then
      return false
    else
      let Status ← PerpareCacheInvalidationInterface H P Index
      if EFI_ERROR Status then
        ASSERT_FALSE
        return false
      else
        return true

/-- The loop `for (Index = ...; Index < mVtdUnitNumber; Index++)` of `PrepareVtdConfig`, with
`count` engines left from `Index` on. -/
def PrepareVtdConfig.loop (H : VtdHeader) (P : Platform) : Nat → Nat → M Unit
  | 0, _ => pure ()
  | count + 1, Index => do
    if (← PrepareVtdConfig.engine H P Index) then
      PrepareVtdConfig.loop H P count (Index + 1)
    else
      return ()

/-- `PrepareVtdConfig`. -/
def PrepareVtdConfig (H : VtdHeader) (P : Platform) : M Unit :=
  fun w => PrepareVtdConfig.loop H P w.mVtdUnitNumber 0 w

/-- `DisableQueuedInvalidationInterface`. -/
def DisableQueuedInvalidationInterface (H : VtdHeader) (P : Platform) (VtdIndex : Nat) :
    M Unit := do
  if (← unitInfo VtdIndex).EnableQueuedInvalidation ≠ 0 then
    let Reg32 ← MmioRead32 P ((← unitInfo VtdIndex).VtdUnitBaseAddress + H.R_GSTS_REG)
    let Reg32 := Reg32 &&& not32 H.B_GMCD_REG_QIE
    MmioWrite32 ((← unitInfo VtdIndex).VtdUnitBaseAddress + H.R_GCMD_REG) Reg32
    let _ ← doWhile (do
      let Reg32 ← MmioRead32 P ((← unitInfo VtdIndex).VtdUnitBaseAddress + H.R_GSTS_REG)
      pure (Reg32, decide (Reg32 &&& H.B_GSTS_REG_QIES ≠ 0))) P.fuel
    if (← unitInfo VtdIndex).QiDesc ≠ 0 then
      FreePages (← unitInfo VtdIndex).QiDesc
        (H.EFI_SIZE_TO_PAGES (H.sizeof_QI_DESC * (← unitInfo VtdIndex).QiDescLength))
      setUnitInfo VtdIndex (fun U => { U with QiDesc := 0 })
      setUnitInfo VtdIndex (fun U => { U with QiDescLength := 0 })
    setUnitInfo VtdIndex (fun U => { U with EnableQueuedInvalidation := 0 })

/-- The body of the loop of `DisablePmr` for the engine `Index`. -/
def DisablePmr.engine (H : VtdHeader) (P : Platform) (Index : Nat) : M Unit := do
  let CapReg ← MmioRead64 P ((← unitInfo Index).VtdUnitBaseAddress + H.R_CAP_REG)
  if H.CapReg_PLMR CapReg = 0 ∨ H.CapReg_PHMR CapReg = 0 then
    -- continue
    return ()
  else
    let Reg32 ← MmioRead32 P ((← unitInfo Index).VtdUnitBaseAddress + H.R_PMEN_ENABLE_REG)
    if Reg32 &&& BIT 0 ≠ 0 then
      MmioWrite32 ((← unitInfo Index).VtdUnitBaseAddress + H.R_PMEN_ENABLE_REG) 0x0
      let _ ← doWhile (do
        let Reg32 ← MmioRead32 P ((← unitInfo Index).VtdUnitBaseAddress + H.R_PMEN_ENABLE_REG)
        pure (Reg32, decide (Reg32 &&& BIT 0 ≠ 0))) P.fuel
      return ()
    else
      return ()

/-- `DisablePmr`. -/
def DisablePmr (H : VtdHeader) (P : Platform) : M Unit :=
  fun w => forIndex (fun Index _ => DisablePmr.engine H P Index) w.mVtdUnitNumber () w

/-- The body of the loop of `EnableDmar` for the engine `Index`. -/
def EnableDmar.engine (H : VtdHeader) (P : Platform) (Index : Nat) : M Unit := do
  if (← unitInfo Index).ExtRootEntryTable ≠ 0 then
    MmioWrite64 ((← unitInfo Index).VtdUnitBaseAddress + H.R_RTADDR_REG)
      (UINT64 (UINT64 (← unitInfo Index).ExtRootEntryTable) ||| BIT 11)
  else
    MmioWrite64 ((← unitInfo Index).VtdUnitBaseAddress + H.R_RTADDR_REG)
      (UINT64 (UINT64 (← unitInfo Index).RootEntryTable))
  let Reg32 ← MmioRead32 P ((← unitInfo Index).VtdUnitBaseAddress + H.R_GSTS_REG)
  MmioWrite32 ((← unitInfo Index).VtdUnitBaseAddress + H.R_GCMD_REG)
    (Reg32 ||| H.B_GMCD_REG_SRTP)
  let _ ← doWhile (do
    let Reg32 ← MmioRead32 P ((← unitInfo Index).VtdUnitBaseAddress + H.R_GSTS_REG)
    pure (Reg32, decide (Reg32 &&& H.B_GSTS_REG_RTPS = 0))) P.fuel
  -- Init DMAr Fault Event and Data registers
  let _ ← MmioRead32 P ((← unitInfo Index).VtdUnitBaseAddress + H.R_FEDATA_REG)
  -- Write Buffer Flush before invalidation
  FlushWriteBuffer H P Index
  -- Invalidate the context cache
  let _ ← InvalidateContextCache H P Index
  -- Invalidate the IOTLB cache
  let _ ← InvalidateIOTLB H P Index
  -- Enable VTd
  let Reg32 ← MmioRead32 P ((← unitInfo Index).VtdUnitBaseAddress + H.R_GSTS_REG)
  MmioWrite32 ((← unitInfo Index).VtdUnitBaseAddress + H.R_GCMD_REG)
    (Reg32 ||| H.B_GMCD_REG_TE)
  let _ ← doWhile (do
    let Reg32 ← MmioRead32 P ((← unitInfo Index).VtdUnitBaseAddress + H.R_GSTS_REG)
    pure (Reg32, decide (Reg32 &&& H.B_GSTS_REG_TE = 0))) P.fuel
  return ()

/-- `EnableDmar`. -/
def EnableDmar (H : VtdHeader) (P : Platform) : M EFI_STATUS := do
  (fun w => forIndex (fun Index _ => EnableDmar.engine H P Index) w.mVtdUnitNumber () w)
  -- Need disable PMR, since we already setup translation table.
  DisablePmr H P
  setVtdEnabled true
  return EFI_SUCCESS

/-- The body of the first loop of `DisableDmar` for the engine `Index`. -/
def DisableDmar.engine (H : VtdHeader) (P : Platform) (Index : Nat) : M Unit := do
  -- Write Buffer Flush before invalidation
  FlushWriteBuffer H P Index
  -- Set TE (Translation Enable: BIT31) of Global command register to zero
  let Reg32 ← MmioRead32 P ((← unitInfo Index).VtdUnitBaseAddress + H.R_GSTS_REG)
  let Status := Reg32 &&& 0x96FFFFFF
  let Command := Status &&& not32 H.B_GMCD_REG_TE
  MmioWrite32 ((← unitInfo Index).VtdUnitBaseAddress + H.R_GCMD_REG) Command
  -- Poll on TE Status bit of Global status register to become zero
  let _ ← doWhile (do
    let Reg32 ← MmioRead32 P ((← unitInfo Index).VtdUnitBaseAddress + H.R_GSTS_REG)
    pure (Reg32, decide (Reg32 &&& H.B_GSTS_REG_TE = H.B_GSTS_REG_TE))) P.fuel
  -- Set SRTP (Set Root Table Pointer: BIT30) of Global command register
  let Reg32 ← MmioRead32 P ((← unitInfo Index).VtdUnitBaseAddress + H.R_GSTS_REG)
  let Status := Reg32 &&& 0x96FFFFFF
  let Command := Status ||| H.B_GMCD_REG_SRTP
  MmioWrite32 ((← unitInfo Index).VtdUnitBaseAddress + H.R_GCMD_REG) Command
  let _ ← doWhile (do
    let Reg32 ← MmioRead32 P ((← unitInfo Index).VtdUnitBaseAddress + H.R_GSTS_REG)
    pure (Reg32, decide (Reg32 &&& H.B_GSTS_REG_RTPS = 0))) P.fuel
  let _ ← MmioRead32 P ((← unitInfo Index).VtdUnitBaseAddress + H.R_GSTS_REG)
  DisableQueuedInvalidationInterface H P Index

/-- `DisableDmar`.  Its second loop only prints `DEBUG` output. -/
def DisableDmar (H : VtdHeader) (P : Platform) : M EFI_STATUS := do
  (fun w => forIndex (fun Index _ => DisableDmar.engine H P Index) w.mVtdUnitNumber () w)
  setVtdEnabled false
  return EFI_SUCCESS

/-- The address of the upper half `Uint64[1]` of the fault recording register `Index` of an
engine at `Base` whose capability register reads `CapReg`: base,
`(CapReg.Bits.FRO * 16) + (Index * 16) + R_FRCD_REG + sizeof (UINT64)`. -/
def frcdHigh (H : VtdHeader) (Base CapReg Index : Nat) : Nat :=
  Base + (H.CapReg_FRO CapReg * 16 + Index * 16 + H.R_FRCD_REG + 8)

/-- The number of passes `(UINTN)CapReg.Bits.NFR + 1` of the loops over the fault recording
registers. -/
def frcdCount (H : VtdHeader) (CapReg : Nat) : Nat :=
  UINT64 (UINT64 (H.CapReg_NFR CapReg) + 1)

/-- `DumpVtdRegs`: the register reads; what it prints is left out. -/
def DumpVtdRegs (H : VtdHeader) (P : Platform) (VtdIndex : Nat) : M Unit := do
  let _ ← MmioRead32 P ((← unitInfo VtdIndex).VtdUnitBaseAddress + H.R_VER_REG)
  let CapReg ← MmioRead64 P ((← unitInfo VtdIndex).VtdUnitBaseAddress + H.R_CAP_REG)
  let _ ← MmioRead64 P ((← unitInfo VtdIndex).VtdUnitBaseAddress + H.R_ECAP_REG)
  let _ ← MmioRead32 P ((← unitInfo VtdIndex).VtdUnitBaseAddress + H.R_GSTS_REG)
  let _ ← MmioRead64 P ((← unitInfo VtdIndex).VtdUnitBaseAddress + H.R_RTADDR_REG)
  let _ ← MmioRead64 P ((← unitInfo VtdIndex).VtdUnitBaseAddress + H.R_CCMD_REG)
  let _ ← MmioRead32 P ((← unitInfo VtdIndex).VtdUnitBaseAddress + H.R_FSTS_REG)
  let _ ← MmioRead32 P ((← unitInfo VtdIndex).VtdUnitBaseAddress + H.R_FECTL_REG)
  let _ ← MmioRead32 P ((← unitInfo VtdIndex).VtdUnitBaseAddress + H.R_FEDATA_REG)
  let _ ← MmioRead32 P ((← unitInfo VtdIndex).VtdUnitBaseAddress + H.R_FEADDR_REG)
  let _ ← MmioRead32 P ((← unitInfo VtdIndex).VtdUnitBaseAddress + H.R_FEUADDR_REG)
  forIndex (fun Index _ => do
    let _ ← MmioRead64 P ((← unitInfo VtdIndex).VtdUnitBaseAddress
      + (H.CapReg_FRO CapReg * 16 + Index * 16 + H.R_FRCD_REG))
    let _ ← MmioRead64 P (frcdHigh H (← unitInfo VtdIndex).VtdUnitBaseAddress CapReg Index)
    return ()) (frcdCount H CapReg) ()
  let _ ← MmioRead64 P ((← unitInfo VtdIndex).VtdUnitBaseAddress
    + H.ECapReg_IRO (← unitInfo VtdIndex).ECapReg * 16 + H.R_IVA_REG)
  let _ ← MmioRead64 P ((← unitInfo VtdIndex).VtdUnitBaseAddress
    + H.ECapReg_IRO (← unitInfo VtdIndex).ECapReg * 16 + H.R_IOTLB_REG)
  return ()

/-- The body of the first loop over the fault recording registers in `DumpVtdIfError`, for the
engine `Num` and the register `Index`; the value is the new `HasError`. -/
def DumpVtdIfError.scan (H : VtdHeader) (P : Platform) (Num CapReg Index : Nat)
    (HasError : Bool) : M Bool := do
  let _ ← MmioRead64 P ((← unitInfo Num).VtdUnitBaseAddress
    + (H.CapReg_FRO CapReg * 16 + Index * 16 + H.R_FRCD_REG))
  let Uint64_1 ← MmioRead64 P (frcdHigh H (← unitInfo Num).VtdUnitBaseAddress CapReg Index)
  if H.FrcdReg_F Uint64_1 ≠ 0 then
    return true
  else
    return HasError

/-- The body of the second loop ("Clear") over the fault recording registers in
`DumpVtdIfError`, for the engine `Num` and the register `Index`. -/
def DumpVtdIfError.clear (H : VtdHeader) (P : Platform) (Num CapReg Index : Nat) : M Unit := do
  let Uint64_1 ← MmioRead64 P (frcdHigh H (← unitInfo Num).VtdUnitBaseAddress CapReg Index)
  if H.FrcdReg_F Uint64_1 ≠ 0 then
    -- Software writes the value read from this field (F) to Clear it.
    MmioWrite64 (frcdHigh H (← unitInfo Num).VtdUnitBaseAddress CapReg Index) Uint64_1
  else
    return ()

/-- What `DumpVtdIfError` does for the engine `Num` when `HasError` is set. -/
def DumpVtdIfError.report (H : VtdHeader) (P : Platform) (Num CapReg : Nat) : M Unit := do
  REPORT_STATUS_CODE
  DumpVtdRegs H P Num
  -- Clear
  forIndex (fun Index _ => DumpVtdIfError.clear H P Num CapReg Index) (frcdCount H CapReg) ()
  let Reg32 ← MmioRead32 P ((← unitInfo Num).VtdUnitBaseAddress + H.R_FSTS_REG)
  MmioWrite32 ((← unitInfo Num).VtdUnitBaseAddress + H.R_FSTS_REG) Reg32

/-- The body of the loop of `DumpVtdIfError` for the engine `Num`. -/
def DumpVtdIfError.engine (H : VtdHeader) (P : Platform) (Num : Nat) : M Unit := do
  let HasError := false
  let Reg32 ← MmioRead32 P ((← unitInfo Num).VtdUnitBaseAddress + H.R_FSTS_REG)
  let HasError := if Reg32 ≠ 0 then true else HasError
  let Reg32 ← MmioRead32 P ((← unitInfo Num).VtdUnitBaseAddress + H.R_FECTL_REG)
  let HasError := if Reg32 &&& BIT 30 ≠ 0 then true else HasError
  let CapReg ← MmioRead64 P ((← unitInfo Num).VtdUnitBaseAddress + H.R_CAP_REG)
  let HasError ← forIndex (DumpVtdIfError.scan H P Num CapReg) (frcdCount H CapReg) HasError
  if HasError then
    DumpVtdIfError.report H P Num CapReg
  else
    return ()

/-- `DumpVtdIfError`. -/
def DumpVtdIfError (H : VtdHeader) (P : Platform) : M Unit :=
  fun w => forIndex (fun Num _ => DumpVtdIfError.engine H P Num) w.mVtdUnitNumber () w

/-! ## Vocabulary of the statements -/

/-- Register writes (`MmioWrite32`, `MmioWrite64`). -/
def Event.isWrite : Event → Bool
  | Event.write32 _ _ => true
  | Event.write64 _ _ => true
  | _ => false

/-- Register reads (`MmioRead32`, `MmioRead64`). -/
def Event.isRead : Event → Bool
  | Event.read32 _ _ => true
  | Event.read64 _ _ => true
  | _ => false

/-- Page allocations. -/
def Event.isAlloc : Event → Bool
  | Event.allocPages _ _ => true
  | _ => false

/-- The register writes of a history, in order. -/
def registerWrites (t : List Event) : List Event := t.filter Event.isWrite

/-- The page allocations of a history, in order. -/
def allocations (t : List Event) : List Event := t.filter Event.isAlloc

/-- The device answers a 32-bit poll: read again and again at `A` from the history `t`, it
shows a value accepted by `done` in one of the first `n + 1` reads. -/
def acks32 (P : Platform) (A : Nat) (done : Nat → Bool) : Nat → List Event → Bool
  | 0, t => done (UINT32 (P.reg t 32 A))
  | n + 1, t => done (UINT32 (P.reg t 32 A))
      || acks32 P A done n (t ++ [Event.read32 A (UINT32 (P.reg t 32 A))])

/-- The device answers a 64-bit poll, as `acks32`. -/
def acks64 (P : Platform) (A : Nat) (done : Nat → Bool) : Nat → List Event → Bool
  | 0, t => done (UINT64 (P.reg t 64 A))
  | n + 1, t => done (UINT64 (P.reg t 64 A))
      || acks64 P A done n (t ++ [Event.read64 A (UINT64 (P.reg t 64 A))])

/-- What a register-based invalidation through the 64-bit command register at `A` does, from
the world `w` to the outcome `r`; `busy` is the in-progress bit of the register, `mask` its
granularity field and `glob` the GLOBAL value of the field.  With `v` the value first read:
if `busy` is set in `v` the outcome is `EFI_DEVICE_ERROR` after that one read, with no register
write; otherwise exactly one register write is made, of `cmd`, which has `busy` set, the field
equal to `glob` and every other bit as in `v`, only reads of `A` follow, and the outcome is
`EFI_SUCCESS` when a later read shows `busy` clear within the fuel, a spin otherwise. -/
def RegisterInvalidationContract (P : Platform) (A busy mask glob : Nat) (w : World)
    (r : Res EFI_STATUS × World) : Prop :=
  let v := UINT64 (P.reg w.trace 64 A)
  let cmd := UINT64 ((v &&& (not64 busy &&& not64 mask)) ||| (busy ||| glob))
  (v &&& busy ≠ 0 →
    r = (Res.ok EFI_DEVICE_ERROR, { w with trace := w.trace ++ [Event.read64 A v] }) ∧
    registerWrites r.2.trace = registerWrites w.trace) ∧
  (v &&& busy = 0 →
    (∃ ext, r.2 = { w with trace := w.trace ++ [Event.read64 A v, Event.write64 A cmd] ++ ext } ∧
      ∀ e ∈ ext, ∃ x, e = Event.read64 A x) ∧
    registerWrites r.2.trace = registerWrites w.trace ++ [Event.write64 A cmd] ∧
    cmd &&& busy = busy ∧ cmd &&& mask = glob ∧
    (∀ i, busy.testBit i = false → mask.testBit i = false → cmd.testBit i = v.testBit i) ∧
    r.1 = (if acks64 P A (fun x => decide (x &&& busy = 0)) P.fuel
        (w.trace ++ [Event.read64 A v, Event.write64 A cmd]) = true
      then Res.ok EFI_SUCCESS else Res.stop Stop.spin))

/-- The value of the last 64-bit write to the register at `A` in a history, if there is one. -/
def lastWrite64 (A : Nat) (t : List Event) : Option Nat :=
  t.foldl (fun acc e =>
    match e with
    | Event.write64 a v => if a = A then some v else acc
    | _ => acc) none

/-- The world in which `SubmitQueuedInvalidationDescriptor` starts to poll for completion, for
a descriptor `D` and a non-zero `QiDescLength`: the descriptor stored in the slot at
`QiFreeHead` (and written back from the data cache when the engine is not coherent), the free
head advanced, the tail register written. -/
def submitted (H : VtdHeader) (VtdIndex : Nat) (D : QI_DESC) (w : World) : World :=
  let U := w.mVtdUnitInformation VtdIndex
  let slot := descAddress H U.QiDesc U.QiFreeHead
  let head := UINT16 ((U.QiFreeHead + 1) % UINT16 U.QiDescLength)
  { w with
    memory :=
      Function.update (Function.update w.memory slot (UINT64 D.Low)) (slot + 8) (UINT64 D.High)
    mVtdUnitInformation :=
      Function.update w.mVtdUnitInformation VtdIndex { U with QiFreeHead := head }
    trace := w.trace
      ++ [Event.store64 slot (UINT64 D.Low), Event.store64 (slot + 8) (UINT64 D.High)]
      ++ (if H.ECapReg_C U.ECapReg = 0 then [Event.writeBack slot H.sizeof_QI_DESC] else [])
      ++ [Event.write64 (U.VtdUnitBaseAddress + H.R_IQT_REG)
            (UINT64 (head <<< H.DMAR_IQ_SHIFT))] }

/-- The events of the completion loop of a submission: reads of the fault-status register at
`F` and of the head register at `Q`, and the write-back of the fault-status register. -/
def pollEvent (F Q : Nat) (e : Event) : Prop :=
  (∃ v, e = Event.read32 F v) ∨ (∃ v, e = Event.write32 F v) ∨ (∃ v, e = Event.read64 Q v)

/-- One submission after the other, for each descriptor of a list, whatever status each one
returns. -/
def submitEach (H : VtdHeader) (P : Platform) (VtdIndex : Nat) : List QI_DESC → M Unit
  | [] => pure ()
  | D :: Ds => do
    let _ ← SubmitQueuedInvalidationDescriptor H P VtdIndex (some D)
    submitEach H P VtdIndex Ds

/-- The world after `PrepareVtdConfig` has read the version, capability and extended capability
registers of the engine `Index` into its unit record: the capability snapshot of the engine. -/
def snapshot (H : VtdHeader) (P : Platform) (Index : Nat) (w : World) : World :=
  let U := w.mVtdUnitInformation Index
  let ver := UINT32 (P.reg w.trace 32 (U.VtdUnitBaseAddress + H.R_VER_REG))
  let t1 := w.trace ++ [Event.read32 (U.VtdUnitBaseAddress + H.R_VER_REG) ver]
  let cap := UINT64 (P.reg t1 64 (U.VtdUnitBaseAddress + H.R_CAP_REG))
  let t2 := t1 ++ [Event.read64 (U.VtdUnitBaseAddress + H.R_CAP_REG) cap]
  let ecap := UINT64 (P.reg t2 64 (U.VtdUnitBaseAddress + H.R_ECAP_REG))
  { w with
    mVtdUnitInformation := Function.update w.mVtdUnitInformation Index
      { U with VerReg := ver, CapReg := cap, ECapReg := ecap }
    trace := t2 ++ [Event.read64 (U.VtdUnitBaseAddress + H.R_ECAP_REG) ecap] }

/-- The passes of the loop of `PrepareVtdConfig` over the engines below `k`, in index order; the
value is `true` when none of them has executed `return`. -/
def enginesBelow (H : VtdHeader) (P : Platform) : Nat → M Bool
  | 0 => pure true
  | k + 1 => do
    if (← enginesBelow H P k) then
      PrepareVtdConfig.engine H P k
    else
      pure false

/-- The dirty flags (`HasDirtyContext`, `HasDirtyPages`) of every engine. -/
def dirtyFlags (w : World) : Nat → Bool × Bool :=
  fun j => ((w.mVtdUnitInformation j).HasDirtyContext, (w.mVtdUnitInformation j).HasDirtyPages)

/-- The computation `m` leaves the observation `f` of the world as it was, whatever the
outcome. -/
def Keeps {β α : Type} (f : World → β) (m : M α) : Prop := ∀ w, f (m w).2 = f w

/-- An instance of the header parameters: the register offsets, bits and field positions of
the VT-d architecture, with a 16-byte descriptor and 4 KiB pages.  It is the header of the
concrete examples. -/
def vtdHeader : VtdHeader where
  R_VER_REG := 0x00
  R_CAP_REG := 0x08
  R_ECAP_REG := 0x10
  R_GCMD_REG := 0x18
  R_GSTS_REG := 0x1C
  R_RTADDR_REG := 0x20
  R_CCMD_REG := 0x28
  R_FSTS_REG := 0x34
  R_FECTL_REG := 0x38
  R_FEDATA_REG := 0x3C
  R_FEADDR_REG := 0x40
  R_FEUADDR_REG := 0x44
  R_IQH_REG := 0x80
  R_IQT_REG := 0x88
  R_IQA_REG := 0x90
  R_IVA_REG := 0x00
  R_IOTLB_REG := 0x08
  R_FRCD_REG := 0x00
  R_PMEN_ENABLE_REG := 0x64
  B_GMCD_REG_WBF := BIT 27
  B_GMCD_REG_QIE := BIT 26
  B_GMCD_REG_SRTP := BIT 30
  B_GMCD_REG_TE := BIT 31
  B_GSTS_REG_WBF := BIT 27
  B_GSTS_REG_QIES := BIT 26
  B_GSTS_REG_RTPS := BIT 30
  B_GSTS_REG_TE := BIT 31
  B_FSTS_REG_IQE := BIT 4
  B_FSTS_REG_ITE := BIT 6
  B_FSTS_REG_ICE := BIT 5
  B_CCMD_REG_ICC := BIT 63
  B_CCMD_REG_CIRG_MASK := BIT 62 ||| BIT 61
  V_CCMD_REG_CIRG_GLOBAL := BIT 61
  B_IOTLB_REG_IVT := BIT 63
  B_IOTLB_REG_IIRG_MASK := BIT 61 ||| BIT 60
  V_IOTLB_REG_IIRG_GLOBAL := BIT 60
  DMAR_IQ_SHIFT := 4
  QI_CC_TYPE := 0x1
  QI_IOTLB_TYPE := 0x2
  QI_CC_FM := fun fm => UINT64 fm <<< 48
  QI_CC_SID := fun sid => UINT64 sid <<< 32
  QI_CC_DID := fun did => UINT64 did <<< 16
  QI_CC_GRAN := fun gran => UINT64 gran <<< 4
  QI_IOTLB_DID := fun did => UINT64 did <<< 16
  QI_IOTLB_DR := fun dr => UINT64 dr <<< 7
  QI_IOTLB_DW := fun dw => UINT64 dw <<< 6
  QI_IOTLB_GRAN := fun gran => UINT64 gran <<< 4
  QI_IOTLB_ADDR := fun addr => UINT64 addr &&& not64 0xFFF
  QI_IOTLB_IH := fun ih => UINT64 ih <<< 6
  QI_IOTLB_AM := fun am => UINT8 am &&& 0x3f
  CAP_READ_DRAIN := fun c => (c >>> 55) &&& 1
  CAP_WRITE_DRAIN := fun c => (c >>> 54) &&& 1
  sizeof_QI_DESC := 16
  EFI_SIZE_TO_PAGES := fun size => (size >>> 12) + (if size &&& 0xFFF ≠ 0 then 1 else 0)
  VerReg_Major := fun r => (r >>> 4) &&& 0xF
  CapReg_ND := fun r => r &&& 0x7
  CapReg_RWBF := fun r => (r >>> 4) &&& 1
  CapReg_PLMR := fun r => (r >>> 5) &&& 1
  CapReg_PHMR := fun r => (r >>> 6) &&& 1
  CapReg_SAGAW := fun r => (r >>> 8) &&& 0x1F
  CapReg_SLLPS := fun r => (r >>> 34) &&& 0xF
  CapReg_NFR := fun r => (r >>> 40) &&& 0xFF
  CapReg_FRO := fun r => (r >>> 24) &&& 0x3FF
  ECapReg_C := fun r => r &&& 1
  ECapReg_QI := fun r => (r >>> 1) &&& 1
  ECapReg_IRO := fun r => (r >>> 8) &&& 0x3FF
  FrcdReg_F := fun r => (r >>> 63) &&& 1

/-- A unit record with every field zero. -/
def zeroUnit : VTD_UNIT_INFORMATION where
  VtdUnitBaseAddress := 0
  VerReg := 0
  CapReg := 0
  ECapReg := 0
  RootEntryTable := 0
  ExtRootEntryTable := 0
  HasDirtyContext := false
  HasDirtyPages := false
  PciDeviceDataNumber := 0
  EnableQueuedInvalidation := 0
  QiDescLength := 0
  QiDesc := 0
  QiFreeHead := 0

/-- A unit record of an engine in Queued mode at base address 0, its ring at address `0x1000`
with the given capacity and free head. -/
def queuedUnit (QiDescLength QiFreeHead : Nat) : VTD_UNIT_INFORMATION :=
  { zeroUnit with
    EnableQueuedInvalidation := 1
    QiDescLength := QiDescLength
    QiDesc := 0x1000
    QiFreeHead := QiFreeHead }

/-- A world with one engine `U`, translation `enabled` or not, zeroed memory and no history. -/
def oneUnitWorld (U : VTD_UNIT_INFORMATION) (enabled : Bool) : World where
  mVtdUnitNumber := 1
  mVtdUnitInformation := fun _ => U
  mVtdEnabled := enabled
  memory := fun _ => 0
  trace := []

/-- The value of the last 32-bit write to the register at `A` in a history, if there is one. -/
def lastWrite32 (A : Nat) (t : List Event) : Option Nat :=
  t.foldl (fun acc e =>
    match e with
    | Event.write32 a v => if a = A then some v else acc
    | _ => acc) none

/-- A platform that answers at once, for an engine at base address 0 with the header
`vtdHeader`: the version, capability and extended capability registers read as `ver`, `cap` and
`ecap`; the global status register reads as the last value written to the global command
register, the queue head register as the last value written to the queue tail register;
every other register reads zero; the allocator returns `buffer`. -/
def promptPlatform (ver cap ecap buffer fuel : Nat) : Platform where
  reg := fun t _ a =>
    if a = vtdHeader.R_VER_REG then ver
    else if a = vtdHeader.R_CAP_REG then cap
    else if a = vtdHeader.R_ECAP_REG then ecap
    else if a = vtdHeader.R_GSTS_REG then (lastWrite32 vtdHeader.R_GCMD_REG t).getD 0
    else if a = vtdHeader.R_IQH_REG then (lastWrite64 vtdHeader.R_IQT_REG t).getD 0
    else 0
  pages := fun _ _ => buffer
  fuel := fuel

/-- A platform whose registers all read as `value`, whose allocator returns `buffer`, with
`fuel` further polls. -/
def constPlatform (value buffer fuel : Nat) : Platform where
  reg := fun _ _ _ => value
  pages := fun _ _ => buffer
  fuel := fuel

/-- Register accesses (`MmioRead32`, `MmioRead64`, `MmioWrite32`, `MmioWrite64`). -/
def Event.isMmio (e : Event) : Bool := e.isRead || e.isWrite

/-- Releases of pages. -/
def Event.isFree : Event → Bool
  | Event.freePages _ _ => true
  | _ => false

/-- The releases of pages of a history, in order. -/
def frees (t : List Event) : List Event := t.filter Event.isFree

/-- The computation `m`, run from `w`, returns, with a value and a world that satisfy `Q`. -/
def Returns {α : Type} (m : M α) (Q : α → World → Prop) (w : World) : Prop :=
  ∃ a w', m w = (Res.ok a, w') ∧ Q a w'

/-- The unit record `DisableQueuedInvalidationInterface` leaves: for an engine in Queued mode
the flag is cleared, and a ring that is not `NULL` is given up, with its length set to zero. -/
def disabledUnit (U : VTD_UNIT_INFORMATION) : VTD_UNIT_INFORMATION :=
  if U.EnableQueuedInvalidation ≠ 0 then
    if U.QiDesc ≠ 0 then
      { U with QiDesc := 0, QiDescLength := 0, EnableQueuedInvalidation := 0 }
    else
      { U with EnableQueuedInvalidation := 0 }
  else U

/-- The release of the ring of the unit record `U`, if the engine is in Queued mode with a
ring that is not `NULL`. -/
def ringFrees (H : VtdHeader) (U : VTD_UNIT_INFORMATION) : List Event :=
  if U.EnableQueuedInvalidation ≠ 0 ∧ U.QiDesc ≠ 0 then
    [Event.freePages U.QiDesc (H.EFI_SIZE_TO_PAGES (H.sizeof_QI_DESC * U.QiDescLength))]
  else []

/-- The engine with the unit record `U` answers the commands of `DisableDmar` within the fuel:
after a write of the global command with the write-buffer-flush bit set (on an engine that
requires the flush) the status shows the flush bit clear; after the command that clears the
translation-enable bit the status shows translation off; after a command with the
set-root-table-pointer bit the status shows the root-table-pointer bit; after the command that
clears the queued-invalidation-enable bit (on an engine in Queued mode) the status shows queued
invalidation off. -/
structure AnswersDisable (H : VtdHeader) (P : Platform) (U : VTD_UNIT_INFORMATION) : Prop where
  flush : H.CapReg_RWBF U.CapReg ≠ 0 → ∀ t v,
    acks32 P (U.VtdUnitBaseAddress + H.R_GSTS_REG)
      (fun r => decide (r &&& H.B_GSTS_REG_WBF = 0)) P.fuel
      (t ++ [Event.write32 (U.VtdUnitBaseAddress + H.R_GCMD_REG)
        (UINT32 (v ||| H.B_GMCD_REG_WBF))]) = true
  translationOff : ∀ t v,
    acks32 P (U.VtdUnitBaseAddress + H.R_GSTS_REG)
      (fun r => decide (r &&& H.B_GSTS_REG_TE ≠ H.B_GSTS_REG_TE)) P.fuel
      (t ++ [Event.write32 (U.VtdUnitBaseAddress + H.R_GCMD_REG)
        (UINT32 (v &&& 0x96FFFFFF &&& not32 H.B_GMCD_REG_TE))]) = true
  rootTable : ∀ t v,
    acks32 P (U.VtdUnitBaseAddress + H.R_GSTS_REG)
      (fun r => decide (r &&& H.B_GSTS_REG_RTPS ≠ 0)) P.fuel
      (t ++ [Event.write32 (U.VtdUnitBaseAddress + H.R_GCMD_REG)
        (UINT32 (v ||| H.B_GMCD_REG_SRTP))]) = true
  queueOff : U.EnableQueuedInvalidation ≠ 0 → ∀ t v,
    acks32 P (U.VtdUnitBaseAddress + H.R_GSTS_REG)
      (fun r => decide (r &&& H.B_GSTS_REG_QIES = 0)) P.fuel
      (t ++ [Event.write32 (U.VtdUnitBaseAddress + H.R_GCMD_REG)
        (UINT32 (v &&& not32 H.B_GMCD_REG_QIE))]) = true

/-- The engine with the unit record `U` answers the commands of `EnableDmar` within the fuel:
the root-table-pointer and write-buffer-flush commands as in `AnswersDisable`; after a write
of the context command register, and of the IOTLB register, the register shows the
invalidation bit clear; after a write of the global command with the translation-enable bit
set the status shows translation on; after the write of 0 to the PMR-enable register the
register shows bit 0 clear. -/
structure AnswersEnable (H : VtdHeader) (P : Platform) (U : VTD_UNIT_INFORMATION) : Prop where
  rootTable : ∀ t v,
    acks32 P (U.VtdUnitBaseAddress + H.R_GSTS_REG)
      (fun r => decide (r &&& H.B_GSTS_REG_RTPS ≠ 0)) P.fuel
      (t ++ [Event.write32 (U.VtdUnitBaseAddress + H.R_GCMD_REG)
        (UINT32 (v ||| H.B_GMCD_REG_SRTP))]) = true
  flush : H.CapReg_RWBF U.CapReg ≠ 0 → ∀ t v,
    acks32 P (U.VtdUnitBaseAddress + H.R_GSTS_REG)
      (fun r => decide (r &&& H.B_GSTS_REG_WBF = 0)) P.fuel
      (t ++ [Event.write32 (U.VtdUnitBaseAddress + H.R_GCMD_REG)
        (UINT32 (v ||| H.B_GMCD_REG_WBF))]) = true
  context : ∀ t v,
    acks64 P (U.VtdUnitBaseAddress + H.R_CCMD_REG)
      (fun r => decide (r &&& H.B_CCMD_REG_ICC = 0)) P.fuel
      (t ++ [Event.write64 (U.VtdUnitBaseAddress + H.R_CCMD_REG) v]) = true
  iotlb : ∀ t v,
    acks64 P (iotlbAddress H U)
      (fun r => decide (r &&& H.B_IOTLB_REG_IVT = 0)) P.fuel
      (t ++ [Event.write64 (iotlbAddress H U) v]) = true
  translationOn : ∀ t v,
    acks32 P (U.VtdUnitBaseAddress + H.R_GSTS_REG)
      (fun r => decide (r &&& H.B_GSTS_REG_TE ≠ 0)) P.fuel
      (t ++ [Event.write32 (U.VtdUnitBaseAddress + H.R_GCMD_REG)
        (UINT32 (v ||| H.B_GMCD_REG_TE))]) = true
  protectedOff : ∀ t,
    acks32 P (U.VtdUnitBaseAddress + H.R_PMEN_ENABLE_REG)
      (fun r => decide (r &&& BIT 0 = 0)) P.fuel
      (t ++ [Event.write32 (U.VtdUnitBaseAddress + H.R_PMEN_ENABLE_REG) 0]) = true

/-- The releases of the rings of the engines below `k` of the world `w`, in index order. -/
def ringFreesBelow (H : VtdHeader) (w : World) : Nat → List Event
  | 0 => []
  | k + 1 => ringFreesBelow H w k ++ ringFrees H (w.mVtdUnitInformation k)

/-- The history of the world `w` ends with the enabling of translation on the engine `i` and
its confirmation: a read `g` of the global status, the write of `g | B_GMCD_REG_TE` to the
global command, then reads of the global status only, the last of which shows
`B_GSTS_REG_TE` set. -/
def EndsEnabled (H : VtdHeader) (i : Nat) (w : World) : Prop :=
  ∃ t g mid v,
    w.trace = t
      ++ [Event.read32 ((w.mVtdUnitInformation i).VtdUnitBaseAddress + H.R_GSTS_REG) g,
          Event.write32 ((w.mVtdUnitInformation i).VtdUnitBaseAddress + H.R_GCMD_REG)
            (UINT32 (g ||| H.B_GMCD_REG_TE))]
      ++ mid
      ++ [Event.read32 ((w.mVtdUnitInformation i).VtdUnitBaseAddress + H.R_GSTS_REG) v] ∧
    (∀ e ∈ mid, ∃ x, e = Event.read32
      ((w.mVtdUnitInformation i).VtdUnitBaseAddress + H.R_GSTS_REG) x) ∧
    v &&& H.B_GSTS_REG_TE ≠ 0

/-- What a write of `v` leaves in a write-1-to-clear register that holds `cur`: the bits set in
`v` are cleared. -/
def clearBits (cur v : Nat) : Nat := cur ^^^ (cur &&& v)

/-- The content of the register at `A` of a write-1-to-clear register file after the history
`t`, from the initial contents `init`: every write to `A` clears the bits it has set; nothing
else changes a register. -/
def w1cValue (init : Nat → Nat) (t : List Event) (A : Nat) : Nat :=
  t.foldl (fun cur e =>
    match e with
    | Event.write32 a v => if a = A then clearBits cur v else cur
    | Event.write64 a v => if a = A then clearBits cur v else cur
    | _ => cur) (init A)

/-- A platform whose registers form a write-1-to-clear register file with the initial contents
`init`, in which no fault arises: a read shows the content, truncated to the width of the
read. -/
def w1cPlatform (init : Nat → Nat) (fuel : Nat) : Platform where
  reg := fun t _ A => w1cValue init t A
  pages := fun _ _ => 0
  fuel := fuel

/-- The number of status-code reports in a history. -/
def reports (t : List Event) : Nat := t.count Event.reportStatusCode

/-- Whether one of the fault recording registers below `k` of an engine at `Base`, with the
capability register `CapReg`, has its valid bit `F` set in the register state `ρ`. -/
def anyFaultRecord (H : VtdHeader) (ρ : Nat → Nat) (Base CapReg : Nat) : Nat → Bool
  | 0 => false
  | k + 1 => anyFaultRecord H ρ Base CapReg k
      || decide (H.FrcdReg_F (UINT64 (ρ (frcdHigh H Base CapReg k))) ≠ 0)

/-- Whether the engine with the unit record `U` has a fault to clear in the register state `ρ`:
a non-zero fault-status register, or a fault recording register with its valid bit set. -/
def hasFault (H : VtdHeader) (ρ : Nat → Nat) (U : VTD_UNIT_INFORMATION) : Bool :=
  decide (UINT32 (ρ (U.VtdUnitBaseAddress + H.R_FSTS_REG)) ≠ 0)
    || anyFaultRecord H ρ U.VtdUnitBaseAddress
        (UINT64 (ρ (U.VtdUnitBaseAddress + H.R_CAP_REG)))
        (frcdCount H (UINT64 (ρ (U.VtdUnitBaseAddress + H.R_CAP_REG))))

/-- The address `A` is a fault register of the engine with the unit record `U`, in the register
state `ρ`: its fault-status register, or the upper half of one of its fault recording
registers. -/
def IsFaultRegister (H : VtdHeader) (ρ : Nat → Nat) (U : VTD_UNIT_INFORMATION) (A : Nat) :
    Prop :=
  A = U.VtdUnitBaseAddress + H.R_FSTS_REG ∨
  ∃ k, k < frcdCount H (UINT64 (ρ (U.VtdUnitBaseAddress + H.R_CAP_REG))) ∧
    A = frcdHigh H U.VtdUnitBaseAddress (UINT64 (ρ (U.VtdUnitBaseAddress + H.R_CAP_REG))) k

/-- The registers of the engines below `n` are distinct, as far as the fault check goes: in the
register state `ρ`, no fault register of an engine is the capability or the fault-event-control
register of an engine, the fault-status register of an engine is none of its fault recording
registers, and no fault register of an engine is a fault register of another engine. -/
structure Separate (H : VtdHeader) (ρ : Nat → Nat) (w : World) (n : Nat) : Prop where
  capability : ∀ i j A, i < n → j < n → IsFaultRegister H ρ (w.mVtdUnitInformation i) A →
    A ≠ (w.mVtdUnitInformation j).VtdUnitBaseAddress + H.R_CAP_REG
  control : ∀ i j A, i < n → j < n → IsFaultRegister H ρ (w.mVtdUnitInformation i) A →
    A ≠ (w.mVtdUnitInformation j).VtdUnitBaseAddress + H.R_FECTL_REG
  status : ∀ i k, i < n →
    k < frcdCount H (UINT64 (ρ ((w.mVtdUnitInformation i).VtdUnitBaseAddress + H.R_CAP_REG))) →
    frcdHigh H (w.mVtdUnitInformation i).VtdUnitBaseAddress
      (UINT64 (ρ ((w.mVtdUnitInformation i).VtdUnitBaseAddress + H.R_CAP_REG))) k
        ≠ (w.mVtdUnitInformation i).VtdUnitBaseAddress + H.R_FSTS_REG
  engines : ∀ i j A, i < n → j < n → i ≠ j → IsFaultRegister H ρ (w.mVtdUnitInformation i) A →
    ¬ IsFaultRegister H ρ (w.mVtdUnitInformation j) A

/-- Every register write of the history `ext` is to an address in `S`. -/
def WritesOnly (S : Nat → Prop) (ext : List Event) : Prop :=
  ∀ e ∈ ext, (∀ a v, e = Event.write32 a v → S a) ∧ (∀ a v, e = Event.write64 a v → S a)

/-- The computation `m` returns from every world, after register reads only. -/
def ReadsOnly {α : Type} (m : M α) : Prop :=
  ∀ w, Returns m (fun _ w' => ∃ ext,
    w' = { w with trace := w.trace ++ ext } ∧ ext.all Event.isRead = true) w

/-- The value of `HasError` that `DumpVtdIfError` computes for the engine with the unit record
`U` in the register state `ρ`: a non-zero fault-status register, bit 30 of the
fault-event-control register, or a fault recording register with its valid bit set. -/
def hasError (H : VtdHeader) (ρ : Nat → Nat) (U : VTD_UNIT_INFORMATION) : Bool :=
  (decide (UINT32 (ρ (U.VtdUnitBaseAddress + H.R_FSTS_REG)) ≠ 0)
    || decide (UINT32 (ρ (U.VtdUnitBaseAddress + H.R_FECTL_REG)) &&& BIT 30 ≠ 0))
    || anyFaultRecord H ρ U.VtdUnitBaseAddress
        (UINT64 (ρ (U.VtdUnitBaseAddress + H.R_CAP_REG)))
        (frcdCount H (UINT64 (ρ (U.VtdUnitBaseAddress + H.R_CAP_REG))))

/-- Register contents of an engine at base address 0 with the layout of `vtdHeader`, one fault
recording register at offset `0x200`, and bit 30 of the fault-event-control register set:
the capability register holds `FRO = 0x20` and `NFR = 0`; every other register is zero. -/
def controlPending : Nat → Nat := fun A =>
  if A = 0x08 then 0x20000000 else if A = 0x38 then BIT 30 else 0

/-- Register contents of an engine at base address 0 with the layout of `vtdHeader`, one fault
recording register at offset `0x200` with its valid bit set, and a non-zero fault-status
register: the capability register holds `FRO = 0x20` and `NFR = 0`, the fault-status register
2, the upper half of the fault recording register `BIT 63`; every other register is zero. -/
def faultPending : Nat → Nat := fun A =>
  if A = 0x08 then 0x20000000 else if A = 0x34 then 2 else if A = 0x208 then BIT 63 else 0

/-! ## Running computations -/

@[simp] theorem pure_run {α : Type} (a : α) (w : World) : (pure a : M α) w = (Res.ok a, w) := rfl

@[simp] theorem bind_run {α β : Type} (m : M α) (f : α → M β) (w : World) :
    (m >>= f) w = M.andThen (m w) f := rfl

@[simp] theorem pure_bind_eq {α β : Type} (a : α) (f : α → M β) : (pure a >>= f) = f a := rfl

@[simp] theorem andThen_ok {α β : Type} (a : α) (w : World) (f : α → M β) :
    M.andThen (Res.ok a, w) f = f a w := rfl

@[simp] theorem andThen_stop {α β : Type} (s : Stop) (w : World) (f : α → M β) :
    M.andThen (Res.stop s, w) f = (Res.stop s, w) := rfl

@[simp] theorem ite_run {α : Type} (c : Prop) [Decidable c] (m n : M α) (w : World) :
    (if c then m else n) w = if c then m w else n w := by
  split <;> rfl

@[simp] theorem halt_run {α : Type} (s : Stop) (w : World) :
    (halt s : M α) w = (Res.stop s, w) := rfl

@[simp] theorem MmioRead32_run (P : Platform) (A : Nat) (w : World) :
    MmioRead32 P A w = (Res.ok (UINT32 (P.reg w.trace 32 A)),
      { w with trace := w.trace ++ [Event.read32 A (UINT32 (P.reg w.trace 32 A))] }) := rfl

@[simp] theorem MmioRead64_run (P : Platform) (A : Nat) (w : World) :
    MmioRead64 P A w = (Res.ok (UINT64 (P.reg w.trace 64 A)),
      { w with trace := w.trace ++ [Event.read64 A (UINT64 (P.reg w.trace 64 A))] }) := rfl

@[simp] theorem MmioWrite32_run (A v : Nat) (w : World) :
    MmioWrite32 A v w
      = (Res.ok (), { w with trace := w.trace ++ [Event.write32 A (UINT32 v)] }) := rfl

@[simp] theorem MmioWrite64_run (A v : Nat) (w : World) :
    MmioWrite64 A v w
      = (Res.ok (), { w with trace := w.trace ++ [Event.write64 A (UINT64 v)] }) := rfl

@[simp] theorem WriteBackDataCacheRange_run (B S : Nat) (w : World) :
    WriteBackDataCacheRange B S w
      = (Res.ok (), { w with trace := w.trace ++ [Event.writeBack B S] }) := rfl

@[simp] theorem AllocatePages_run (P : Platform) (n : Nat) (w : World) :
    AllocatePages P n w = (Res.ok (P.pages w.trace n),
      { w with trace := w.trace ++ [Event.allocPages n (P.pages w.trace n)] }) := rfl

@[simp] theorem FreePages_run (B n : Nat) (w : World) :
    FreePages B n w = (Res.ok (), { w with trace := w.trace ++ [Event.freePages B n] }) := rfl

@[simp] theorem store64_run (A v : Nat) (w : World) :
    store64 A v w = (Res.ok (), { w with
      memory := Function.update w.memory A (UINT64 v)
      trace := w.trace ++ [Event.store64 A (UINT64 v)] }) := rfl

@[simp] theorem unitInfo_run (i : Nat) (w : World) :
    unitInfo i w = (Res.ok (w.mVtdUnitInformation i), w) := rfl

@[simp] theorem setUnitInfo_run (i : Nat) (f : VTD_UNIT_INFORMATION → VTD_UNIT_INFORMATION)
    (w : World) :
    setUnitInfo i f w = (Res.ok (), { w with
      mVtdUnitInformation := Function.update w.mVtdUnitInformation i
        (f (w.mVtdUnitInformation i)) }) := rfl

@[simp] theorem vtdEnabled_run (w : World) : vtdEnabled w = (Res.ok w.mVtdEnabled, w) := rfl

@[simp] theorem ASSERT_FALSE_run (w : World) :
    ASSERT_FALSE w = (Res.ok (), { w with trace := w.trace ++ [Event.assertFalse] }) := rfl

@[simp] theorem UINT64_UINT64 (x : Nat) : UINT64 (UINT64 x) = UINT64 x := by
  simp [UINT64]

@[simp] theorem UINT32_UINT32 (x : Nat) : UINT32 (UINT32 x) = UINT32 x := by
  simp [UINT32]

theorem UINT64_lt (x : Nat) : UINT64 x < 2 ^ 64 := Nat.mod_lt _ (by decide)

theorem UINT32_lt (x : Nat) : UINT32 x < 2 ^ 32 := Nat.mod_lt _ (by decide)

theorem UINT16_lt (x : Nat) : UINT16 x < 2 ^ 16 := Nat.mod_lt _ (by decide)

theorem UINT16_of_lt {x : Nat} (h : x < 2 ^ 16) : UINT16 x = x := Nat.mod_eq_of_lt h

theorem UINT32_of_lt {x : Nat} (h : x < 2 ^ 32) : UINT32 x = x := Nat.mod_eq_of_lt h

theorem UINT64_of_lt {x : Nat} (h : x < 2 ^ 64) : UINT64 x = x := Nat.mod_eq_of_lt h

/-! ## Polling loops -/

theorem doWhile_zero {α : Type} (body : M (α × Bool)) (w : World) :
    doWhile body 0 w
      = M.andThen (body w) (fun r => if r.2 then halt Stop.spin else pure r.1) := rfl

theorem doWhile_succ {α : Type} (body : M (α × Bool)) (fuel : Nat) (w : World) :
    doWhile body (fuel + 1) w
      = M.andThen (body w) (fun r => if r.2 then doWhile body fuel else pure r.1) := rfl

/-- A loop that polls one 32-bit register only appends reads of that register to the history;
it returns, with a value that ends the loop, when the device acknowledges within the fuel, and
spins otherwise. -/
theorem doWhile_poll32 (P : Platform) (A : Nat) (again done : Nat → Bool)
    (body : M (Nat × Bool)) (w₀ : World) (hdone : ∀ x, done x = !again x)
    (hbody : ∀ t, body { w₀ with trace := t } =
      (Res.ok (UINT32 (P.reg t 32 A), again (UINT32 (P.reg t 32 A))),
        { w₀ with trace := t ++ [Event.read32 A (UINT32 (P.reg t 32 A))] })) :
    ∀ fuel t, ∃ ext,
      (doWhile body fuel { w₀ with trace := t }).2 = { w₀ with trace := t ++ ext } ∧
      (∀ e ∈ ext, ∃ v, e = Event.read32 A v) ∧
      (acks32 P A done fuel t = true →
        ∃ v, (doWhile body fuel { w₀ with trace := t }).1 = Res.ok v ∧ done v = true) ∧
      (acks32 P A done fuel t = false →
        (doWhile body fuel { w₀ with trace := t }).1 = Res.stop Stop.spin) := by
  intro fuel
  induction fuel with
  | zero =>
    intro t
    refine ⟨[Event.read32 A (UINT32 (P.reg t 32 A))], ?_, ?_, ?_, ?_⟩
    · rw [doWhile_zero, hbody, andThen_ok]
      by_cases h : again (UINT32 (P.reg t 32 A)) = true <;> simp [h]
    · intro e he
      exact ⟨_, List.mem_singleton.mp he⟩
    · intro h
      rw [doWhile_zero, hbody, andThen_ok]
      simp only [acks32] at h
      have h' := h
      rw [hdone] at h'
      simp only [Bool.not_eq_true'] at h'
      refine ⟨UINT32 (P.reg t 32 A), ?_, h⟩
      simp only [h', Bool.false_eq_true, if_false, pure_run]
    · intro h
      rw [doWhile_zero, hbody, andThen_ok]
      simp only [acks32, hdone, Bool.not_eq_false'] at h
      simp only [h, if_true, halt_run]
  | succ n ih =>
    intro t
    by_cases h : again (UINT32 (P.reg t 32 A)) = true
    · obtain ⟨ext, h1, h2, h3, h4⟩ := ih (t ++ [Event.read32 A (UINT32 (P.reg t 32 A))])
      have hstep : doWhile body (n + 1) { w₀ with trace := t }
          = doWhile body n { w₀ with trace := t ++ [Event.read32 A (UINT32 (P.reg t 32 A))] } := by
        rw [doWhile_succ, hbody, andThen_ok]
        simp only [h, if_true]
      have hacks : acks32 P A done (n + 1) t
          = acks32 P A done n (t ++ [Event.read32 A (UINT32 (P.reg t 32 A))]) := by
        simp only [acks32, hdone, h, Bool.not_true, Bool.false_or]
      refine ⟨Event.read32 A (UINT32 (P.reg t 32 A)) :: ext, ?_, ?_, ?_, ?_⟩
      · rw [hstep, h1]
        simp
      · intro e he
        rcases List.mem_cons.mp he with rfl | he
        · exact ⟨_, rfl⟩
        · exact h2 e he
      · intro ha
        rw [hstep]
        exact h3 (hacks ▸ ha)
      · intro ha
        rw [hstep]
        exact h4 (hacks ▸ ha)
    · have hstep : doWhile body (n + 1) { w₀ with trace := t }
          = (Res.ok (UINT32 (P.reg t 32 A)),
              { w₀ with trace := t ++ [Event.read32 A (UINT32 (P.reg t 32 A))] }) := by
        rw [doWhile_succ, hbody, andThen_ok]
        simp [h]
      have hd : done (UINT32 (P.reg t 32 A)) = true := by
        rw [hdone]
        simpa using h
      refine ⟨[Event.read32 A (UINT32 (P.reg t 32 A))], by rw [hstep], ?_, ?_, ?_⟩
      · intro e he
        exact ⟨_, List.mem_singleton.mp he⟩
      · intro _
        exact ⟨_, by rw [hstep], hd⟩
      · intro ha
        simp only [acks32, hd, Bool.true_or] at ha
        exact absurd ha (by decide)

/-- A loop that polls one 64-bit register only appends reads of that register to the history;
it returns, with a value that ends the loop, when the device acknowledges within the fuel, and
spins otherwise. -/
theorem doWhile_poll64 (P : Platform) (A : Nat) (again done : Nat → Bool)
    (body : M (Nat × Bool)) (w₀ : World) (hdone : ∀ x, done x = !again x)
    (hbody : ∀ t, body { w₀ with trace := t } =
      (Res.ok (UINT64 (P.reg t 64 A), again (UINT64 (P.reg t 64 A))),
        { w₀ with trace := t ++ [Event.read64 A (UINT64 (P.reg t 64 A))] })) :
    ∀ fuel t, ∃ ext,
      (doWhile body fuel { w₀ with trace := t }).2 = { w₀ with trace := t ++ ext } ∧
      (∀ e ∈ ext, ∃ v, e = Event.read64 A v) ∧
      (acks64 P A done fuel t = true →
        ∃ v, (doWhile body fuel { w₀ with trace := t }).1 = Res.ok v ∧ done v = true) ∧
      (acks64 P A done fuel t = false →
        (doWhile body fuel { w₀ with trace := t }).1 = Res.stop Stop.spin) := by
  intro fuel
  induction fuel with
  | zero =>
    intro t
    refine ⟨[Event.read64 A (UINT64 (P.reg t 64 A))], ?_, ?_, ?_, ?_⟩
    · rw [doWhile_zero, hbody, andThen_ok]
      by_cases h : again (UINT64 (P.reg t 64 A)) = true <;> simp [h]
    · intro e he
      exact ⟨_, List.mem_singleton.mp he⟩
    · intro h
      rw [doWhile_zero, hbody, andThen_ok]
      simp only [acks64] at h
      have h' := h
      rw [hdone] at h'
      simp only [Bool.not_eq_true'] at h'
      refine ⟨UINT64 (P.reg t 64 A), ?_, h⟩
      simp only [h', Bool.false_eq_true, if_false, pure_run]
    · intro h
      rw [doWhile_zero, hbody, andThen_ok]
      simp only [acks64, hdone, Bool.not_eq_false'] at h
      simp only [h, if_true, halt_run]
  | succ n ih =>
    intro t
    by_cases h : again (UINT64 (P.reg t 64 A)) = true
    · obtain ⟨ext, h1, h2, h3, h4⟩ := ih (t ++ [Event.read64 A (UINT64 (P.reg t 64 A))])
      have hstep : doWhile body (n + 1) { w₀ with trace := t }
          = doWhile body n { w₀ with trace := t ++ [Event.read64 A (UINT64 (P.reg t 64 A))] } := by
        rw [doWhile_succ, hbody, andThen_ok]
        simp only [h, if_true]
      have hacks : acks64 P A done (n + 1) t
          = acks64 P A done n (t ++ [Event.read64 A (UINT64 (P.reg t 64 A))]) := by
        simp only [acks64, hdone, h, Bool.not_true, Bool.false_or]
      refine ⟨Event.read64 A (UINT64 (P.reg t 64 A)) :: ext, ?_, ?_, ?_, ?_⟩
      · rw [hstep, h1]
        simp
      · intro e he
        rcases List.mem_cons.mp he with rfl | he
        · exact ⟨_, rfl⟩
        · exact h2 e he
      · intro ha
        rw [hstep]
        exact h3 (hacks ▸ ha)
      · intro ha
        rw [hstep]
        exact h4 (hacks ▸ ha)
    · have hstep : doWhile body (n + 1) { w₀ with trace := t }
          = (Res.ok (UINT64 (P.reg t 64 A)),
              { w₀ with trace := t ++ [Event.read64 A (UINT64 (P.reg t 64 A))] }) := by
        rw [doWhile_succ, hbody, andThen_ok]
        simp [h]
      have hd : done (UINT64 (P.reg t 64 A)) = true := by
        rw [hdone]
        simpa using h
      refine ⟨[Event.read64 A (UINT64 (P.reg t 64 A))], by rw [hstep], ?_, ?_, ?_⟩
      · intro e he
        exact ⟨_, List.mem_singleton.mp he⟩
      · intro _
        exact ⟨_, by rw [hstep], hd⟩
      · intro ha
        simp only [acks64, hd, Bool.true_or] at ha
        exact absurd ha (by decide)

/-! ## Fault check -/

theorem QueuedInvalidationCheckFault_run (H : VtdHeader) (P : Platform) (VtdIndex : Nat)
    (w : World) :
    QueuedInvalidationCheckFault H P VtdIndex w =
      (let A := (w.mVtdUnitInformation VtdIndex).VtdUnitBaseAddress + H.R_FSTS_REG
       let FaultReg := UINT32 (P.reg w.trace 32 A)
       if FaultReg &&& H.B_FSTS_REG_IQE ≠ 0 then
         (Res.ok EFI_DEVICE_ERROR, { w with trace := w.trace ++
           [Event.read32 A FaultReg, Event.write32 A (UINT32 (FaultReg ||| H.B_FSTS_REG_IQE))] })
       else if FaultReg &&& H.B_FSTS_REG_ITE ≠ 0 then
         (Res.ok EFI_DEVICE_ERROR, { w with trace := w.trace ++
           [Event.read32 A FaultReg, Event.write32 A (UINT32 (FaultReg ||| H.B_FSTS_REG_ITE))] })
       else if FaultReg &&& H.B_FSTS_REG_ICE ≠ 0 then
         (Res.ok EFI_DEVICE_ERROR, { w with trace := w.trace ++
           [Event.read32 A FaultReg, Event.write32 A (UINT32 (FaultReg ||| H.B_FSTS_REG_ICE))] })
       else
         (Res.ok EFI_SUCCESS, { w with trace := w.trace ++ [Event.read32 A FaultReg] })) := by
  simp only [QueuedInvalidationCheckFault, bind_run, unitInfo_run, andThen_ok, MmioRead32_run,
    ite_run, MmioWrite32_run, pure_run]
  split_ifs <;> simp

/-- Bits of a value read that lie in a mask survive `(value | mask)` truncated to the width. -/
theorem or_mod_and_detected (f b : Nat) (hf : f < 2 ^ 32) :
    UINT32 (f ||| b) &&& (f &&& b) = f &&& b := by
  apply Nat.eq_of_testBit_eq
  intro i
  simp only [UINT32, Nat.testBit_and, Nat.testBit_or, Nat.testBit_mod_two_pow]
  by_cases hi : i < 32
  · simp [hi]
    cases f.testBit i <;> simp
  · have : f.testBit i = false :=
      Nat.testBit_lt_two_pow (lt_of_lt_of_le hf (Nat.pow_le_pow_right (by decide) (not_lt.mp hi)))
    simp [this]

/-- C6: `QueuedInvalidationCheckFault` returns `EFI_DEVICE_ERROR` exactly when one of the bits
IQE, ITE, ICE is set in the value read from the fault-status register; in that case it makes
exactly one register write, to the fault-status register, of a value in which the detected bit
is set; otherwise it returns `EFI_SUCCESS` after the one read, with no register write. -/
theorem C6_checkFault_detects_and_clears (H : VtdHeader) (P : Platform) (VtdIndex : Nat)
    (w : World) :
    let A := (w.mVtdUnitInformation VtdIndex).VtdUnitBaseAddress + H.R_FSTS_REG
    let FaultReg := UINT32 (P.reg w.trace 32 A)
    let r := QueuedInvalidationCheckFault H P VtdIndex w
    (r.1 = Res.ok EFI_DEVICE_ERROR ↔
      (FaultReg &&& H.B_FSTS_REG_IQE ≠ 0 ∨ FaultReg &&& H.B_FSTS_REG_ITE ≠ 0
        ∨ FaultReg &&& H.B_FSTS_REG_ICE ≠ 0)) ∧
    (r.1 = Res.ok EFI_DEVICE_ERROR →
      ∃ bit v, bit ∈ [H.B_FSTS_REG_IQE, H.B_FSTS_REG_ITE, H.B_FSTS_REG_ICE] ∧
        FaultReg &&& bit ≠ 0 ∧ v &&& (FaultReg &&& bit) = FaultReg &&& bit ∧
        r.2 = { w with trace := w.trace ++ [Event.read32 A FaultReg, Event.write32 A v] } ∧
        registerWrites r.2.trace = registerWrites w.trace ++ [Event.write32 A v]) ∧
    (r.1 ≠ Res.ok EFI_DEVICE_ERROR →
      r = (Res.ok EFI_SUCCESS, { w with trace := w.trace ++ [Event.read32 A FaultReg] }) ∧
        registerWrites r.2.trace = registerWrites w.trace) := by
  intro A FaultReg r
  have hf : FaultReg < 2 ^ 32 := Nat.mod_lt _ (by decide)
  have hr : r = QueuedInvalidationCheckFault H P VtdIndex w := rfl
  rw [QueuedInvalidationCheckFault_run] at hr
  simp only [] at hr
  by_cases h1 : FaultReg &&& H.B_FSTS_REG_IQE ≠ 0
  · rw [if_pos h1] at hr
    refine ⟨by simp [hr, h1], fun _ => ⟨H.B_FSTS_REG_IQE, UINT32 (FaultReg ||| H.B_FSTS_REG_IQE), by simp, h1,
      or_mod_and_detected _ _ hf, by rw [hr], ?_⟩, fun h => absurd (by rw [hr]) h⟩
    simp [hr, registerWrites, Event.isWrite, List.filter_append, FaultReg, A]
  · rw [if_neg h1] at hr
    by_cases h2 : FaultReg &&& H.B_FSTS_REG_ITE ≠ 0
    · rw [if_pos h2] at hr
      refine ⟨by simp [hr, h2], fun _ => ⟨H.B_FSTS_REG_ITE, UINT32 (FaultReg ||| H.B_FSTS_REG_ITE), by simp, h2,
        or_mod_and_detected _ _ hf, by rw [hr], ?_⟩, fun h => absurd (by rw [hr]) h⟩
      simp [hr, registerWrites, Event.isWrite, List.filter_append, FaultReg, A]
    · rw [if_neg h2] at hr
      by_cases h3 : FaultReg &&& H.B_FSTS_REG_ICE ≠ 0
      · rw [if_pos h3] at hr
        refine ⟨by simp [hr, h3], fun _ => ⟨H.B_FSTS_REG_ICE, UINT32 (FaultReg ||| H.B_FSTS_REG_ICE), by simp, h3,
          or_mod_and_detected _ _ hf, by rw [hr], ?_⟩, fun h => absurd (by rw [hr]) h⟩
        simp [hr, registerWrites, Event.isWrite, List.filter_append, FaultReg, A]
      · rw [if_neg h3] at hr
        refine ⟨?_, fun h => ?_, fun _ => ⟨by rw [hr], ?_⟩⟩
        · rw [hr]
          simp only [ne_eq, not_not] at h1 h2 h3
          simp [h1, h2, h3]
        · rw [hr] at h
          simp at h
        · simp [hr, registerWrites, Event.isWrite, List.filter_append, FaultReg, A]

/-! ## Register-based invalidation -/

theorem andThen_const_snd {α β : Type} (x : Res α × World) (b : β) :
    (M.andThen x (fun _ => (pure b : M β))).2 = x.2 := by
  rcases x with ⟨_ | _, w⟩ <;> rfl

theorem andThen_const_fst {α β : Type} (x : Res α × World) (b : β) :
    (M.andThen x (fun _ => (pure b : M β))).1
      = match x.1 with
        | Res.ok _ => Res.ok b
        | Res.stop s => Res.stop s := by
  rcases x with ⟨_ | _, w⟩ <;> rfl

theorem registerWrites_append (t u : List Event) :
    registerWrites (t ++ u) = registerWrites t ++ registerWrites u := by
  simp [registerWrites]

theorem registerWrites_reads64 (A : Nat) (ext : List Event)
    (h : ∀ e ∈ ext, ∃ x, e = Event.read64 A x) : registerWrites ext = [] := by
  simp only [registerWrites, List.filter_eq_nil_iff]
  intro e he
  obtain ⟨x, rfl⟩ := h e he
  simp [Event.isWrite]

theorem registerWrites_reads32 (A : Nat) (ext : List Event)
    (h : ∀ e ∈ ext, ∃ x, e = Event.read32 A x) : registerWrites ext = [] := by
  simp only [registerWrites, List.filter_eq_nil_iff]
  intro e he
  obtain ⟨x, rfl⟩ := h e he
  simp [Event.isWrite]

theorem testBit_not64 (x i : Nat) : (not64 x).testBit i = (decide (i < 64) && !x.testBit i) := by
  simp only [not64, UINT64, Nat.testBit_xor, Nat.testBit_two_pow_sub_one,
    Nat.testBit_mod_two_pow]
  by_cases h : i < 64 <;> simp [h]

theorem testBit_false_of_lt (x i : Nat) (hx : x < 2 ^ 64) (hi : ¬ i < 64) :
    x.testBit i = false :=
  Nat.testBit_lt_two_pow (lt_of_lt_of_le hx (Nat.pow_le_pow_right (by decide) (not_lt.mp hi)))

/-- The command value of a register-based invalidation: the in-progress bit is set, the
granularity field holds GLOBAL, the other bits are those of the value read. -/
theorem command_bits (v busy mask glob : Nat) (hv : v < 2 ^ 64) (hb : busy < 2 ^ 64)
    (hg : glob < 2 ^ 64) (hd : busy &&& mask = 0) (hs : glob &&& mask = glob) :
    UINT64 ((v &&& (not64 busy &&& not64 mask)) ||| (busy ||| glob)) &&& busy = busy ∧
    UINT64 ((v &&& (not64 busy &&& not64 mask)) ||| (busy ||| glob)) &&& mask = glob ∧
    ∀ i, busy.testBit i = false → mask.testBit i = false →
      (UINT64 ((v &&& (not64 busy &&& not64 mask)) ||| (busy ||| glob))).testBit i
        = v.testBit i := by
  have hd' : ∀ i, busy.testBit i = true → mask.testBit i = false := by
    intro i hi
    have := congrArg (fun n => Nat.testBit n i) hd
    simpa [Nat.testBit_and, hi] using this
  have hs' : ∀ i, glob.testBit i = true → mask.testBit i = true := by
    intro i hi
    have := congrArg (fun n => Nat.testBit n i) hs
    simpa [Nat.testBit_and, hi] using this
  refine ⟨?_, ?_, ?_⟩
  · apply Nat.eq_of_testBit_eq
    intro i
    simp only [UINT64, Nat.testBit_and, Nat.testBit_or, Nat.testBit_mod_two_pow, testBit_not64]
    by_cases hi : i < 64
    · cases hbi : busy.testBit i <;> simp [hi]
    · simp [hi, testBit_false_of_lt busy i hb hi]
  · apply Nat.eq_of_testBit_eq
    intro i
    simp only [UINT64, Nat.testBit_and, Nat.testBit_or, Nat.testBit_mod_two_pow, testBit_not64]
    by_cases hi : i < 64
    · cases hgi : glob.testBit i
      · cases hmi : mask.testBit i
        · simp
        · cases hbi : busy.testBit i
          · simp [hi]
          · have := hd' i hbi
            rw [hmi] at this
            exact absurd this (by decide)
      · simp [hi, hs' i hgi]
    · simp [hi, testBit_false_of_lt glob i hg hi]
  · intro i hbi hmi
    have hgi : glob.testBit i = false := by
      cases hgi : glob.testBit i
      · rfl
      · have := hs' i hgi
        rw [hmi] at this
        exact absurd this (by decide)
    simp only [UINT64, Nat.testBit_and, Nat.testBit_or, Nat.testBit_mod_two_pow, testBit_not64,
      hbi, hmi, hgi]
    by_cases hi : i < 64
    · simp [hi]
    · simp [hi, testBit_false_of_lt v i hv hi]

/-- The shape shared by the register-based paths of `InvalidateContextCache` and
`InvalidateIOTLB` meets the contract. -/
theorem registerInvalidation_contract (P : Platform) (A busy mask glob : Nat) (w : World)
    (body : M (Nat × Bool)) (r : Res EFI_STATUS × World)
    (hb : busy < 2 ^ 64) (hg : glob < 2 ^ 64) (hd : busy &&& mask = 0)
    (hs : glob &&& mask = glob)
    (hbody : ∀ t, body { w with trace := t } =
      (Res.ok (UINT64 (P.reg t 64 A), decide (UINT64 (P.reg t 64 A) &&& busy ≠ 0)),
        { w with trace := t ++ [Event.read64 A (UINT64 (P.reg t 64 A))] }))
    (hbusy : UINT64 (P.reg w.trace 64 A) &&& busy ≠ 0 →
      r = (Res.ok EFI_DEVICE_ERROR,
        { w with trace := w.trace ++ [Event.read64 A (UINT64 (P.reg w.trace 64 A))] }))
    (hfree : UINT64 (P.reg w.trace 64 A) &&& busy = 0 →
      r = M.andThen (doWhile body P.fuel { w with trace := w.trace ++
          [Event.read64 A (UINT64 (P.reg w.trace 64 A)),
           Event.write64 A (UINT64 ((UINT64 (P.reg w.trace 64 A)
              &&& (not64 busy &&& not64 mask)) ||| (busy ||| glob)))] })
        (fun _ => pure EFI_SUCCESS)) :
    RegisterInvalidationContract P A busy mask glob w r := by
  have hv : UINT64 (P.reg w.trace 64 A) < 2 ^ 64 := Nat.mod_lt _ (by decide)
  obtain ⟨c1, c2, c3⟩ := command_bits _ busy mask glob hv hb hg hd hs
  refine ⟨fun h => ?_, fun h => ?_⟩
  · rw [hbusy h]
    refine ⟨rfl, ?_⟩
    simp [registerWrites_append, registerWrites, Event.isWrite]
  · obtain ⟨ext, h1, h2, h3, h4⟩ := doWhile_poll64 P A
      (fun x => decide (x &&& busy ≠ 0)) (fun x => decide (x &&& busy = 0)) body w
      (by intro x; by_cases hx : x &&& busy = 0 <;> simp [hx]) hbody P.fuel
      (w.trace ++ [Event.read64 A (UINT64 (P.reg w.trace 64 A)),
        Event.write64 A (UINT64 ((UINT64 (P.reg w.trace 64 A)
          &&& (not64 busy &&& not64 mask)) ||| (busy ||| glob)))])
    have hr2 := congrArg Prod.snd (hfree h)
    have hr1 := congrArg Prod.fst (hfree h)
    simp only [andThen_const_snd] at hr2
    simp only [andThen_const_fst] at hr1
    rw [h1] at hr2
    refine ⟨⟨ext, hr2, h2⟩, ?_, c1, c2, c3, ?_⟩
    · rw [hr2]
      simp only [registerWrites_append, registerWrites_reads64 A ext h2, List.append_nil]
      simp [registerWrites, Event.isWrite]
    · rw [hr1]
      cases ha : acks64 P A (fun x => decide (x &&& busy = 0)) P.fuel
        (w.trace ++ [Event.read64 A (UINT64 (P.reg w.trace 64 A)),
          Event.write64 A (UINT64 ((UINT64 (P.reg w.trace 64 A)
            &&& (not64 busy &&& not64 mask)) ||| (busy ||| glob)))])
      · rw [h4 ha]
        simp
      · obtain ⟨x, hx, _⟩ := h3 ha
        rw [hx]
        simp

/-- C7: for a Register-Based engine, `InvalidateContextCache` (on CCMD, busy bit ICC) and
`InvalidateIOTLB` (on the IOTLB register at IRO*16, busy bit IVT) each return
`EFI_DEVICE_ERROR` with no register write when the busy bit is set in the value first read,
and otherwise make exactly one write, of the value read with the granularity field replaced
by GLOBAL and the busy bit set, and return `EFI_SUCCESS` once a later read shows the busy bit
clear. -/
theorem C7_register_based_invalidation (H : VtdHeader) (P : Platform) (VtdIndex : Nat)
    (w : World)
    (hReg : (w.mVtdUnitInformation VtdIndex).EnableQueuedInvalidation = 0)
    (hICC : H.B_CCMD_REG_ICC < 2 ^ 64) (hCG : H.V_CCMD_REG_CIRG_GLOBAL < 2 ^ 64)
    (hCd : H.B_CCMD_REG_ICC &&& H.B_CCMD_REG_CIRG_MASK = 0)
    (hCs : H.V_CCMD_REG_CIRG_GLOBAL &&& H.B_CCMD_REG_CIRG_MASK = H.V_CCMD_REG_CIRG_GLOBAL)
    (hIVT : H.B_IOTLB_REG_IVT < 2 ^ 64) (hIG : H.V_IOTLB_REG_IIRG_GLOBAL < 2 ^ 64)
    (hId : H.B_IOTLB_REG_IVT &&& H.B_IOTLB_REG_IIRG_MASK = 0)
    (hIs : H.V_IOTLB_REG_IIRG_GLOBAL &&& H.B_IOTLB_REG_IIRG_MASK
      = H.V_IOTLB_REG_IIRG_GLOBAL) :
    RegisterInvalidationContract P
      ((w.mVtdUnitInformation VtdIndex).VtdUnitBaseAddress + H.R_CCMD_REG)
      H.B_CCMD_REG_ICC H.B_CCMD_REG_CIRG_MASK H.V_CCMD_REG_CIRG_GLOBAL w
      (InvalidateContextCache H P VtdIndex w) ∧
    RegisterInvalidationContract P (iotlbAddress H (w.mVtdUnitInformation VtdIndex))
      H.B_IOTLB_REG_IVT H.B_IOTLB_REG_IIRG_MASK H.V_IOTLB_REG_IIRG_GLOBAL w
      (InvalidateIOTLB H P VtdIndex w) := by
  constructor
  · apply registerInvalidation_contract P _ _ _ _ w
      (do
        let Reg64 ← MmioRead64 P ((← unitInfo VtdIndex).VtdUnitBaseAddress + H.R_CCMD_REG)
        pure (Reg64, decide (Reg64 &&& H.B_CCMD_REG_ICC ≠ 0))) _ hICC hCG hCd hCs
    · intro t
      rfl
    · intro h
      simp [InvalidateContextCache, hReg, h]
    · intro h
      simp [InvalidateContextCache, hReg, h]
  · apply registerInvalidation_contract P _ _ _ _ w
      (do
        let Reg64 ← MmioRead64 P (iotlbAddress H (← unitInfo VtdIndex))
        pure (Reg64, decide (Reg64 &&& H.B_IOTLB_REG_IVT ≠ 0))) _ hIVT hIG hId hIs
    · intro t
      rfl
    · intro h
      simp [InvalidateIOTLB, hReg, h]
    · intro h
      simp [InvalidateIOTLB, hReg, h]

/-- An idle engine at base 0 whose registers read zero: both register-based invalidations meet
the contract there. -/
theorem C7_register_based_invalidation_witness :
    RegisterInvalidationContract (constPlatform 0 0 0) 0x28 (BIT 63) (BIT 62 ||| BIT 61) (BIT 61)
      (oneUnitWorld zeroUnit true)
      (InvalidateContextCache vtdHeader (constPlatform 0 0 0) 0 (oneUnitWorld zeroUnit true)) ∧
    RegisterInvalidationContract (constPlatform 0 0 0) 0x8 (BIT 63) (BIT 61 ||| BIT 60) (BIT 60)
      (oneUnitWorld zeroUnit true)
      (InvalidateIOTLB vtdHeader (constPlatform 0 0 0) 0 (oneUnitWorld zeroUnit true)) :=
  C7_register_based_invalidation vtdHeader (constPlatform 0 0 0) 0 (oneUnitWorld zeroUnit true)
    (by decide) (by decide) (by decide) (by decide) (by decide) (by decide) (by decide)
    (by decide) (by decide)

/-! ## What the invalidation code leaves alone -/

theorem Keeps.pure {β α : Type} (f : World → β) (a : α) : Keeps f (pure a : M α) :=
  fun _ => rfl

theorem Keeps.halt {β α : Type} (f : World → β) (s : Stop) : Keeps f (halt s : M α) :=
  fun _ => rfl

theorem Keeps.bind {β α γ : Type} {f : World → β} {m : M α} {g : α → M γ}
    (hm : Keeps f m) (hg : ∀ a, Keeps f (g a)) : Keeps f (m >>= g) := by
  intro w
  rw [bind_run]
  have h := hm w
  rcases hmw : m w with ⟨a | s, w'⟩
  · rw [hmw] at h
    rw [andThen_ok, hg a w']
    exact h
  · rw [hmw] at h
    exact h

theorem Keeps.ite {β α : Type} {f : World → β} (c : Prop) [Decidable c] {m n : M α}
    (hm : Keeps f m) (hn : Keeps f n) : Keeps f (if c then m else n) := by
  split
  · exact hm
  · exact hn

theorem Keeps.doWhile {β α : Type} {f : World → β} {body : M (α × Bool)}
    (hb : Keeps f body) : ∀ fuel, Keeps f (doWhile body fuel) := by
  intro fuel
  induction fuel with
  | zero =>
    exact Keeps.bind hb (fun r => Keeps.ite _ (Keeps.halt f _) (Keeps.pure f _))
  | succ n ih =>
    exact Keeps.bind hb (fun r => Keeps.ite _ ih (Keeps.pure f _))

theorem keeps_MmioRead32 (P : Platform) (A : Nat) : Keeps dirtyFlags (MmioRead32 P A) :=
  fun _ => rfl

theorem keeps_MmioRead64 (P : Platform) (A : Nat) : Keeps dirtyFlags (MmioRead64 P A) :=
  fun _ => rfl

theorem keeps_MmioWrite32 (A v : Nat) : Keeps dirtyFlags (MmioWrite32 A v) :=
  fun _ => rfl

theorem keeps_MmioWrite64 (A v : Nat) : Keeps dirtyFlags (MmioWrite64 A v) :=
  fun _ => rfl

theorem keeps_WriteBackDataCacheRange (B S : Nat) :
    Keeps dirtyFlags (WriteBackDataCacheRange B S) :=
  fun _ => rfl

theorem keeps_store64 (A v : Nat) : Keeps dirtyFlags (store64 A v) :=
  fun _ => rfl

theorem keeps_unitInfo (i : Nat) : Keeps dirtyFlags (unitInfo i) :=
  fun _ => rfl

theorem keeps_setUnitInfo (i : Nat) (g : VTD_UNIT_INFORMATION → VTD_UNIT_INFORMATION)
    (hg : ∀ U, (g U).HasDirtyContext = U.HasDirtyContext ∧ (g U).HasDirtyPages = U.HasDirtyPages) :
    Keeps dirtyFlags (setUnitInfo i g) := by
  intro w
  funext j
  simp only [setUnitInfo_run, dirtyFlags]
  by_cases hj : j = i
  · subst hj
    simp [(hg _).1, (hg _).2]
  · simp [Function.update_noteq hj]

theorem keeps_FlushPageTableMemory (H : VtdHeader) (i B S : Nat) :
    Keeps dirtyFlags (FlushPageTableMemory H i B S) := by
  unfold FlushPageTableMemory
  exact Keeps.bind (keeps_unitInfo _) (fun U =>
    Keeps.ite _ (keeps_WriteBackDataCacheRange _ _) (Keeps.pure _ _))

theorem keeps_FlushWriteBuffer (H : VtdHeader) (P : Platform) (i : Nat) :
    Keeps dirtyFlags (FlushWriteBuffer H P i) := by
  unfold FlushWriteBuffer
  refine Keeps.bind (keeps_unitInfo _) (fun U => Keeps.ite _ ?_ (Keeps.pure _ _))
  refine Keeps.bind (keeps_MmioRead32 _ _) (fun _ => Keeps.bind (keeps_MmioWrite32 _ _) (fun _ =>
    Keeps.bind (Keeps.doWhile ?_ _) (fun _ => Keeps.pure _ _)))
  exact Keeps.bind (keeps_MmioRead32 _ _) (fun _ => Keeps.pure _ _)

theorem keeps_QueuedInvalidationCheckFault (H : VtdHeader) (P : Platform) (i : Nat) :
    Keeps dirtyFlags (QueuedInvalidationCheckFault H P i) := by
  intro w
  rw [QueuedInvalidationCheckFault_run]
  simp only []
  split_ifs <;> rfl

theorem keeps_SubmitQueuedInvalidationDescriptor (H : VtdHeader) (P : Platform) (i : Nat)
    (Desc : Option QI_DESC) :
    Keeps dirtyFlags (SubmitQueuedInvalidationDescriptor H P i Desc) := by
  unfold SubmitQueuedInvalidationDescriptor
  cases Desc with
  | none => exact Keeps.pure _ _
  | some D =>
    simp only []
    refine Keeps.bind (keeps_unitInfo _) (fun _ => Keeps.bind (keeps_unitInfo _) (fun _ =>
      Keeps.bind (keeps_unitInfo _) (fun _ => Keeps.bind (keeps_store64 _ _) (fun _ =>
      Keeps.bind (keeps_unitInfo _) (fun _ => Keeps.bind (keeps_store64 _ _) (fun _ =>
      Keeps.bind (keeps_unitInfo _) (fun _ =>
      Keeps.bind (keeps_FlushPageTableMemory _ _ _ _) (fun _ =>
      Keeps.ite _ (Keeps.halt _ _) ?_))))))))
    refine Keeps.bind (keeps_setUnitInfo _ _ (fun U => ⟨rfl, rfl⟩)) (fun _ =>
      Keeps.bind (keeps_unitInfo _) (fun _ => Keeps.bind (keeps_unitInfo _) (fun _ =>
      Keeps.bind (keeps_MmioWrite64 _ _) (fun _ => Keeps.doWhile ?_ _))))
    unfold SubmitQueuedInvalidationDescriptor.poll
    refine Keeps.bind (keeps_QueuedInvalidationCheckFault _ _ _) (fun _ =>
      Keeps.ite _ (Keeps.pure _ _) ?_)
    exact Keeps.bind (keeps_unitInfo _) (fun _ => Keeps.bind (keeps_MmioRead64 _ _) (fun _ =>
      Keeps.pure _ _))

theorem keeps_InvalidateContextCache (H : VtdHeader) (P : Platform) (i : Nat) :
    Keeps dirtyFlags (InvalidateContextCache H P i) := by
  unfold InvalidateContextCache
  refine Keeps.bind (keeps_unitInfo _) (fun _ => Keeps.ite _ ?_
    (keeps_SubmitQueuedInvalidationDescriptor _ _ _ _))
  refine Keeps.bind (keeps_unitInfo _) (fun _ => Keeps.bind (keeps_MmioRead64 _ _) (fun _ =>
    Keeps.ite _ (Keeps.pure _ _) ?_))
  refine Keeps.bind (keeps_unitInfo _) (fun _ => Keeps.bind (keeps_MmioWrite64 _ _) (fun _ =>
    Keeps.bind (Keeps.doWhile ?_ _) (fun _ => Keeps.pure _ _)))
  exact Keeps.bind (keeps_unitInfo _) (fun _ => Keeps.bind (keeps_MmioRead64 _ _) (fun _ =>
    Keeps.pure _ _))

theorem keeps_InvalidateIOTLB (H : VtdHeader) (P : Platform) (i : Nat) :
    Keeps dirtyFlags (InvalidateIOTLB H P i) := by
  unfold InvalidateIOTLB
  refine Keeps.bind (keeps_unitInfo _) (fun _ => Keeps.ite _ ?_ ?_)
  · refine Keeps.bind (keeps_unitInfo _) (fun _ => Keeps.bind (keeps_MmioRead64 _ _) (fun _ =>
      Keeps.ite _ (Keeps.pure _ _) ?_))
    refine Keeps.bind (keeps_unitInfo _) (fun _ => Keeps.bind (keeps_MmioWrite64 _ _) (fun _ =>
      Keeps.bind (Keeps.doWhile ?_ _) (fun _ => Keeps.pure _ _)))
    exact Keeps.bind (keeps_unitInfo _) (fun _ => Keeps.bind (keeps_MmioRead64 _ _) (fun _ =>
      Keeps.pure _ _))
  · exact Keeps.bind (keeps_unitInfo _) (fun _ => Keeps.bind (keeps_unitInfo _) (fun _ =>
      keeps_SubmitQueuedInvalidationDescriptor _ _ _ _))

theorem flags_of_dirtyFlags {w w' : World} (h : dirtyFlags w' = dirtyFlags w) (j : Nat) :
    (w'.mVtdUnitInformation j).HasDirtyContext = (w.mVtdUnitInformation j).HasDirtyContext ∧
    (w'.mVtdUnitInformation j).HasDirtyPages = (w.mVtdUnitInformation j).HasDirtyPages := by
  have := congrFun h j
  simp only [dirtyFlags, Prod.mk.injEq] at this
  exact this

/-- `InvalidateVtdIOTLBGlobal` by cases on the global state and the dirty flags on entry. -/
theorem InvalidateVtdIOTLBGlobal_run (H : VtdHeader) (P : Platform) (VtdIndex : Nat)
    (w : World) :
    InvalidateVtdIOTLBGlobal H P VtdIndex w =
      (if w.mVtdEnabled = false then
        (Res.ok EFI_SUCCESS, w)
      else if (w.mVtdUnitInformation VtdIndex).HasDirtyContext = true then
        (do
          FlushWriteBuffer H P VtdIndex
          let _ ← InvalidateContextCache H P VtdIndex
          let _ ← InvalidateIOTLB H P VtdIndex
          pure EFI_SUCCESS : M EFI_STATUS) w
      else if (w.mVtdUnitInformation VtdIndex).HasDirtyPages = true then
        (do
          FlushWriteBuffer H P VtdIndex
          let _ ← InvalidateIOTLB H P VtdIndex
          pure EFI_SUCCESS : M EFI_STATUS) w
      else
        (do
          FlushWriteBuffer H P VtdIndex
          pure EFI_SUCCESS : M EFI_STATUS) w) := by
  by_cases hEn : w.mVtdEnabled = false
  · simp [InvalidateVtdIOTLBGlobal, hEn]
  · rw [if_neg hEn]
    simp only [Bool.not_eq_false] at hEn
    have hF := keeps_FlushWriteBuffer H P VtdIndex w
    rcases hfw : FlushWriteBuffer H P VtdIndex w with ⟨u | s, w1⟩
    · rw [hfw] at hF
      obtain ⟨hc1, hp1⟩ := flags_of_dirtyFlags hF VtdIndex
      simp only [] at hc1 hp1
      by_cases hc : (w.mVtdUnitInformation VtdIndex).HasDirtyContext = true
      · have hC := keeps_InvalidateContextCache H P VtdIndex w1
        rcases hcc : InvalidateContextCache H P VtdIndex w1 with ⟨u2 | s2, w2⟩
        · rw [hcc] at hC
          obtain ⟨hc2, hp2⟩ := flags_of_dirtyFlags hC VtdIndex
          simp only [] at hc2 hp2
          simp [InvalidateVtdIOTLBGlobal, hEn, hfw, hc, hc1, hcc, hc2]
        · simp [InvalidateVtdIOTLBGlobal, hEn, hfw, hc, hc1, hcc]
      · simp only [Bool.not_eq_true] at hc
        by_cases hp : (w.mVtdUnitInformation VtdIndex).HasDirtyPages = true
        · simp [InvalidateVtdIOTLBGlobal, hEn, hfw, hc, hc1, hp, hp1]
        · simp only [Bool.not_eq_true] at hp
          simp [InvalidateVtdIOTLBGlobal, hEn, hfw, hc, hc1, hp, hp1]
    · simp [InvalidateVtdIOTLBGlobal, hEn, hfw]

theorem bind_returns_only {α β : Type} (m : M α) (g : α → M β) (S : β)
    (hg : ∀ x w b, (g x w).1 = Res.ok b → b = S) :
    ∀ w b, ((m >>= g) w).1 = Res.ok b → b = S := by
  intro w b h
  rw [bind_run] at h
  rcases hm : m w with ⟨a | s, w'⟩
  · rw [hm, andThen_ok] at h
    exact hg a w' b h
  · rw [hm, andThen_stop] at h
    exact absurd h (by simp)

theorem pure_returns_only {β : Type} (S : β) (w : World) (b : β)
    (h : ((pure S : M β) w).1 = Res.ok b) : b = S := by
  simp only [pure_run, Res.ok.injEq] at h
  exact h.symm

/-- C8: `InvalidateVtdIOTLBGlobal` is determined by the global state and the dirty flags.
With translation disabled it returns `EFI_SUCCESS` and the world is untouched (no register
access, no state change).  With translation enabled it is the write-buffer flush, followed by
the context-cache invalidation exactly when `HasDirtyContext` is set, followed by the IOTLB
invalidation exactly when `HasDirtyContext` or `HasDirtyPages` is set.  In every case the
dirty flags of every engine are left as they were. -/
theorem C8_invalidateGlobal_by_state_and_flags (H : VtdHeader) (P : Platform) (VtdIndex : Nat)
    (w : World) :
    InvalidateVtdIOTLBGlobal H P VtdIndex w =
      (if w.mVtdEnabled = false then
        (Res.ok EFI_SUCCESS, w)
      else if (w.mVtdUnitInformation VtdIndex).HasDirtyContext = true then
        (do
          FlushWriteBuffer H P VtdIndex
          let _ ← InvalidateContextCache H P VtdIndex
          let _ ← InvalidateIOTLB H P VtdIndex
          pure EFI_SUCCESS : M EFI_STATUS) w
      else if (w.mVtdUnitInformation VtdIndex).HasDirtyPages = true then
        (do
          FlushWriteBuffer H P VtdIndex
          let _ ← InvalidateIOTLB H P VtdIndex
          pure EFI_SUCCESS : M EFI_STATUS) w
      else
        (do
          FlushWriteBuffer H P VtdIndex
          pure EFI_SUCCESS : M EFI_STATUS) w) ∧
    dirtyFlags (InvalidateVtdIOTLBGlobal H P VtdIndex w).2 = dirtyFlags w := by
  refine ⟨InvalidateVtdIOTLBGlobal_run H P VtdIndex w, ?_⟩
  rw [InvalidateVtdIOTLBGlobal_run]
  split_ifs
  · rfl
  · exact Keeps.bind (keeps_FlushWriteBuffer _ _ _) (fun _ =>
      Keeps.bind (keeps_InvalidateContextCache _ _ _) (fun _ =>
      Keeps.bind (keeps_InvalidateIOTLB _ _ _) (fun _ => Keeps.pure _ _))) w
  · exact Keeps.bind (keeps_FlushWriteBuffer _ _ _) (fun _ =>
      Keeps.bind (keeps_InvalidateIOTLB _ _ _) (fun _ => Keeps.pure _ _)) w
  · exact Keeps.bind (keeps_FlushWriteBuffer _ _ _) (fun _ => Keeps.pure _ _) w

/-- C9: `InvalidateVtdIOTLBGlobal` never returns `EFI_DEVICE_ERROR`, although its header
documents that status for "VTd global IOTLB is not invalidated".  On an enabled, Register-Based
engine with `HasDirtyPages` set whose IOTLB register reads with the busy bit IVT set,
`InvalidateIOTLB` returns `EFI_DEVICE_ERROR` without writing a register, and
`InvalidateVtdIOTLBGlobal` returns `EFI_SUCCESS` all the same. -/
theorem C9_invalidateGlobal_drops_device_error :
    (∀ (H : VtdHeader) (P : Platform) (VtdIndex : Nat) (w : World),
      (InvalidateVtdIOTLBGlobal H P VtdIndex w).1 ≠ Res.ok EFI_DEVICE_ERROR) ∧
    (InvalidateIOTLB vtdHeader (constPlatform (BIT 63) 0 0) 0
      (oneUnitWorld { zeroUnit with HasDirtyPages := true } true)).1
        = Res.ok EFI_DEVICE_ERROR ∧
    registerWrites (InvalidateIOTLB vtdHeader (constPlatform (BIT 63) 0 0) 0
      (oneUnitWorld { zeroUnit with HasDirtyPages := true } true)).2.trace = [] ∧
    (InvalidateVtdIOTLBGlobal vtdHeader (constPlatform (BIT 63) 0 0) 0
      (oneUnitWorld { zeroUnit with HasDirtyPages := true } true)).1
        = Res.ok EFI_SUCCESS ∧
    registerWrites (InvalidateVtdIOTLBGlobal vtdHeader (constPlatform (BIT 63) 0 0) 0
      (oneUnitWorld { zeroUnit with HasDirtyPages := true } true)).2.trace = [] := by
  refine ⟨?_, by decide, by decide, by decide, by decide⟩
  intro H P VtdIndex w h
  have hS : ∀ b, (InvalidateVtdIOTLBGlobal H P VtdIndex w).1 = Res.ok b → b = EFI_SUCCESS := by
    intro b hb
    rw [InvalidateVtdIOTLBGlobal_run] at hb
    split_ifs at hb
    · simp only [Res.ok.injEq] at hb
      exact hb.symm
    · exact bind_returns_only _ _ _ (fun _ => bind_returns_only _ _ _ (fun _ =>
        bind_returns_only _ _ _ (fun _ => pure_returns_only _))) w b hb
    · exact bind_returns_only _ _ _ (fun _ => bind_returns_only _ _ _ (fun _ =>
        pure_returns_only _)) w b hb
    · exact bind_returns_only _ _ _ (fun _ => pure_returns_only _) w b hb
  exact absurd (hS _ h) (by decide)

/-! ## Queued submission -/

theorem Submit_poll_run (H : VtdHeader) (P : Platform) (VtdIndex tail : Nat) (w : World) :
    SubmitQueuedInvalidationDescriptor.poll H P VtdIndex tail w =
      (let A := (w.mVtdUnitInformation VtdIndex).VtdUnitBaseAddress + H.R_FSTS_REG
       let Q := (w.mVtdUnitInformation VtdIndex).VtdUnitBaseAddress + H.R_IQH_REG
       let f := UINT32 (P.reg w.trace 32 A)
       let h := UINT64 (P.reg (w.trace ++ [Event.read32 A f]) 64 Q)
       if f &&& H.B_FSTS_REG_IQE ≠ 0 then
         (Res.ok (EFI_DEVICE_ERROR, false), { w with trace := w.trace ++
           [Event.read32 A f, Event.write32 A (UINT32 (f ||| H.B_FSTS_REG_IQE))] })
       else if f &&& H.B_FSTS_REG_ITE ≠ 0 then
         (Res.ok (EFI_DEVICE_ERROR, false), { w with trace := w.trace ++
           [Event.read32 A f, Event.write32 A (UINT32 (f ||| H.B_FSTS_REG_ITE))] })
       else if f &&& H.B_FSTS_REG_ICE ≠ 0 then
         (Res.ok (EFI_DEVICE_ERROR, false), { w with trace := w.trace ++
           [Event.read32 A f, Event.write32 A (UINT32 (f ||| H.B_FSTS_REG_ICE))] })
       else
         (Res.ok (EFI_SUCCESS, decide (tail ≠ h)), { w with trace := w.trace ++
           [Event.read32 A f, Event.read64 Q h] })) := by
  simp only [SubmitQueuedInvalidationDescriptor.poll, bind_run, QueuedInvalidationCheckFault_run]
  split_ifs <;> simp

/-- A loop whose body only extends the history, by events of one kind, does the same. -/
theorem doWhile_extends {α : Type} (body : M (α × Bool)) (w₀ : World) (Good : Event → Prop)
    (hbody : ∀ t, ∃ ext, (body { w₀ with trace := t }).2 = { w₀ with trace := t ++ ext } ∧
      ∀ e ∈ ext, Good e) :
    ∀ fuel t, ∃ ext, (doWhile body fuel { w₀ with trace := t }).2 = { w₀ with trace := t ++ ext } ∧
      ∀ e ∈ ext, Good e := by
  intro fuel
  induction fuel with
  | zero =>
    intro t
    obtain ⟨ext, h1, h2⟩ := hbody t
    refine ⟨ext, ?_, h2⟩
    rw [doWhile_zero]
    rcases hb : body { w₀ with trace := t } with ⟨⟨a, again⟩ | s, w1⟩
    · rw [hb] at h1
      rw [andThen_ok]
      cases again <;> exact h1
    · rw [hb] at h1
      exact h1
  | succ n ih =>
    intro t
    obtain ⟨ext, h1, h2⟩ := hbody t
    rw [doWhile_succ]
    rcases hb : body { w₀ with trace := t } with ⟨⟨a, again⟩ | s, w1⟩
    · rw [hb] at h1
      simp only [] at h1
      rw [andThen_ok]
      cases again
      · exact ⟨ext, h1, h2⟩
      · obtain ⟨ext2, h3, h4⟩ := ih (t ++ ext)
        refine ⟨ext ++ ext2, ?_, ?_⟩
        · simp only [if_true, h1, h3, List.append_assoc]
        · intro e he
          rcases List.mem_append.mp he with he | he
          · exact h2 e he
          · exact h4 e he
    · rw [hb] at h1
      exact ⟨ext, h1, h2⟩

/-- The completion loop only extends the history, by events of the loop. -/
theorem Submit_loop (H : VtdHeader) (P : Platform) (VtdIndex tail : Nat) (w₀ : World) :
    ∀ fuel t, ∃ ext,
      (doWhile (SubmitQueuedInvalidationDescriptor.poll H P VtdIndex tail) fuel
        { w₀ with trace := t }).2 = { w₀ with trace := t ++ ext } ∧
      (∀ e ∈ ext, pollEvent ((w₀.mVtdUnitInformation VtdIndex).VtdUnitBaseAddress + H.R_FSTS_REG)
        ((w₀.mVtdUnitInformation VtdIndex).VtdUnitBaseAddress + H.R_IQH_REG) e) := by
  apply doWhile_extends
  intro t
  rw [Submit_poll_run]
  simp only []
  split_ifs with h1 h2 h3
  · exact ⟨[_, _], rfl, by simp [pollEvent]⟩
  · exact ⟨[_, _], rfl, by simp [pollEvent]⟩
  · exact ⟨[_, _], rfl, by simp [pollEvent]⟩
  · exact ⟨[_, _], rfl, by simp [pollEvent]⟩

/-- With a descriptor and a non-zero `QiDescLength`, a submission is the completion loop run
from the world `submitted`. -/
theorem Submit_some_run (H : VtdHeader) (P : Platform) (VtdIndex : Nat) (D : QI_DESC)
    (w : World) (hcap : UINT16 (w.mVtdUnitInformation VtdIndex).QiDescLength ≠ 0) :
    SubmitQueuedInvalidationDescriptor H P VtdIndex (some D) w =
      doWhile (SubmitQueuedInvalidationDescriptor.poll H P VtdIndex
        (UINT64 (UINT16 (((w.mVtdUnitInformation VtdIndex).QiFreeHead + 1)
          % UINT16 (w.mVtdUnitInformation VtdIndex).QiDescLength) <<< H.DMAR_IQ_SHIFT)))
        P.fuel (submitted H VtdIndex D w) := by
  by_cases hC : H.ECapReg_C (w.mVtdUnitInformation VtdIndex).ECapReg = 0
  · simp [SubmitQueuedInvalidationDescriptor, FlushPageTableMemory, submitted, hcap, hC]
  · simp [SubmitQueuedInvalidationDescriptor, FlushPageTableMemory, submitted, hcap, hC]

theorem lastWrite64_append (A : Nat) (t u : List Event) :
    lastWrite64 A (t ++ u) = u.foldl (fun acc e =>
      match e with
      | Event.write64 a v => if a = A then some v else acc
      | _ => acc) (lastWrite64 A t) := by
  simp [lastWrite64, List.foldl_append]

theorem lastWrite64_append_poll (A F Q : Nat) (t ext : List Event)
    (h : ∀ e ∈ ext, pollEvent F Q e) : lastWrite64 A (t ++ ext) = lastWrite64 A t := by
  rw [lastWrite64_append]
  generalize lastWrite64 A t = acc
  induction ext generalizing acc with
  | nil => rfl
  | cons e ext ih =>
    have he := h e (List.mem_cons_self _ _)
    have ih' := ih (fun e' he' => h e' (List.mem_cons_of_mem _ he'))
    rcases he with ⟨v, rfl⟩ | ⟨v, rfl⟩ | ⟨v, rfl⟩ <;> simpa using ih' acc

theorem registerWrites_poll (F Q : Nat) (ext : List Event) (h : ∀ e ∈ ext, pollEvent F Q e) :
    ∀ e ∈ registerWrites ext, ∃ v, e = Event.write32 F v := by
  intro e he
  simp only [registerWrites, List.mem_filter] at he
  rcases h e he.1 with ⟨v, rfl⟩ | ⟨v, rfl⟩ | ⟨v, rfl⟩
  · simp [Event.isWrite] at he
  · exact ⟨v, rfl⟩
  · simp [Event.isWrite] at he

/-- A submission with a descriptor and a non-zero `QiDescLength` ends in the world `submitted`
with only events of the completion loop added to its history. -/
theorem Submit_step (H : VtdHeader) (P : Platform) (VtdIndex : Nat) (D : QI_DESC) (w : World)
    (hcap : UINT16 (w.mVtdUnitInformation VtdIndex).QiDescLength ≠ 0) :
    ∃ ext,
      (SubmitQueuedInvalidationDescriptor H P VtdIndex (some D) w).2 =
        { submitted H VtdIndex D w with trace := (submitted H VtdIndex D w).trace ++ ext } ∧
      ∀ e ∈ ext, pollEvent
        ((w.mVtdUnitInformation VtdIndex).VtdUnitBaseAddress + H.R_FSTS_REG)
        ((w.mVtdUnitInformation VtdIndex).VtdUnitBaseAddress + H.R_IQH_REG) e := by
  rw [Submit_some_run H P VtdIndex D w hcap]
  obtain ⟨ext, h1, h2⟩ := Submit_loop H P VtdIndex
    (UINT64 (UINT16 (((w.mVtdUnitInformation VtdIndex).QiFreeHead + 1)
      % UINT16 (w.mVtdUnitInformation VtdIndex).QiDescLength) <<< H.DMAR_IQ_SHIFT))
    (submitted H VtdIndex D w) P.fuel (submitted H VtdIndex D w).trace
  refine ⟨ext, h1, ?_⟩
  simpa [submitted] using h2

theorem advance_head (h cap : Nat) (hcap : 0 < cap) (h16 : cap < 2 ^ 16) :
    UINT16 ((h + 1) % UINT16 cap) = (h + 1) % cap := by
  rw [UINT16_of_lt h16]
  exact UINT16_of_lt (lt_trans (Nat.mod_lt _ hcap) h16)

theorem submitted_unit (H : VtdHeader) (VtdIndex : Nat) (D : QI_DESC) (w : World)
    (hcap : 0 < (w.mVtdUnitInformation VtdIndex).QiDescLength)
    (h16 : (w.mVtdUnitInformation VtdIndex).QiDescLength < 2 ^ 16) :
    (submitted H VtdIndex D w).mVtdUnitInformation VtdIndex =
      { w.mVtdUnitInformation VtdIndex with
        QiFreeHead := ((w.mVtdUnitInformation VtdIndex).QiFreeHead + 1)
          % (w.mVtdUnitInformation VtdIndex).QiDescLength } := by
  simp [submitted, advance_head _ _ hcap h16]

theorem submitted_lastWrite64 (H : VtdHeader) (VtdIndex : Nat) (D : QI_DESC) (w : World)
    (hcap : 0 < (w.mVtdUnitInformation VtdIndex).QiDescLength)
    (h16 : (w.mVtdUnitInformation VtdIndex).QiDescLength < 2 ^ 16) :
    lastWrite64 ((w.mVtdUnitInformation VtdIndex).VtdUnitBaseAddress + H.R_IQT_REG)
      (submitted H VtdIndex D w).trace =
      some (UINT64 ((((w.mVtdUnitInformation VtdIndex).QiFreeHead + 1)
        % (w.mVtdUnitInformation VtdIndex).QiDescLength) <<< H.DMAR_IQ_SHIFT)) := by
  simp only [submitted, advance_head _ _ hcap h16]
  rw [lastWrite64_append]
  simp

theorem UINT16_ne_zero {cap : Nat} (hcap : 0 < cap) (h16 : cap < 2 ^ 16) : UINT16 cap ≠ 0 := by
  rw [UINT16_of_lt h16]
  exact Nat.pos_iff_ne_zero.mp hcap

/-- After the submissions of a non-empty list of descriptors have all returned, the free head
has advanced by their number modulo the capacity and the last tail value written encodes
it. -/
theorem submitEach_spec (H : VtdHeader) (P : Platform) (VtdIndex : Nat) :
    ∀ (Ds : List QI_DESC) (w : World), Ds ≠ [] →
      0 < (w.mVtdUnitInformation VtdIndex).QiDescLength →
      (w.mVtdUnitInformation VtdIndex).QiDescLength < 2 ^ 16 →
      (submitEach H P VtdIndex Ds w).1 = Res.ok () →
      ((submitEach H P VtdIndex Ds w).2.mVtdUnitInformation VtdIndex).QiFreeHead
        = ((w.mVtdUnitInformation VtdIndex).QiFreeHead + Ds.length)
          % (w.mVtdUnitInformation VtdIndex).QiDescLength ∧
      lastWrite64 ((w.mVtdUnitInformation VtdIndex).VtdUnitBaseAddress + H.R_IQT_REG)
        (submitEach H P VtdIndex Ds w).2.trace
        = some (UINT64 ((((w.mVtdUnitInformation VtdIndex).QiFreeHead + Ds.length)
          % (w.mVtdUnitInformation VtdIndex).QiDescLength) <<< H.DMAR_IQ_SHIFT)) := by
  intro Ds
  induction Ds with
  | nil => intro w h; exact absurd rfl h
  | cons D Ds ih =>
    intro w _ hcap h16 hret
    obtain ⟨ext, h1, h2⟩ := Submit_step H P VtdIndex D w (UINT16_ne_zero hcap h16)
    have hrun : submitEach H P VtdIndex (D :: Ds) w
        = M.andThen (SubmitQueuedInvalidationDescriptor H P VtdIndex (some D) w)
            (fun _ => submitEach H P VtdIndex Ds) := rfl
    rcases hs : SubmitQueuedInvalidationDescriptor H P VtdIndex (some D) w with ⟨st | s, w1⟩
    · rw [hs] at h1
      simp only [] at h1
      rw [hrun, hs, andThen_ok] at hret ⊢
      have hU : w1.mVtdUnitInformation VtdIndex =
          { w.mVtdUnitInformation VtdIndex with
            QiFreeHead := ((w.mVtdUnitInformation VtdIndex).QiFreeHead + 1)
              % (w.mVtdUnitInformation VtdIndex).QiDescLength } := by
        rw [h1]
        exact submitted_unit H VtdIndex D w hcap h16
      cases Ds with
      | nil =>
        have hw1 : submitEach H P VtdIndex [] w1 = (Res.ok (), w1) := rfl
        rw [hw1]
        refine ⟨by rw [hU]; rfl, ?_⟩
        rw [h1]
        simp only [List.length_singleton]
        rw [lastWrite64_append_poll _ _ _ _ _ h2]
        exact submitted_lastWrite64 H VtdIndex D w hcap h16
      | cons D' Ds' =>
        have := ih w1 (by simp) (by rw [hU]; exact hcap) (by rw [hU]; exact h16) hret
        rw [hU] at this
        simp only [] at this
        have hlen : ((w.mVtdUnitInformation VtdIndex).QiFreeHead + 1)
            % (w.mVtdUnitInformation VtdIndex).QiDescLength + (D' :: Ds').length
            ≡ (w.mVtdUnitInformation VtdIndex).QiFreeHead + (D :: D' :: Ds').length
              [MOD (w.mVtdUnitInformation VtdIndex).QiDescLength] := by
          have h0 : ((w.mVtdUnitInformation VtdIndex).QiFreeHead + 1)
              % (w.mVtdUnitInformation VtdIndex).QiDescLength
              ≡ (w.mVtdUnitInformation VtdIndex).QiFreeHead + 1
                [MOD (w.mVtdUnitInformation VtdIndex).QiDescLength] := Nat.mod_modEq _ _
          have := Nat.ModEq.add_right (D' :: Ds').length h0
          simpa [Nat.add_assoc, Nat.add_comm 1] using this
        have hlen' := hlen
        unfold Nat.ModEq at hlen'
        rw [hlen'] at this
        exact this
    · rw [hrun, hs, andThen_stop] at hret
      exact absurd hret (by simp)

/-- C4: for an engine with capacity `QiDescLength > 0` and a non-null descriptor,
`SubmitQueuedInvalidationDescriptor` stores the two words of the descriptor in the slot at the
old free head, sets the free head to (old free head + 1) mod capacity (below the capacity,
wrapping from capacity - 1 to 0) and writes the tail register exactly once, with the new free
head shifted left by `DMAR_IQ_SHIFT`; whatever the outcome of the completion loop, the only
other register writes are write-backs of the fault-status register.  After the submissions of
`n > 0` descriptors from free head 0 have returned, the free head is `n mod capacity` and the
last tail value written encodes it. -/
theorem C4_submit_advances_free_head (H : VtdHeader) (P : Platform) (VtdIndex : Nat)
    (D : QI_DESC) (w : World)
    (hcap : 0 < (w.mVtdUnitInformation VtdIndex).QiDescLength)
    (h16 : (w.mVtdUnitInformation VtdIndex).QiDescLength < 2 ^ 16) :
    let U := w.mVtdUnitInformation VtdIndex
    let slot := descAddress H U.QiDesc U.QiFreeHead
    let head := (U.QiFreeHead + 1) % U.QiDescLength
    let T := U.VtdUnitBaseAddress + H.R_IQT_REG
    let r := SubmitQueuedInvalidationDescriptor H P VtdIndex (some D) w
    (r.2.memory slot = UINT64 D.Low ∧ r.2.memory (slot + 8) = UINT64 D.High ∧
      (r.2.mVtdUnitInformation VtdIndex).QiFreeHead = head ∧ head < U.QiDescLength ∧
      (U.QiFreeHead + 1 = U.QiDescLength → head = 0) ∧
      (∃ ext, registerWrites r.2.trace = registerWrites w.trace
          ++ Event.write64 T (UINT64 (head <<< H.DMAR_IQ_SHIFT)) :: ext ∧
        ∀ e ∈ ext, ∃ v, e = Event.write32 (U.VtdUnitBaseAddress + H.R_FSTS_REG) v) ∧
      lastWrite64 T r.2.trace = some (UINT64 (head <<< H.DMAR_IQ_SHIFT))) ∧
    (∀ Ds : List QI_DESC, U.QiFreeHead = 0 → Ds ≠ [] →
      (submitEach H P VtdIndex Ds w).1 = Res.ok () →
      ((submitEach H P VtdIndex Ds w).2.mVtdUnitInformation VtdIndex).QiFreeHead
        = Ds.length % U.QiDescLength ∧
      lastWrite64 T (submitEach H P VtdIndex Ds w).2.trace
        = some (UINT64 ((Ds.length % U.QiDescLength) <<< H.DMAR_IQ_SHIFT))) := by
  intro U slot head T r
  obtain ⟨ext, h1, h2⟩ := Submit_step H P VtdIndex D w (UINT16_ne_zero hcap h16)
  have hr : r.2 = { submitted H VtdIndex D w with
      trace := (submitted H VtdIndex D w).trace ++ ext } := h1
  refine ⟨⟨?_, ?_, ?_, Nat.mod_lt _ hcap, ?_, ?_, ?_⟩, ?_⟩
  · rw [hr]
    have hne : slot ≠ slot + 8 := by omega
    simp [submitted, U, slot, Function.update_noteq hne]
  · rw [hr]
    simp [submitted, U, slot]
  · rw [hr]
    exact congrArg VTD_UNIT_INFORMATION.QiFreeHead (submitted_unit H VtdIndex D w hcap h16)
  · intro hw
    show (U.QiFreeHead + 1) % U.QiDescLength = 0
    rw [hw, Nat.mod_self]
  · refine ⟨registerWrites ext, ?_, registerWrites_poll _ _ ext h2⟩
    rw [hr]
    simp only [submitted, advance_head _ _ hcap h16, registerWrites_append]
    have e1 : registerWrites [Event.store64 (descAddress H (w.mVtdUnitInformation VtdIndex).QiDesc
        (w.mVtdUnitInformation VtdIndex).QiFreeHead) (UINT64 D.Low),
        Event.store64 (descAddress H (w.mVtdUnitInformation VtdIndex).QiDesc
        (w.mVtdUnitInformation VtdIndex).QiFreeHead + 8) (UINT64 D.High)] = [] := rfl
    have e2 : registerWrites (if H.ECapReg_C (w.mVtdUnitInformation VtdIndex).ECapReg = 0 then
        [Event.writeBack (descAddress H (w.mVtdUnitInformation VtdIndex).QiDesc
          (w.mVtdUnitInformation VtdIndex).QiFreeHead) H.sizeof_QI_DESC] else []) = [] := by
      split <;> rfl
    rw [e1, e2]
    simp [registerWrites, Event.isWrite, U, T, head]
  · rw [hr]
    show lastWrite64 T ((submitted H VtdIndex D w).trace ++ ext) = _
    rw [lastWrite64_append_poll _ _ _ _ _ h2]
    exact submitted_lastWrite64 H VtdIndex D w hcap h16
  · intro Ds h0 hDs hret
    have := submitEach_spec H P VtdIndex Ds w hDs hcap h16 hret
    rw [show (w.mVtdUnitInformation VtdIndex).QiFreeHead = 0 from h0, Nat.zero_add] at this
    exact this

/-- A submission that finds the queue-error bit set at its first fault check. -/
theorem Submit_queue_error_run (H : VtdHeader) (P : Platform) (VtdIndex : Nat)
    (D : QI_DESC) (w : World)
    (hcap : 0 < (w.mVtdUnitInformation VtdIndex).QiDescLength)
    (h16 : (w.mVtdUnitInformation VtdIndex).QiDescLength < 2 ^ 16)
    (hIQE : UINT32 (P.reg (submitted H VtdIndex D w).trace 32
      ((w.mVtdUnitInformation VtdIndex).VtdUnitBaseAddress + H.R_FSTS_REG))
        &&& H.B_FSTS_REG_IQE ≠ 0) :
    SubmitQueuedInvalidationDescriptor H P VtdIndex (some D) w =
      (Res.ok EFI_DEVICE_ERROR, { submitted H VtdIndex D w with
        trace := (submitted H VtdIndex D w).trace
          ++ [Event.read32 ((w.mVtdUnitInformation VtdIndex).VtdUnitBaseAddress + H.R_FSTS_REG)
                (UINT32 (P.reg (submitted H VtdIndex D w).trace 32
                  ((w.mVtdUnitInformation VtdIndex).VtdUnitBaseAddress + H.R_FSTS_REG))),
              Event.write32 ((w.mVtdUnitInformation VtdIndex).VtdUnitBaseAddress + H.R_FSTS_REG)
                (UINT32 (UINT32 (P.reg (submitted H VtdIndex D w).trace 32
                  ((w.mVtdUnitInformation VtdIndex).VtdUnitBaseAddress + H.R_FSTS_REG))
                    ||| H.B_FSTS_REG_IQE))] }) := by
  rw [Submit_some_run H P VtdIndex D w (UINT16_ne_zero hcap h16)]
  have hbase : ((submitted H VtdIndex D w).mVtdUnitInformation VtdIndex).VtdUnitBaseAddress
      = (w.mVtdUnitInformation VtdIndex).VtdUnitBaseAddress := by
    simp [submitted]
  cases P.fuel with
  | zero =>
    rw [doWhile_zero, Submit_poll_run]
    simp only [hbase]
    rw [if_pos hIQE]
    rfl
  | succ n =>
    rw [doWhile_succ, Submit_poll_run]
    simp only [hbase]
    rw [if_pos hIQE]
    rfl

/-- On a platform whose fault-status register always shows the queue-error bit, every
submission of a list returns. -/
theorem submitEach_returns_of_queue_error (H : VtdHeader) (P : Platform) (VtdIndex : Nat)
    (hF : ∀ t A, UINT32 (P.reg t 32 A) &&& H.B_FSTS_REG_IQE ≠ 0) :
    ∀ (Ds : List QI_DESC) (w : World),
      0 < (w.mVtdUnitInformation VtdIndex).QiDescLength →
      (w.mVtdUnitInformation VtdIndex).QiDescLength < 2 ^ 16 →
      (submitEach H P VtdIndex Ds w).1 = Res.ok () := by
  intro Ds
  induction Ds with
  | nil => intro w _ _; rfl
  | cons D Ds ih =>
    intro w hcap h16
    have hrun : submitEach H P VtdIndex (D :: Ds) w
        = M.andThen (SubmitQueuedInvalidationDescriptor H P VtdIndex (some D) w)
            (fun _ => submitEach H P VtdIndex Ds) := rfl
    rw [hrun, Submit_queue_error_run H P VtdIndex D w hcap h16 (hF _ _), andThen_ok]
    apply ih
    · simp only [submitted_unit H VtdIndex D w hcap h16]
      exact hcap
    · simp only [submitted_unit H VtdIndex D w hcap h16]
      exact h16

/-- A ring of two slots on a platform that reports a queue error at every fault check: one
submission moves the free head from 0 to 1, and after three submissions the tail register
holds `1 << 4`. -/
theorem C4_submit_advances_free_head_witness :
    ((SubmitQueuedInvalidationDescriptor vtdHeader (constPlatform (BIT 4) 0 0) 0
        (some { Low := 0x31, High := 0 })
        (oneUnitWorld (queuedUnit 2 0) true)).2.mVtdUnitInformation 0).QiFreeHead = 1 ∧
    lastWrite64 0x88 (submitEach vtdHeader (constPlatform (BIT 4) 0 0) 0
        [{ Low := 0x31, High := 0 }, { Low := 0x32, High := 0 }, { Low := 0x33, High := 0 }]
        (oneUnitWorld (queuedUnit 2 0) true)).2.trace = some 16 := by
  have h := C4_submit_advances_free_head vtdHeader (constPlatform (BIT 4) 0 0) 0
    { Low := 0x31, High := 0 } (oneUnitWorld (queuedUnit 2 0) true) (by decide) (by decide)
  exact ⟨h.1.2.2.1, (h.2 [{ Low := 0x31, High := 0 }, { Low := 0x32, High := 0 },
    { Low := 0x33, High := 0 }] rfl (by decide)
    (submitEach_returns_of_queue_error vtdHeader (constPlatform (BIT 4) 0 0) 0
      (fun _ _ => show UINT32 (BIT 4) &&& BIT 4 ≠ 0 by decide) _ _ (by decide) (by decide))).2⟩

/-- C5: when the queue-error bit IQE of the fault-status register is set as
`SubmitQueuedInvalidationDescriptor` starts to poll, it returns `EFI_DEVICE_ERROR` after that
one read of the fault-status register: the head register is not read and nothing more is
waited for.  The descriptor is in its slot all the same, the free head has advanced by one
modulo the capacity, the tail register has been written, and the value read has been written
back to the fault-status register with the IQE bit set. -/
theorem C5_submit_aborts_on_queue_error (H : VtdHeader) (P : Platform) (VtdIndex : Nat)
    (D : QI_DESC) (w : World)
    (hcap : 0 < (w.mVtdUnitInformation VtdIndex).QiDescLength)
    (h16 : (w.mVtdUnitInformation VtdIndex).QiDescLength < 2 ^ 16)
    (hIQE : UINT32 (P.reg (submitted H VtdIndex D w).trace 32
      ((w.mVtdUnitInformation VtdIndex).VtdUnitBaseAddress + H.R_FSTS_REG))
        &&& H.B_FSTS_REG_IQE ≠ 0) :
    let U := w.mVtdUnitInformation VtdIndex
    let slot := descAddress H U.QiDesc U.QiFreeHead
    let head := (U.QiFreeHead + 1) % U.QiDescLength
    let F := U.VtdUnitBaseAddress + H.R_FSTS_REG
    let f := UINT32 (P.reg (submitted H VtdIndex D w).trace 32 F)
    let r := SubmitQueuedInvalidationDescriptor H P VtdIndex (some D) w
    r.1 = Res.ok EFI_DEVICE_ERROR ∧
    r.2.memory slot = UINT64 D.Low ∧ r.2.memory (slot + 8) = UINT64 D.High ∧
    (r.2.mVtdUnitInformation VtdIndex).QiFreeHead = head ∧
    r.2.trace = w.trace
      ++ [Event.store64 slot (UINT64 D.Low), Event.store64 (slot + 8) (UINT64 D.High)]
      ++ (if H.ECapReg_C U.ECapReg = 0 then [Event.writeBack slot H.sizeof_QI_DESC] else [])
      ++ [Event.write64 (U.VtdUnitBaseAddress + H.R_IQT_REG) (UINT64 (head <<< H.DMAR_IQ_SHIFT)),
          Event.read32 F f, Event.write32 F (UINT32 (f ||| H.B_FSTS_REG_IQE))] ∧
    UINT32 (f ||| H.B_FSTS_REG_IQE) &&& (f &&& H.B_FSTS_REG_IQE) = f &&& H.B_FSTS_REG_IQE := by
  intro U slot head F f r
  have hrun : r = (Res.ok EFI_DEVICE_ERROR, { submitted H VtdIndex D w with
      trace := (submitted H VtdIndex D w).trace
        ++ [Event.read32 F f, Event.write32 F (UINT32 (f ||| H.B_FSTS_REG_IQE))] }) := by
    exact Submit_queue_error_run H P VtdIndex D w hcap h16 hIQE
  refine ⟨by rw [hrun], ?_, ?_, ?_, ?_, or_mod_and_detected _ _ (UINT32_lt _)⟩
  · rw [hrun]
    have hne : slot ≠ slot + 8 := by omega
    simp [submitted, U, slot, Function.update_noteq hne]
  · rw [hrun]
    simp [submitted, U, slot]
  · rw [hrun]
    exact congrArg VTD_UNIT_INFORMATION.QiFreeHead (submitted_unit H VtdIndex D w hcap h16)
  · rw [hrun]
    simp [submitted, advance_head _ _ hcap h16, U, slot, head, F, f]

/-- A ring of 256 slots with the free head in the last slot, on a platform whose fault-status
register reads with IQE set: the submission returns `EFI_DEVICE_ERROR` and the free head has
wrapped to 0. -/
theorem C5_submit_aborts_on_queue_error_witness :
    (SubmitQueuedInvalidationDescriptor vtdHeader (constPlatform (BIT 4) 0 0) 0
      (some { Low := 0x31, High := 0 })
      (oneUnitWorld (queuedUnit 256 255) true)).1 = Res.ok EFI_DEVICE_ERROR ∧
    ((SubmitQueuedInvalidationDescriptor vtdHeader (constPlatform (BIT 4) 0 0) 0
      (some { Low := 0x31, High := 0 })
      (oneUnitWorld (queuedUnit 256 255) true)).2.mVtdUnitInformation 0).QiFreeHead = 0 := by
  have h := C5_submit_aborts_on_queue_error vtdHeader (constPlatform (BIT 4) 0 0) 0
    { Low := 0x31, High := 0 }
    (oneUnitWorld (queuedUnit 256 255) true) (by decide) (by decide) (by decide)
  exact ⟨h.1, h.2.2.2.1⟩

/-! ## Preparing the invalidation interface -/

theorem UINT16_queue_length : UINT16 (1 <<< (0 + 8)) = 256 := by decide

theorem UINT64_zero : UINT64 0 = 0 := rfl

/-- A polling loop on a 32-bit register, run from a world `W`. -/
theorem poll32_at (P : Platform) (A : Nat) (again done : Nat → Bool) (body : M (Nat × Bool))
    (W : World) (hdone : ∀ x, done x = !again x)
    (hbody : ∀ t, body { W with trace := t } =
      (Res.ok (UINT32 (P.reg t 32 A), again (UINT32 (P.reg t 32 A))),
        { W with trace := t ++ [Event.read32 A (UINT32 (P.reg t 32 A))] })) :
    ∃ ext,
      (doWhile body P.fuel W).2 = { W with trace := W.trace ++ ext } ∧
      (∀ e ∈ ext, ∃ v, e = Event.read32 A v) ∧
      (acks32 P A done P.fuel W.trace = true → ∃ v, (doWhile body P.fuel W).1 = Res.ok v) ∧
      (acks32 P A done P.fuel W.trace = false →
        (doWhile body P.fuel W).1 = Res.stop Stop.spin) := by
  obtain ⟨ext, h1, h2, h3, h4⟩ := doWhile_poll32 P A again done body W hdone hbody P.fuel W.trace
  exact ⟨ext, h1, h2, fun h => (h3 h).imp (fun _ hv => hv.1), h4⟩

/-- The second part of `PerpareCacheInvalidationInterface` when the allocation succeeds with
buffer `A` and the device acknowledges the enable. -/
theorem setup_success (H : VtdHeader) (P : Platform) (VtdIndex : Nat) (w : World) (A : Nat)
    (hA : A ≠ 0)
    (hAlloc : ∀ t, P.pages t (H.EFI_SIZE_TO_PAGES (H.sizeof_QI_DESC * 256)) = A)
    (hEnable : ∀ t v, acks32 P ((w.mVtdUnitInformation VtdIndex).VtdUnitBaseAddress + H.R_GSTS_REG)
      (fun r => decide (r &&& H.B_GSTS_REG_QIES ≠ 0)) P.fuel
      (t ++ [Event.write32 ((w.mVtdUnitInformation VtdIndex).VtdUnitBaseAddress + H.R_GCMD_REG)
        (UINT32 (v ||| H.B_GMCD_REG_QIE))]) = true) :
    ∃ g1 ext,
      PerpareCacheInvalidationInterface.setup H P VtdIndex w = (Res.ok EFI_SUCCESS,
        { w with
          mVtdUnitInformation := Function.update w.mVtdUnitInformation VtdIndex
            { w.mVtdUnitInformation VtdIndex with
              QiDescLength := 256, QiDesc := A, QiFreeHead := 0 }
          trace := w.trace ++
            [Event.write64 ((w.mVtdUnitInformation VtdIndex).VtdUnitBaseAddress + H.R_IQT_REG) 0,
             Event.allocPages (H.EFI_SIZE_TO_PAGES (H.sizeof_QI_DESC * 256)) A,
             Event.write64 ((w.mVtdUnitInformation VtdIndex).VtdUnitBaseAddress + H.R_IQA_REG)
               (UINT64 (UINT64 A ||| 0)),
             Event.read32 ((w.mVtdUnitInformation VtdIndex).VtdUnitBaseAddress + H.R_GSTS_REG) g1,
             Event.write32 ((w.mVtdUnitInformation VtdIndex).VtdUnitBaseAddress + H.R_GCMD_REG)
               (UINT32 (g1 ||| H.B_GMCD_REG_QIE))] ++ ext }) ∧
      ∀ e ∈ ext, ∃ v, e = Event.read32
        ((w.mVtdUnitInformation VtdIndex).VtdUnitBaseAddress + H.R_GSTS_REG) v := by
  unfold PerpareCacheInvalidationInterface.setup
  simp only [bind_run, unitInfo_run, andThen_ok, ite_run, if_false, setUnitInfo_run,
    MmioRead32_run, MmioWrite64_run, MmioWrite32_run, AllocatePages_run, Function.update_same,
    UINT16_queue_length, hAlloc, hA, pure_run, Function.update_idem, UINT64_UINT64, UINT32_UINT32,
    List.append_assoc, List.cons_append, List.nil_append, UINT64_zero]
  generalize UINT32 (P.reg _ 32 _) = g1
  refine ⟨g1, ?_⟩
  set G := (w.mVtdUnitInformation VtdIndex).VtdUnitBaseAddress + H.R_GSTS_REG with hG
  set W : World := { w with
    mVtdUnitInformation := Function.update w.mVtdUnitInformation VtdIndex
      { w.mVtdUnitInformation VtdIndex with QiDescLength := 256, QiDesc := A }
    trace := w.trace ++
      [Event.write64 ((w.mVtdUnitInformation VtdIndex).VtdUnitBaseAddress + H.R_IQT_REG) 0,
       Event.allocPages (H.EFI_SIZE_TO_PAGES (H.sizeof_QI_DESC * 256)) A,
       Event.write64 ((w.mVtdUnitInformation VtdIndex).VtdUnitBaseAddress + H.R_IQA_REG)
         (UINT64 (UINT64 A ||| 0)),
       Event.read32 G g1,
       Event.write32 ((w.mVtdUnitInformation VtdIndex).VtdUnitBaseAddress + H.R_GCMD_REG)
         (UINT32 (g1 ||| H.B_GMCD_REG_QIE))] } with hW
  obtain ⟨ext, h1, h2, h3, _⟩ := poll32_at P G (fun r => decide (r &&& H.B_GSTS_REG_QIES = 0))
    (fun r => decide (r &&& H.B_GSTS_REG_QIES ≠ 0))
    (do
      let Reg32 ← MmioRead32 P ((← unitInfo VtdIndex).VtdUnitBaseAddress + H.R_GSTS_REG)
      pure (Reg32, decide (Reg32 &&& H.B_GSTS_REG_QIES = 0))) W (by intro x; simp)
    (by intro t; simp [W, G])
  obtain ⟨v, hv⟩ := h3 (by
    have := hEnable (w.trace ++
      [Event.write64 ((w.mVtdUnitInformation VtdIndex).VtdUnitBaseAddress + H.R_IQT_REG) 0,
       Event.allocPages (H.EFI_SIZE_TO_PAGES (H.sizeof_QI_DESC * 256)) A,
       Event.write64 ((w.mVtdUnitInformation VtdIndex).VtdUnitBaseAddress + H.R_IQA_REG)
         (UINT64 (UINT64 A ||| 0)),
       Event.read32 G g1]) g1
    simpa [W] using this)
  refine ⟨ext, ?_, h2⟩
  rcases hd : doWhile (do
      let Reg32 ← MmioRead32 P ((← unitInfo VtdIndex).VtdUnitBaseAddress + H.R_GSTS_REG)
      pure (Reg32, decide (Reg32 &&& H.B_GSTS_REG_QIES = 0))) P.fuel W with ⟨v' | s, W'⟩
  · rw [hd] at h1
    simp only [] at h1
    rw [andThen_ok, h1]
    simp [W]
  · rw [hd] at hv
    simp at hv

/-- `PerpareCacheInvalidationInterface` on an engine with `VER.Major > 5` and `ECAP.QI` set,
when the allocation succeeds with buffer `A` and the device acknowledges the polls. -/
theorem Perpare_queued_success (H : VtdHeader) (P : Platform) (VtdIndex : Nat) (w : World)
    (A : Nat)
    (hMajor : 5 < H.VerReg_Major (w.mVtdUnitInformation VtdIndex).VerReg)
    (hQI : H.ECapReg_QI (w.mVtdUnitInformation VtdIndex).ECapReg ≠ 0)
    (hA : A ≠ 0)
    (hAlloc : ∀ t, P.pages t (H.EFI_SIZE_TO_PAGES (H.sizeof_QI_DESC * 256)) = A)
    (hDisable : UINT32 (P.reg w.trace 32
        ((w.mVtdUnitInformation VtdIndex).VtdUnitBaseAddress + H.R_GSTS_REG))
          &&& H.B_GSTS_REG_QIES ≠ 0 →
      ∀ t v, acks32 P ((w.mVtdUnitInformation VtdIndex).VtdUnitBaseAddress + H.R_GSTS_REG)
        (fun r => decide (r &&& H.B_GSTS_REG_QIES = 0)) P.fuel
        (t ++ [Event.write32 ((w.mVtdUnitInformation VtdIndex).VtdUnitBaseAddress + H.R_GCMD_REG)
          (UINT32 (v &&& not32 H.B_GSTS_REG_QIES))]) = true)
    (hEnable : ∀ t v, acks32 P ((w.mVtdUnitInformation VtdIndex).VtdUnitBaseAddress + H.R_GSTS_REG)
      (fun r => decide (r &&& H.B_GSTS_REG_QIES ≠ 0)) P.fuel
      (t ++ [Event.write32 ((w.mVtdUnitInformation VtdIndex).VtdUnitBaseAddress + H.R_GCMD_REG)
        (UINT32 (v ||| H.B_GMCD_REG_QIE))]) = true) :
    ∃ g1 ext0 ext1,
      PerpareCacheInvalidationInterface H P VtdIndex w = (Res.ok EFI_SUCCESS,
        { w with
          mVtdUnitInformation := Function.update w.mVtdUnitInformation VtdIndex
            { w.mVtdUnitInformation VtdIndex with
              EnableQueuedInvalidation := 1, QiDescLength := 256, QiDesc := A, QiFreeHead := 0 }
          trace := w.trace ++
            [Event.read32 ((w.mVtdUnitInformation VtdIndex).VtdUnitBaseAddress + H.R_GSTS_REG)
              (UINT32 (P.reg w.trace 32
                ((w.mVtdUnitInformation VtdIndex).VtdUnitBaseAddress + H.R_GSTS_REG)))] ++
            (if UINT32 (P.reg w.trace 32
                ((w.mVtdUnitInformation VtdIndex).VtdUnitBaseAddress + H.R_GSTS_REG))
                  &&& H.B_GSTS_REG_QIES ≠ 0 then
              Event.write32 ((w.mVtdUnitInformation VtdIndex).VtdUnitBaseAddress + H.R_GCMD_REG)
                (UINT32 (UINT32 (P.reg w.trace 32
                  ((w.mVtdUnitInformation VtdIndex).VtdUnitBaseAddress + H.R_GSTS_REG))
                    &&& not32 H.B_GSTS_REG_QIES)) :: ext0
            else []) ++
            [Event.write64 ((w.mVtdUnitInformation VtdIndex).VtdUnitBaseAddress + H.R_IQT_REG) 0,
             Event.allocPages (H.EFI_SIZE_TO_PAGES (H.sizeof_QI_DESC * 256)) A,
             Event.write64 ((w.mVtdUnitInformation VtdIndex).VtdUnitBaseAddress + H.R_IQA_REG)
               (UINT64 (UINT64 A ||| 0)),
             Event.read32 ((w.mVtdUnitInformation VtdIndex).VtdUnitBaseAddress + H.R_GSTS_REG) g1,
             Event.write32 ((w.mVtdUnitInformation VtdIndex).VtdUnitBaseAddress + H.R_GCMD_REG)
               (UINT32 (g1 ||| H.B_GMCD_REG_QIE))] ++ ext1 }) ∧
      (∀ e ∈ ext0, ∃ v, e = Event.read32
        ((w.mVtdUnitInformation VtdIndex).VtdUnitBaseAddress + H.R_GSTS_REG) v) ∧
      (∀ e ∈ ext1, ∃ v, e = Event.read32
        ((w.mVtdUnitInformation VtdIndex).VtdUnitBaseAddress + H.R_GSTS_REG) v) := by
  have hMajor' : ¬ H.VerReg_Major (w.mVtdUnitInformation VtdIndex).VerReg ≤ 5 := not_le.mpr hMajor
  unfold PerpareCacheInvalidationInterface
  simp only [bind_run, unitInfo_run, andThen_ok, ite_run, hMajor', hQI, if_false, setUnitInfo_run,
    MmioRead32_run, MmioWrite32_run, Function.update_same, pure_run, UINT32_UINT32]
  set G := (w.mVtdUnitInformation VtdIndex).VtdUnitBaseAddress + H.R_GSTS_REG with hG
  set C := (w.mVtdUnitInformation VtdIndex).VtdUnitBaseAddress + H.R_GCMD_REG with hC
  set g0 := UINT32 (P.reg w.trace 32 G) with hg0
  by_cases hq : g0 &&& H.B_GSTS_REG_QIES ≠ 0
  · simp only [if_pos hq]
    set W : World := { w with
      mVtdUnitInformation := Function.update w.mVtdUnitInformation VtdIndex
        { w.mVtdUnitInformation VtdIndex with EnableQueuedInvalidation := 1 }
      trace := w.trace ++ [Event.read32 G g0]
        ++ [Event.write32 C (UINT32 (g0 &&& not32 H.B_GSTS_REG_QIES))] } with hW
    obtain ⟨ext0, h1, h2, h3, _⟩ := poll32_at P G
      (fun r => decide (r &&& H.B_GSTS_REG_QIES ≠ 0))
      (fun r => decide (r &&& H.B_GSTS_REG_QIES = 0))
      (do
        let Reg32 ← MmioRead32 P ((← unitInfo VtdIndex).VtdUnitBaseAddress + H.R_GSTS_REG)
        pure (Reg32, decide (Reg32 &&& H.B_GSTS_REG_QIES ≠ 0))) W (by intro x; simp)
      (by intro t; simp [W, G])
    obtain ⟨v, hv⟩ := h3 (hDisable hq _ _)
    rcases hd : doWhile (do
        let Reg32 ← MmioRead32 P ((← unitInfo VtdIndex).VtdUnitBaseAddress + H.R_GSTS_REG)
        pure (Reg32, decide (Reg32 &&& H.B_GSTS_REG_QIES ≠ 0))) P.fuel W with ⟨v' | s, W'⟩
    · rw [hd] at h1
      simp only [] at h1
      obtain ⟨g1, ext1, hs, hext1⟩ := setup_success H P VtdIndex W' A hA hAlloc
        (by rw [h1]; simpa [W] using hEnable)
      refine ⟨g1, ext0, ext1, ?_, h2, ?_⟩
      · simp only [andThen_ok, pure_bind_eq, hs]
        rw [h1]
        simp [W, G, C]
      · rw [h1] at hext1
        simpa [W] using hext1
    · rw [hd] at hv
      simp at hv
  · simp only [if_neg hq]
    obtain ⟨g1, ext1, hs, hext1⟩ := setup_success H P VtdIndex
      { w with
        mVtdUnitInformation := Function.update w.mVtdUnitInformation VtdIndex
          { w.mVtdUnitInformation VtdIndex with EnableQueuedInvalidation := 1 }
        trace := w.trace ++ [Event.read32 G g0] } A hA hAlloc (by simpa using hEnable)
    refine ⟨g1, [], ext1, ?_, by simp, ?_⟩
    · rw [hs]
      simp [G, C]
    · simpa using hext1

theorem allocations_append (t u : List Event) :
    allocations (t ++ u) = allocations t ++ allocations u := by
  simp [allocations]

theorem allocations_reads32 (A : Nat) (ext : List Event)
    (h : ∀ e ∈ ext, ∃ x, e = Event.read32 A x) : allocations ext = [] := by
  simp only [allocations, List.filter_eq_nil_iff]
  intro e he
  obtain ⟨x, rfl⟩ := h e he
  simp [Event.isAlloc]

theorem testBit_not32 (x i : Nat) : (not32 x).testBit i = (decide (i < 32) && !x.testBit i) := by
  simp only [not32, UINT32, Nat.testBit_xor, Nat.testBit_two_pow_sub_one,
    Nat.testBit_mod_two_pow]
  by_cases h : i < 32 <;> simp [h]

/-- A 32-bit value or-ed with a 32-bit mask has the mask set. -/
theorem or_mask_set (v b : Nat) (hb : b < 2 ^ 32) : UINT32 (v ||| b) &&& b = b := by
  apply Nat.eq_of_testBit_eq
  intro i
  simp only [UINT32, Nat.testBit_and, Nat.testBit_or, Nat.testBit_mod_two_pow]
  by_cases hi : i < 32
  · cases hbi : b.testBit i <;> simp [hi]
  · have : b.testBit i = false :=
      Nat.testBit_lt_two_pow (lt_of_lt_of_le hb (Nat.pow_le_pow_right (by decide) (not_lt.mp hi)))
    simp [this]

/-- A value and-ed with the 32-bit complement of a mask has the mask clear. -/
theorem and_not32_clear (v b : Nat) : UINT32 (v &&& not32 b) &&& b = 0 := by
  apply Nat.eq_of_testBit_eq
  intro i
  simp only [UINT32, Nat.testBit_and, Nat.testBit_mod_two_pow, testBit_not32, Nat.zero_testBit]
  cases b.testBit i <;> simp

/-- C10: on an engine with `VER.Major > 5` and `ECAP.QI` set, when the page allocation returns
the buffer `A` and the device acknowledges the polls, `PerpareCacheInvalidationInterface`
returns `EFI_SUCCESS` with `QiDescLength = 256 = 2^(QueueSize+8)` for `QueueSize = 0`, free
head 0, the Queued flag set and the buffer recorded; its register writes are, in order, the
global command with the QIES bit cleared when queued invalidation was enabled in the status
read on entry, 0 to the tail register, `A | 0` to the queue-address register and the global
command with the queued-invalidation-enable bit set; it allocates exactly once. -/
theorem C10_queue_setup (H : VtdHeader) (P : Platform) (VtdIndex : Nat) (w : World) (A : Nat)
    (hMajor : 5 < H.VerReg_Major (w.mVtdUnitInformation VtdIndex).VerReg)
    (hQI : H.ECapReg_QI (w.mVtdUnitInformation VtdIndex).ECapReg ≠ 0)
    (hA : A ≠ 0) (hA64 : A < 2 ^ 64) (hQIE : H.B_GMCD_REG_QIE < 2 ^ 32)
    (hAlloc : ∀ t, P.pages t (H.EFI_SIZE_TO_PAGES (H.sizeof_QI_DESC * 256)) = A)
    (hDisable : UINT32 (P.reg w.trace 32
        ((w.mVtdUnitInformation VtdIndex).VtdUnitBaseAddress + H.R_GSTS_REG))
          &&& H.B_GSTS_REG_QIES ≠ 0 →
      ∀ t v, acks32 P ((w.mVtdUnitInformation VtdIndex).VtdUnitBaseAddress + H.R_GSTS_REG)
        (fun r => decide (r &&& H.B_GSTS_REG_QIES = 0)) P.fuel
        (t ++ [Event.write32 ((w.mVtdUnitInformation VtdIndex).VtdUnitBaseAddress + H.R_GCMD_REG)
          (UINT32 (v &&& not32 H.B_GSTS_REG_QIES))]) = true)
    (hEnable : ∀ t v, acks32 P ((w.mVtdUnitInformation VtdIndex).VtdUnitBaseAddress + H.R_GSTS_REG)
      (fun r => decide (r &&& H.B_GSTS_REG_QIES ≠ 0)) P.fuel
      (t ++ [Event.write32 ((w.mVtdUnitInformation VtdIndex).VtdUnitBaseAddress + H.R_GCMD_REG)
        (UINT32 (v ||| H.B_GMCD_REG_QIE))]) = true) :
    let U := w.mVtdUnitInformation VtdIndex
    let G := U.VtdUnitBaseAddress + H.R_GSTS_REG
    let C := U.VtdUnitBaseAddress + H.R_GCMD_REG
    let g0 := UINT32 (P.reg w.trace 32 G)
    let r := PerpareCacheInvalidationInterface H P VtdIndex w
    r.1 = Res.ok EFI_SUCCESS ∧
    (r.2.mVtdUnitInformation VtdIndex).QiDescLength = 256 ∧ 256 = 2 ^ (0 + 8) ∧
    (r.2.mVtdUnitInformation VtdIndex).QiFreeHead = 0 ∧
    (r.2.mVtdUnitInformation VtdIndex).EnableQueuedInvalidation = 1 ∧
    (r.2.mVtdUnitInformation VtdIndex).QiDesc = A ∧
    (∃ g1, registerWrites r.2.trace = registerWrites w.trace
        ++ (if g0 &&& H.B_GSTS_REG_QIES ≠ 0 then
            [Event.write32 C (UINT32 (g0 &&& not32 H.B_GSTS_REG_QIES))] else [])
        ++ [Event.write64 (U.VtdUnitBaseAddress + H.R_IQT_REG) 0,
            Event.write64 (U.VtdUnitBaseAddress + H.R_IQA_REG) (A ||| 0),
            Event.write32 C (UINT32 (g1 ||| H.B_GMCD_REG_QIE))] ∧
      UINT32 (g1 ||| H.B_GMCD_REG_QIE) &&& H.B_GMCD_REG_QIE = H.B_GMCD_REG_QIE) ∧
    UINT32 (g0 &&& not32 H.B_GSTS_REG_QIES) &&& H.B_GSTS_REG_QIES = 0 ∧
    allocations r.2.trace = allocations w.trace
      ++ [Event.allocPages (H.EFI_SIZE_TO_PAGES (H.sizeof_QI_DESC * 256)) A] := by
  intro U G C g0 r
  obtain ⟨g1, ext0, ext1, hr, h0, h1⟩ :=
    Perpare_queued_success H P VtdIndex w A hMajor hQI hA hAlloc hDisable hEnable
  have hr' : r = _ := hr
  have hA' : UINT64 (UINT64 A ||| 0) = A ||| 0 := by
    simp [UINT64_of_lt hA64]
  refine ⟨by rw [hr'], by rw [hr']; simp, by decide, by rw [hr']; simp, by rw [hr']; simp,
    by rw [hr']; simp, ⟨g1, ?_, or_mask_set _ _ hQIE⟩, and_not32_clear _ _, ?_⟩
  · rw [hr']
    simp only [registerWrites_append, registerWrites_reads32 _ ext1 h1, hA']
    have e0 : registerWrites (if g0 &&& H.B_GSTS_REG_QIES ≠ 0 then
          Event.write32 C (UINT32 (g0 &&& not32 H.B_GSTS_REG_QIES)) :: ext0 else [])
        = (if g0 &&& H.B_GSTS_REG_QIES ≠ 0 then
          [Event.write32 C (UINT32 (g0 &&& not32 H.B_GSTS_REG_QIES))] else []) := by
      split
      · have := registerWrites_append [Event.write32 C (UINT32 (g0 &&& not32 H.B_GSTS_REG_QIES))] ext0
        simp only [List.singleton_append] at this
        rw [this, registerWrites_reads32 _ ext0 h0]
        rfl
      · rfl
    rw [e0]
    simp [registerWrites, Event.isWrite]
  · rw [hr']
    simp only [allocations_append, allocations_reads32 _ ext1 h1]
    have e0 : allocations (if g0 &&& H.B_GSTS_REG_QIES ≠ 0 then
          Event.write32 C (UINT32 (g0 &&& not32 H.B_GSTS_REG_QIES)) :: ext0 else []) = [] := by
      split
      · have := allocations_append [Event.write32 C (UINT32 (g0 &&& not32 H.B_GSTS_REG_QIES))] ext0
        simp only [List.singleton_append] at this
        rw [this, allocations_reads32 _ ext0 h0]
        rfl
      · rfl
    rw [e0]
    simp [allocations, Event.isAlloc]

theorem lastWrite32_append_write (A : Nat) (t : List Event) (v : Nat) :
    lastWrite32 A (t ++ [Event.write32 A v]) = some v := by
  simp [lastWrite32, List.foldl_append]

/-- The platform `promptPlatform` acknowledges the enabling of queued invalidation at the first
read of the global status register. -/
theorem promptPlatform_acks_enable (ver cap ecap buffer fuel : Nat) (t : List Event) (v : Nat) :
    acks32 (promptPlatform ver cap ecap buffer fuel) 0x1C
      (fun r => decide (r &&& BIT 26 ≠ 0)) fuel
      (t ++ [Event.write32 0x18 (UINT32 (v ||| BIT 26))]) = true := by
  have h : UINT32 ((promptPlatform ver cap ecap buffer fuel).reg
      (t ++ [Event.write32 0x18 (UINT32 (v ||| BIT 26))]) 32 0x1C) = UINT32 (v ||| BIT 26) := by
    simp [promptPlatform, vtdHeader, lastWrite32_append_write]
  have hb : UINT32 (v ||| BIT 26) &&& BIT 26 ≠ 0 := by
    rw [or_mask_set _ _ (by decide)]
    decide
  cases fuel with
  | zero => simp only [acks32, h]; simpa using hb
  | succ n => simp only [acks32, h]; simp [hb]

/-- An engine of major version 6 with `ECAP.QI` set, on `promptPlatform` with the buffer at
`0x1000`: the interface is set up with 256 slots. -/
theorem C10_queue_setup_witness :
    (PerpareCacheInvalidationInterface vtdHeader (promptPlatform 0x60 0 2 0x1000 0) 0
      (oneUnitWorld { zeroUnit with VerReg := 0x60, ECapReg := 2 } false)).1
        = Res.ok EFI_SUCCESS ∧
    ((PerpareCacheInvalidationInterface vtdHeader (promptPlatform 0x60 0 2 0x1000 0) 0
      (oneUnitWorld { zeroUnit with VerReg := 0x60, ECapReg := 2 } false)).2.mVtdUnitInformation
        0).QiDescLength = 256 := by
  have h := C10_queue_setup vtdHeader (promptPlatform 0x60 0 2 0x1000 0) 0
    (oneUnitWorld { zeroUnit with VerReg := 0x60, ECapReg := 2 } false) 0x1000
    (by decide) (by decide) (by decide) (by decide) (by decide) (fun _ => rfl)
    (fun h => absurd h (by decide))
    (fun t v => promptPlatform_acks_enable 0x60 0 2 0x1000 0 t v)
  exact ⟨h.1, h.2.1⟩

theorem Perpare_register_based (H : VtdHeader) (P : Platform) (VtdIndex : Nat) (w : World)
    (hMajor : H.VerReg_Major (w.mVtdUnitInformation VtdIndex).VerReg ≤ 5) :
    PerpareCacheInvalidationInterface H P VtdIndex w = (Res.ok EFI_SUCCESS,
      { w with
        mVtdUnitInformation := Function.update w.mVtdUnitInformation VtdIndex
          { w.mVtdUnitInformation VtdIndex with EnableQueuedInvalidation := 0 } }) := by
  unfold PerpareCacheInvalidationInterface
  simp only [bind_run, unitInfo_run, andThen_ok, ite_run, hMajor, if_true, setUnitInfo_run,
    pure_run]

theorem Perpare_unsupported (H : VtdHeader) (P : Platform) (VtdIndex : Nat) (w : World)
    (hMajor : 5 < H.VerReg_Major (w.mVtdUnitInformation VtdIndex).VerReg)
    (hQI : H.ECapReg_QI (w.mVtdUnitInformation VtdIndex).ECapReg = 0) :
    PerpareCacheInvalidationInterface H P VtdIndex w = (Res.ok EFI_UNSUPPORTED, w) := by
  have hMajor' : ¬ H.VerReg_Major (w.mVtdUnitInformation VtdIndex).VerReg ≤ 5 := not_le.mpr hMajor
  unfold PerpareCacheInvalidationInterface
  simp only [bind_run, unitInfo_run, andThen_ok, ite_run, hMajor', hQI, if_true, if_false,
    pure_run]

/-- The loop body of `PrepareVtdConfig`: the capability snapshot, the two checks, then
`PerpareCacheInvalidationInterface`. -/
theorem engine_run (H : VtdHeader) (P : Platform) (Index : Nat) (w : World) :
    PrepareVtdConfig.engine H P Index w =
      (if H.CapReg_SAGAW ((snapshot H P Index w).mVtdUnitInformation Index).CapReg
          &&& (BIT 3 ||| BIT 2) = 0 then
        (Res.ok false, snapshot H P Index w)
      else if ((snapshot H P Index w).mVtdUnitInformation Index).PciDeviceDataNumber
          ≥ UINT64 (1 <<< UINT8
            (H.CapReg_ND ((snapshot H P Index w).mVtdUnitInformation Index).CapReg * 2 + 4)) then
        (Res.ok false, snapshot H P Index w)
      else
        M.andThen (PerpareCacheInvalidationInterface H P Index (snapshot H P Index w))
          (fun Status => if EFI_ERROR Status = true then
            (do ASSERT_FALSE; pure false : M Bool) else pure true)) := by
  unfold PrepareVtdConfig.engine
  simp only [bind_run, unitInfo_run, andThen_ok, ite_run, setUnitInfo_run, MmioRead32_run,
    MmioRead64_run, Function.update_same, Function.update_idem, pure_run, snapshot]

theorem domainNumber_eq (nd : Nat) (h : nd * 2 + 4 < 64) :
    UINT64 (1 <<< UINT8 (nd * 2 + 4)) = 2 ^ (2 * nd + 4) := by
  have h8 : UINT8 (nd * 2 + 4) = nd * 2 + 4 := Nat.mod_eq_of_lt (by omega)
  rw [h8, Nat.one_shiftLeft, Nat.mul_comm nd 2]
  exact Nat.mod_eq_of_lt (Nat.pow_lt_pow_right (by decide) (by omega))

/-- C2: mode invariant of `PerpareCacheInvalidationInterface`.  For an engine that is
Register-Based before the call, the engine is Queued in the world the call reaches, whatever
the outcome, only if `ECAP.QI` is non-zero and `VER.Major > 5`.  For an engine with
`VER.Major <= 5`, whatever the QI bit and the previous mode, the call returns `EFI_SUCCESS`,
the only change to the world is that the engine is Register-Based, and there is no register
access and no allocation. -/
theorem C2_mode_invariant (H : VtdHeader) (P : Platform) (VtdIndex : Nat) (w : World) :
    let U := w.mVtdUnitInformation VtdIndex
    let r := PerpareCacheInvalidationInterface H P VtdIndex w
    (U.EnableQueuedInvalidation = 0 →
      (r.2.mVtdUnitInformation VtdIndex).EnableQueuedInvalidation ≠ 0 →
      H.ECapReg_QI U.ECapReg ≠ 0 ∧ 5 < H.VerReg_Major U.VerReg) ∧
    (H.VerReg_Major U.VerReg ≤ 5 →
      r = (Res.ok EFI_SUCCESS,
        { w with
          mVtdUnitInformation := Function.update w.mVtdUnitInformation VtdIndex
            { U with EnableQueuedInvalidation := 0 } }) ∧
      (r.2.mVtdUnitInformation VtdIndex).EnableQueuedInvalidation = 0 ∧
      r.2.trace = w.trace ∧ registerWrites r.2.trace = registerWrites w.trace ∧
      allocations r.2.trace = allocations w.trace) := by
  intro U r
  constructor
  · intro h0 hq
    by_cases hM : H.VerReg_Major U.VerReg ≤ 5
    · have hr : r = _ := Perpare_register_based H P VtdIndex w hM
      rw [hr] at hq
      simp at hq
    · by_cases hQ : H.ECapReg_QI U.ECapReg = 0
      · have hr : r = _ := Perpare_unsupported H P VtdIndex w (not_le.mp hM) hQ
        rw [hr] at hq
        exact absurd h0 hq
      · exact ⟨hQ, not_le.mp hM⟩
  · intro hM
    have hr : r = _ := Perpare_register_based H P VtdIndex w hM
    refine ⟨hr, ?_, ?_, ?_, ?_⟩
    all_goals simp [hr]

/-- An engine of major version 4 with the QI bit set stays Register-Based. -/
theorem C2_mode_invariant_witness :
    (PerpareCacheInvalidationInterface vtdHeader (constPlatform 0 0 0) 0
      (oneUnitWorld { zeroUnit with VerReg := 0x40, ECapReg := 2 } false)).1
        = Res.ok EFI_SUCCESS ∧
    ((PerpareCacheInvalidationInterface vtdHeader (constPlatform 0 0 0) 0
      (oneUnitWorld { zeroUnit with VerReg := 0x40, ECapReg := 2 } false)).2.mVtdUnitInformation
        0).EnableQueuedInvalidation = 0 := by
  have h := (C2_mode_invariant vtdHeader (constPlatform 0 0 0) 0
    (oneUnitWorld { zeroUnit with VerReg := 0x40, ECapReg := 2 } false)).2 (by decide)
  exact ⟨congrArg Prod.fst h.1, h.2.1⟩

/-- The platform `promptPlatform` acknowledges the disabling of queued invalidation at the
first read of the global status register. -/
theorem promptPlatform_acks_disable (ver cap ecap buffer fuel : Nat) (t : List Event) (v : Nat) :
    acks32 (promptPlatform ver cap ecap buffer fuel) 0x1C
      (fun r => decide (r &&& BIT 26 = 0)) fuel
      (t ++ [Event.write32 0x18 (UINT32 (v &&& not32 (BIT 26)))]) = true := by
  have h : UINT32 ((promptPlatform ver cap ecap buffer fuel).reg
      (t ++ [Event.write32 0x18 (UINT32 (v &&& not32 (BIT 26)))]) 32 0x1C)
        = UINT32 (v &&& not32 (BIT 26)) := by
    simp [promptPlatform, vtdHeader, lastWrite32_append_write]
  have hb : UINT32 (v &&& not32 (BIT 26)) &&& BIT 26 = 0 := and_not32_clear _ _
  cases fuel with
  | zero => simp only [acks32, h]; simpa using hb
  | succ n => simp only [acks32, h]; simp [hb]

/-- C1 (amended): for the engine `Index` whose capability snapshot reports 4-level or 5-level
page-table support and whose device count is below the domain count `2^(2*ND+4)`, and which
is not an engine with `VER.Major > 5` and `ECAP.QI = 0`, when the allocation succeeds and the
device acknowledges every poll, the pass of `PrepareVtdConfig` over the engine succeeds (the
loop goes on to the next engine) and leaves the engine Queued if and only if `ECAP.QI` is set
and `VER.Major > 5`. -/
theorem C1_discover_and_validate (H : VtdHeader) (P : Platform) (Index : Nat) (w : World)
    (A : Nat)
    (hSAGAW : H.CapReg_SAGAW ((snapshot H P Index w).mVtdUnitInformation Index).CapReg
      &&& (BIT 3 ||| BIT 2) ≠ 0)
    (hND : H.CapReg_ND ((snapshot H P Index w).mVtdUnitInformation Index).CapReg * 2 + 4 < 64)
    (hDev : (w.mVtdUnitInformation Index).PciDeviceDataNumber
      < 2 ^ (2 * H.CapReg_ND ((snapshot H P Index w).mVtdUnitInformation Index).CapReg + 4))
    (hMode : ¬ (5 < H.VerReg_Major ((snapshot H P Index w).mVtdUnitInformation Index).VerReg
      ∧ H.ECapReg_QI ((snapshot H P Index w).mVtdUnitInformation Index).ECapReg = 0))
    (hA : A ≠ 0)
    (hAlloc : ∀ t, P.pages t (H.EFI_SIZE_TO_PAGES (H.sizeof_QI_DESC * 256)) = A)
    (hDisable : ∀ t v,
      acks32 P ((w.mVtdUnitInformation Index).VtdUnitBaseAddress + H.R_GSTS_REG)
        (fun r => decide (r &&& H.B_GSTS_REG_QIES = 0)) P.fuel
        (t ++ [Event.write32 ((w.mVtdUnitInformation Index).VtdUnitBaseAddress + H.R_GCMD_REG)
          (UINT32 (v &&& not32 H.B_GSTS_REG_QIES))]) = true)
    (hEnable : ∀ t v,
      acks32 P ((w.mVtdUnitInformation Index).VtdUnitBaseAddress + H.R_GSTS_REG)
        (fun r => decide (r &&& H.B_GSTS_REG_QIES ≠ 0)) P.fuel
        (t ++ [Event.write32 ((w.mVtdUnitInformation Index).VtdUnitBaseAddress + H.R_GCMD_REG)
          (UINT32 (v ||| H.B_GMCD_REG_QIE))]) = true) :
    (PrepareVtdConfig.engine H P Index w).1 = Res.ok true ∧
    (((PrepareVtdConfig.engine H P Index w).2.mVtdUnitInformation Index).EnableQueuedInvalidation
        ≠ 0 ↔
      H.ECapReg_QI ((snapshot H P Index w).mVtdUnitInformation Index).ECapReg ≠ 0 ∧
        5 < H.VerReg_Major ((snapshot H P Index w).mVtdUnitInformation Index).VerReg) := by
  have hbase : ((snapshot H P Index w).mVtdUnitInformation Index).VtdUnitBaseAddress
      = (w.mVtdUnitInformation Index).VtdUnitBaseAddress := by
    simp [snapshot]
  have hdev : ((snapshot H P Index w).mVtdUnitInformation Index).PciDeviceDataNumber
      = (w.mVtdUnitInformation Index).PciDeviceDataNumber := by
    simp [snapshot]
  have hdom : ¬ ((snapshot H P Index w).mVtdUnitInformation Index).PciDeviceDataNumber
      ≥ UINT64 (1 <<< UINT8
        (H.CapReg_ND ((snapshot H P Index w).mVtdUnitInformation Index).CapReg * 2 + 4)) := by
    rw [domainNumber_eq _ hND, hdev]
    exact not_le.mpr hDev
  rw [engine_run, if_neg hSAGAW, if_neg hdom]
  by_cases hM : H.VerReg_Major ((snapshot H P Index w).mVtdUnitInformation Index).VerReg ≤ 5
  · rw [Perpare_register_based H P Index _ hM, andThen_ok]
    refine ⟨rfl, ?_⟩
    simp only [EFI_ERROR, bne_self_eq_false, Bool.false_eq_true, if_false, pure_run,
      Function.update_same]
    constructor
    · intro h
      exact absurd rfl h
    · intro h
      exact absurd hM (not_le.mpr h.2)
  · have hM' := not_le.mp hM
    have hQ : H.ECapReg_QI ((snapshot H P Index w).mVtdUnitInformation Index).ECapReg ≠ 0 :=
      fun h => hMode ⟨hM', h⟩
    obtain ⟨g1, ext0, ext1, hr, _, _⟩ := Perpare_queued_success H P Index
      (snapshot H P Index w) A hM' hQ hA hAlloc
      (fun _ => by rw [hbase]; exact hDisable) (by rw [hbase]; exact hEnable)
    rw [hr, andThen_ok]
    refine ⟨rfl, ?_⟩
    simp only [EFI_ERROR, bne_self_eq_false, Bool.false_eq_true, if_false, pure_run,
      Function.update_same]
    constructor
    · intro _
      exact ⟨hQ, hM'⟩
    · intro _
      decide

/-- An engine of major version 6 with 4-level support, 16 domains, no devices and `ECAP.QI`
set, on `promptPlatform`: the pass over the engine succeeds. -/
theorem C1_discover_and_validate_witness :
    (PrepareVtdConfig.engine vtdHeader (promptPlatform 0x60 0x400 2 0x1000 0) 0
      (oneUnitWorld zeroUnit false)).1 = Res.ok true :=
  (C1_discover_and_validate vtdHeader (promptPlatform 0x60 0x400 2 0x1000 0) 0
    (oneUnitWorld zeroUnit false) 0x1000 (by decide) (by decide) (by decide) (by decide)
    (by decide) (fun _ => rfl)
    (fun t v => promptPlatform_acks_disable 0x60 0x400 2 0x1000 0 t v)
    (fun t v => promptPlatform_acks_enable 0x60 0x400 2 0x1000 0 t v)).1

/-- C1 as stated fails: an engine with 4-level support (SAGAW bit 2), 16 domains against no
devices, `VER.Major = 6` and `ECAP.QI = 0`, on a platform whose allocator succeeds and which
acknowledges every poll at once, is rejected: `PerpareCacheInvalidationInterface` returns
`EFI_UNSUPPORTED` and the pass of `PrepareVtdConfig` over the engine executes `return`. -/
theorem C1_counterexample :
    vtdHeader.CapReg_SAGAW ((snapshot vtdHeader (promptPlatform 0x60 0x400 0 0x1000 0) 0
      (oneUnitWorld zeroUnit false)).mVtdUnitInformation 0).CapReg &&& (BIT 3 ||| BIT 2) ≠ 0 ∧
    ((oneUnitWorld zeroUnit false).mVtdUnitInformation 0).PciDeviceDataNumber
      < 2 ^ (2 * vtdHeader.CapReg_ND ((snapshot vtdHeader (promptPlatform 0x60 0x400 0 0x1000 0) 0
        (oneUnitWorld zeroUnit false)).mVtdUnitInformation 0).CapReg + 4) ∧
    (∀ t n, (promptPlatform 0x60 0x400 0 0x1000 0).pages t n ≠ 0) ∧
    (∀ t v, acks32 (promptPlatform 0x60 0x400 0 0x1000 0) 0x1C
      (fun r => decide (r &&& BIT 26 = 0)) 0
      (t ++ [Event.write32 0x18 (UINT32 (v &&& not32 (BIT 26)))]) = true) ∧
    (∀ t v, acks32 (promptPlatform 0x60 0x400 0 0x1000 0) 0x1C
      (fun r => decide (r &&& BIT 26 ≠ 0)) 0
      (t ++ [Event.write32 0x18 (UINT32 (v ||| BIT 26))]) = true) ∧
    (PerpareCacheInvalidationInterface vtdHeader (promptPlatform 0x60 0x400 0 0x1000 0) 0
      (snapshot vtdHeader (promptPlatform 0x60 0x400 0 0x1000 0) 0
        (oneUnitWorld zeroUnit false))).1 = Res.ok EFI_UNSUPPORTED ∧
    (PrepareVtdConfig.engine vtdHeader (promptPlatform 0x60 0x400 0 0x1000 0) 0
      (oneUnitWorld zeroUnit false)).1 = Res.ok false ∧
    ¬ (PrepareVtdConfig.engine vtdHeader (promptPlatform 0x60 0x400 0 0x1000 0) 0
      (oneUnitWorld zeroUnit false)).1 = Res.ok true := by
  refine ⟨by decide, by decide, fun _ _ => show (0x1000 : Nat) ≠ 0 by decide,
    fun t v => promptPlatform_acks_disable 0x60 0x400 0 0x1000 0 t v,
    fun t v => promptPlatform_acks_enable 0x60 0x400 0 0x1000 0 t v,
    by decide, by decide, by decide⟩

theorem loop_succ_run (H : VtdHeader) (P : Platform) (count Index : Nat) (w : World) :
    PrepareVtdConfig.loop H P (count + 1) Index w =
      M.andThen (PrepareVtdConfig.engine H P Index w)
        (fun b => if b = true then PrepareVtdConfig.loop H P count (Index + 1) else pure ()) :=
  rfl

/-- An engine that fails a requirement makes the loop body execute `return`, in the world of
the capability snapshot, with at most the record of the `ASSERT (FALSE)` added. -/
theorem engine_rejects (H : VtdHeader) (P : Platform) (Index : Nat) (w : World)
    (hfail : H.CapReg_SAGAW ((snapshot H P Index w).mVtdUnitInformation Index).CapReg
        &&& (BIT 3 ||| BIT 2) = 0 ∨
      (H.CapReg_ND ((snapshot H P Index w).mVtdUnitInformation Index).CapReg * 2 + 4 < 64 ∧
        2 ^ (2 * H.CapReg_ND ((snapshot H P Index w).mVtdUnitInformation Index).CapReg + 4)
          ≤ (w.mVtdUnitInformation Index).PciDeviceDataNumber) ∨
      (5 < H.VerReg_Major ((snapshot H P Index w).mVtdUnitInformation Index).VerReg ∧
        H.ECapReg_QI ((snapshot H P Index w).mVtdUnitInformation Index).ECapReg = 0)) :
    PrepareVtdConfig.engine H P Index w = (Res.ok false, snapshot H P Index w) ∨
    PrepareVtdConfig.engine H P Index w = (Res.ok false,
      { snapshot H P Index w with
        trace := (snapshot H P Index w).trace ++ [Event.assertFalse] }) := by
  have hdev : ((snapshot H P Index w).mVtdUnitInformation Index).PciDeviceDataNumber
      = (w.mVtdUnitInformation Index).PciDeviceDataNumber := by
    simp [snapshot]
  rw [engine_run]
  by_cases h1 : H.CapReg_SAGAW ((snapshot H P Index w).mVtdUnitInformation Index).CapReg
      &&& (BIT 3 ||| BIT 2) = 0
  · rw [if_pos h1]
    exact Or.inl rfl
  · rw [if_neg h1]
    by_cases h2 : ((snapshot H P Index w).mVtdUnitInformation Index).PciDeviceDataNumber
        ≥ UINT64 (1 <<< UINT8
          (H.CapReg_ND ((snapshot H P Index w).mVtdUnitInformation Index).CapReg * 2 + 4))
    · rw [if_pos h2]
      exact Or.inl rfl
    · rw [if_neg h2]
      rcases hfail with h | ⟨hnd, hd⟩ | ⟨hM, hQ⟩
      · exact absurd h h1
      · rw [domainNumber_eq _ hnd, hdev] at h2
        exact absurd hd h2
      · rw [Perpare_unsupported H P Index _ hM hQ, andThen_ok]
        exact Or.inr rfl

theorem snapshot_registerWrites (H : VtdHeader) (P : Platform) (Index : Nat) (w : World) :
    registerWrites (snapshot H P Index w).trace = registerWrites w.trace := by
  simp [snapshot, registerWrites, List.filter_append, Event.isWrite]

theorem snapshot_allocations (H : VtdHeader) (P : Platform) (Index : Nat) (w : World) :
    allocations (snapshot H P Index w).trace = allocations w.trace := by
  simp [snapshot, allocations, List.filter_append, Event.isAlloc]

/-- When the loop of `PrepareVtdConfig` comes to an engine that fails a requirement, it ends
there. -/
theorem loop_rejects (H : VtdHeader) (P : Platform) (count Index : Nat) (w : World)
    (hfail : H.CapReg_SAGAW ((snapshot H P Index w).mVtdUnitInformation Index).CapReg
        &&& (BIT 3 ||| BIT 2) = 0 ∨
      (H.CapReg_ND ((snapshot H P Index w).mVtdUnitInformation Index).CapReg * 2 + 4 < 64 ∧
        2 ^ (2 * H.CapReg_ND ((snapshot H P Index w).mVtdUnitInformation Index).CapReg + 4)
          ≤ (w.mVtdUnitInformation Index).PciDeviceDataNumber) ∨
      (5 < H.VerReg_Major ((snapshot H P Index w).mVtdUnitInformation Index).VerReg ∧
        H.ECapReg_QI ((snapshot H P Index w).mVtdUnitInformation Index).ECapReg = 0)) :
    PrepareVtdConfig.loop H P (count + 1) Index w = (Res.ok (), snapshot H P Index w) ∨
    PrepareVtdConfig.loop H P (count + 1) Index w = (Res.ok (),
      { snapshot H P Index w with
        trace := (snapshot H P Index w).trace ++ [Event.assertFalse] }) := by
  rw [loop_succ_run]
  rcases engine_rejects H P Index w hfail with he | he
  · rw [he, andThen_ok]
    exact Or.inl rfl
  · rw [he, andThen_ok]
    exact Or.inr rfl

theorem andThen_assoc {α β γ : Type} (x : Res α × World) (f : α → M β) (g : β → M γ) :
    M.andThen (M.andThen x f) g = M.andThen x (fun a w => M.andThen (f a w) g) := by
  rcases x with ⟨a | s, w⟩ <;> rfl

/-- The loop of `PrepareVtdConfig` from engine 0 is the passes over the engines below `k`
followed, when none of them has executed `return`, by the loop from engine `k`. -/
theorem loop_split (H : VtdHeader) (P : Platform) :
    ∀ (k n : Nat) (w : World),
      PrepareVtdConfig.loop H P (k + n) 0 w =
        M.andThen (enginesBelow H P k w)
          (fun b => if b = true then PrepareVtdConfig.loop H P n k else pure ()) := by
  intro k
  induction k with
  | zero =>
    intro n w
    rw [Nat.zero_add]
    rfl
  | succ k ih =>
    intro n w
    have h1 : k + 1 + n = k + (n + 1) := by omega
    have h2 : enginesBelow H P (k + 1) w = M.andThen (enginesBelow H P k w)
        (fun b => if b = true then PrepareVtdConfig.engine H P k else pure false) := rfl
    rw [h1, ih (n + 1) w, h2, andThen_assoc]
    congr 1
    funext b w'
    cases b
    · rfl
    · rfl

/-- C3: `PrepareVtdConfig` stops at the first engine for which (a) SAGAW has neither bit 2 nor
bit 3 set, or (b) the device count is at least `2^(2*ND+4)`, or (c) `VER.Major > 5` while
`ECAP.QI = 0`.  When the passes over the engines below `k` have gone through to the world `wk`
and the engine `k` fails one of the three, the function returns in the world of the
capability snapshot of engine `k` (with the record of the `ASSERT (FALSE)` in case (c)
alone): since `wk` no register has been written and nothing allocated, the invalidation mode
of engine `k` is as it was, every other engine is as it was and no later engine is
processed. -/
theorem C3_rejects_unmet_requirements (H : VtdHeader) (P : Platform) (k : Nat) (w wk : World)
    (hk : k < w.mVtdUnitNumber)
    (hbelow : enginesBelow H P k w = (Res.ok true, wk))
    (hfail : H.CapReg_SAGAW ((snapshot H P k wk).mVtdUnitInformation k).CapReg
        &&& (BIT 3 ||| BIT 2) = 0 ∨
      (H.CapReg_ND ((snapshot H P k wk).mVtdUnitInformation k).CapReg * 2 + 4 < 64 ∧
        2 ^ (2 * H.CapReg_ND ((snapshot H P k wk).mVtdUnitInformation k).CapReg + 4)
          ≤ (wk.mVtdUnitInformation k).PciDeviceDataNumber) ∨
      (5 < H.VerReg_Major ((snapshot H P k wk).mVtdUnitInformation k).VerReg ∧
        H.ECapReg_QI ((snapshot H P k wk).mVtdUnitInformation k).ECapReg = 0)) :
    let s := snapshot H P k wk
    let r := PrepareVtdConfig H P w
    r.1 = Res.ok () ∧
    (r.2 = s ∨ r.2 = { s with trace := s.trace ++ [Event.assertFalse] }) ∧
    registerWrites r.2.trace = registerWrites wk.trace ∧
    allocations r.2.trace = allocations wk.trace ∧
    (r.2.mVtdUnitInformation k).EnableQueuedInvalidation
      = (wk.mVtdUnitInformation k).EnableQueuedInvalidation ∧
    (∀ j, j ≠ k → r.2.mVtdUnitInformation j = wk.mVtdUnitInformation j) := by
  intro s r
  have hs1 : (s.mVtdUnitInformation k).EnableQueuedInvalidation
      = (wk.mVtdUnitInformation k).EnableQueuedInvalidation := by
    simp [s, snapshot]
  have hs2 : ∀ j, j ≠ k → s.mVtdUnitInformation j = wk.mVtdUnitInformation j := by
    intro j hj
    simp [s, snapshot, Function.update_noteq hj]
  obtain ⟨n, hn⟩ : ∃ n, w.mVtdUnitNumber = k + (n + 1) := ⟨w.mVtdUnitNumber - k - 1, by omega⟩
  have hr : r = PrepareVtdConfig.loop H P (n + 1) k wk := by
    show PrepareVtdConfig.loop H P w.mVtdUnitNumber 0 w = _
    rw [hn, loop_split H P k (n + 1) w, hbelow, andThen_ok]
    rfl
  rcases loop_rejects H P n k wk hfail with he | he
  · rw [hr, he]
    exact ⟨rfl, Or.inl rfl, snapshot_registerWrites H P k wk,
      snapshot_allocations H P k wk, hs1, hs2⟩
  · rw [hr, he]
    refine ⟨rfl, Or.inr rfl, ?_, ?_, hs1, hs2⟩
    · show registerWrites ((snapshot H P k wk).trace ++ [Event.assertFalse]) = _
      rw [registerWrites_append, snapshot_registerWrites]
      simp [registerWrites, Event.isWrite]
    · show allocations ((snapshot H P k wk).trace ++ [Event.assertFalse]) = _
      rw [allocations_append, snapshot_allocations]
      simp [allocations, Event.isAlloc]

/-- A single engine of major version 6 without `ECAP.QI`: `PrepareVtdConfig` returns without
a register write. -/
theorem C3_rejects_unmet_requirements_witness :
    (PrepareVtdConfig vtdHeader (promptPlatform 0x60 0x400 0 0x1000 0)
      (oneUnitWorld zeroUnit false)).1 = Res.ok () ∧
    registerWrites (PrepareVtdConfig vtdHeader (promptPlatform 0x60 0x400 0 0x1000 0)
      (oneUnitWorld zeroUnit false)).2.trace = [] := by
  have h := C3_rejects_unmet_requirements vtdHeader (promptPlatform 0x60 0x400 0 0x1000 0) 0
    (oneUnitWorld zeroUnit false) (oneUnitWorld zeroUnit false) (by decide) rfl
    (Or.inr (Or.inr (by decide)))
  exact ⟨h.1, h.2.2.1⟩

/-! ## Submission without a descriptor, and a failed allocation -/

theorem setup_failure (H : VtdHeader) (P : Platform) (VtdIndex : Nat) (w : World)
    (hFail : ∀ t, P.pages t (H.EFI_SIZE_TO_PAGES (H.sizeof_QI_DESC * 256)) = 0) :
    PerpareCacheInvalidationInterface.setup H P VtdIndex w = (Res.ok EFI_OUT_OF_RESOURCES,
      { w with
        mVtdUnitInformation := Function.update w.mVtdUnitInformation VtdIndex
          { w.mVtdUnitInformation VtdIndex with QiDescLength := 0, QiDesc := 0 }
        trace := w.trace ++
          [Event.write64 ((w.mVtdUnitInformation VtdIndex).VtdUnitBaseAddress + H.R_IQT_REG) 0,
           Event.allocPages (H.EFI_SIZE_TO_PAGES (H.sizeof_QI_DESC * 256)) 0] }) := by
  unfold PerpareCacheInvalidationInterface.setup
  simp only [bind_run, unitInfo_run, andThen_ok, ite_run, if_true, setUnitInfo_run,
    MmioWrite64_run, AllocatePages_run, Function.update_same,
    UINT16_queue_length, hFail, pure_run, Function.update_idem,
    List.append_assoc, List.cons_append, List.nil_append, UINT64_zero]

theorem Perpare_queued_failure (H : VtdHeader) (P : Platform) (VtdIndex : Nat) (w : World)
    (hMajor : 5 < H.VerReg_Major (w.mVtdUnitInformation VtdIndex).VerReg)
    (hQI : H.ECapReg_QI (w.mVtdUnitInformation VtdIndex).ECapReg ≠ 0)
    (hFail : ∀ t, P.pages t (H.EFI_SIZE_TO_PAGES (H.sizeof_QI_DESC * 256)) = 0)
    (hDisable : UINT32 (P.reg w.trace 32
        ((w.mVtdUnitInformation VtdIndex).VtdUnitBaseAddress + H.R_GSTS_REG))
          &&& H.B_GSTS_REG_QIES ≠ 0 →
      ∀ t v, acks32 P ((w.mVtdUnitInformation VtdIndex).VtdUnitBaseAddress + H.R_GSTS_REG)
        (fun r => decide (r &&& H.B_GSTS_REG_QIES = 0)) P.fuel
        (t ++ [Event.write32 ((w.mVtdUnitInformation VtdIndex).VtdUnitBaseAddress + H.R_GCMD_REG)
          (UINT32 (v &&& not32 H.B_GSTS_REG_QIES))]) = true) :
    ∃ ext0,
      PerpareCacheInvalidationInterface H P VtdIndex w = (Res.ok EFI_OUT_OF_RESOURCES,
        { w with
          mVtdUnitInformation := Function.update w.mVtdUnitInformation VtdIndex
            { w.mVtdUnitInformation VtdIndex with
              EnableQueuedInvalidation := 1, QiDescLength := 0, QiDesc := 0 }
          trace := w.trace ++
            [Event.read32 ((w.mVtdUnitInformation VtdIndex).VtdUnitBaseAddress + H.R_GSTS_REG)
              (UINT32 (P.reg w.trace 32
                ((w.mVtdUnitInformation VtdIndex).VtdUnitBaseAddress + H.R_GSTS_REG)))] ++
            (if UINT32 (P.reg w.trace 32
                ((w.mVtdUnitInformation VtdIndex).VtdUnitBaseAddress + H.R_GSTS_REG))
                  &&& H.B_GSTS_REG_QIES ≠ 0 then
              Event.write32 ((w.mVtdUnitInformation VtdIndex).VtdUnitBaseAddress + H.R_GCMD_REG)
                (UINT32 (UINT32 (P.reg w.trace 32
                  ((w.mVtdUnitInformation VtdIndex).VtdUnitBaseAddress + H.R_GSTS_REG))
                    &&& not32 H.B_GSTS_REG_QIES)) :: ext0
            else []) ++
            [Event.write64 ((w.mVtdUnitInformation VtdIndex).VtdUnitBaseAddress + H.R_IQT_REG) 0,
             Event.allocPages (H.EFI_SIZE_TO_PAGES (H.sizeof_QI_DESC * 256)) 0] }) ∧
      (∀ e ∈ ext0, ∃ v, e = Event.read32
        ((w.mVtdUnitInformation VtdIndex).VtdUnitBaseAddress + H.R_GSTS_REG) v) := by
  have hMajor' : ¬ H.VerReg_Major (w.mVtdUnitInformation VtdIndex).VerReg ≤ 5 := not_le.mpr hMajor
  unfold PerpareCacheInvalidationInterface
  simp only [bind_run, unitInfo_run, andThen_ok, ite_run, hMajor', hQI, if_false, setUnitInfo_run,
    MmioRead32_run, MmioWrite32_run, Function.update_same, pure_run, UINT32_UINT32]
  set G := (w.mVtdUnitInformation VtdIndex).VtdUnitBaseAddress + H.R_GSTS_REG with hG
  set C := (w.mVtdUnitInformation VtdIndex).VtdUnitBaseAddress + H.R_GCMD_REG with hC
  set g0 := UINT32 (P.reg w.trace 32 G) with hg0
  by_cases hq : g0 &&& H.B_GSTS_REG_QIES ≠ 0
  · simp only [if_pos hq]
    set W : World := { w with
      mVtdUnitInformation := Function.update w.mVtdUnitInformation VtdIndex
        { w.mVtdUnitInformation VtdIndex with EnableQueuedInvalidation := 1 }
      trace := w.trace ++ [Event.read32 G g0]
        ++ [Event.write32 C (UINT32 (g0 &&& not32 H.B_GSTS_REG_QIES))] } with hW
    obtain ⟨ext0, h1, h2, h3, _⟩ := poll32_at P G
      (fun r => decide (r &&& H.B_GSTS_REG_QIES ≠ 0))
      (fun r => decide (r &&& H.B_GSTS_REG_QIES = 0))
      (do
        let Reg32 ← MmioRead32 P ((← unitInfo VtdIndex).VtdUnitBaseAddress + H.R_GSTS_REG)
        pure (Reg32, decide (Reg32 &&& H.B_GSTS_REG_QIES ≠ 0))) W (by intro x; simp)
      (by intro t; simp [W, G])
    obtain ⟨v, hv⟩ := h3 (hDisable hq _ _)
    rcases hd : doWhile (do
        let Reg32 ← MmioRead32 P ((← unitInfo VtdIndex).VtdUnitBaseAddress + H.R_GSTS_REG)
        pure (Reg32, decide (Reg32 &&& H.B_GSTS_REG_QIES ≠ 0))) P.fuel W with ⟨v' | s, W'⟩
    · rw [hd] at h1
      simp only [] at h1
      refine ⟨ext0, ?_, h2⟩
      simp only [andThen_ok, pure_bind_eq, setup_failure H P VtdIndex W' hFail]
      rw [h1]
      simp [W, G, C]
    · rw [hd] at hv
      simp at hv
  · simp only [if_neg hq]
    refine ⟨[], ?_, by simp⟩
    rw [setup_failure H P VtdIndex _ hFail]
    simp [G, C]

theorem Submit_zero_length (H : VtdHeader) (P : Platform) (VtdIndex : Nat) (D : QI_DESC)
    (w : World) (h0 : (w.mVtdUnitInformation VtdIndex).QiDescLength = 0) :
    (SubmitQueuedInvalidationDescriptor H P VtdIndex (some D) w).1
      = Res.stop Stop.divideByZero := by
  unfold SubmitQueuedInvalidationDescriptor FlushPageTableMemory
  simp only [bind_run, unitInfo_run, andThen_ok, store64_run, h0]
  by_cases hc : H.ECapReg_C (w.mVtdUnitInformation VtdIndex).ECapReg = 0
  · simp [hc, UINT16]
  · simp [hc, UINT16]
/-- C13: `SubmitQueuedInvalidationDescriptor` called with a `NULL` descriptor returns
`EFI_INVALID_PARAMETER` and leaves the world exactly as it was: no register read or write (the
history is unchanged), no store to a ring slot (memory is unchanged), and the free head and every
other field of every unit record unchanged. -/
theorem C13_submit_null_descriptor (H : VtdHeader) (P : Platform) (VtdIndex : Nat) (w : World) :
    let r := SubmitQueuedInvalidationDescriptor H P VtdIndex none w
    r = (Res.ok EFI_INVALID_PARAMETER, w) ∧
    r.2.trace = w.trace ∧ r.2.memory = w.memory ∧
    r.2.mVtdUnitInformation = w.mVtdUnitInformation ∧
    (r.2.mVtdUnitInformation VtdIndex).QiFreeHead = (w.mVtdUnitInformation VtdIndex).QiFreeHead :=
  ⟨rfl, rfl, rfl, rfl, rfl⟩

/-- C16: on an engine with `VER.Major > 5` and `ECAP.QI` set, when the page allocation returns
`NULL` (and the device acknowledges the disabling poll, if queued invalidation was enabled on
entry), `PerpareCacheInvalidationInterface` returns `EFI_OUT_OF_RESOURCES`; its only register
writes are the global command with the QIES bit cleared (if queued invalidation was enabled on
entry) and 0 to the tail register, so the queue-address register is not written and the enable
bit is not set; the engine is left with `EnableQueuedInvalidation = 1`, `QiDesc = NULL` and
`QiDescLength = 0`, every other field as before; and a context-cache or IOTLB invalidation on
the engine in that world takes the queued path and does not return: the submission divides by
the `QiDescLength` of zero. -/
theorem C16_allocation_failure_not_atomic (H : VtdHeader) (P : Platform) (VtdIndex : Nat)
    (w : World)
    (hMajor : 5 < H.VerReg_Major (w.mVtdUnitInformation VtdIndex).VerReg)
    (hQI : H.ECapReg_QI (w.mVtdUnitInformation VtdIndex).ECapReg ≠ 0)
    (hFail : ∀ t, P.pages t (H.EFI_SIZE_TO_PAGES (H.sizeof_QI_DESC * 256)) = 0)
    (hDisable : UINT32 (P.reg w.trace 32
        ((w.mVtdUnitInformation VtdIndex).VtdUnitBaseAddress + H.R_GSTS_REG))
          &&& H.B_GSTS_REG_QIES ≠ 0 →
      ∀ t v, acks32 P ((w.mVtdUnitInformation VtdIndex).VtdUnitBaseAddress + H.R_GSTS_REG)
        (fun r => decide (r &&& H.B_GSTS_REG_QIES = 0)) P.fuel
        (t ++ [Event.write32 ((w.mVtdUnitInformation VtdIndex).VtdUnitBaseAddress + H.R_GCMD_REG)
          (UINT32 (v &&& not32 H.B_GSTS_REG_QIES))]) = true) :
    let U := w.mVtdUnitInformation VtdIndex
    let G := U.VtdUnitBaseAddress + H.R_GSTS_REG
    let C := U.VtdUnitBaseAddress + H.R_GCMD_REG
    let g0 := UINT32 (P.reg w.trace 32 G)
    let r := PerpareCacheInvalidationInterface H P VtdIndex w
    r.1 = Res.ok EFI_OUT_OF_RESOURCES ∧
    registerWrites r.2.trace = registerWrites w.trace
      ++ (if g0 &&& H.B_GSTS_REG_QIES ≠ 0 then
          [Event.write32 C (UINT32 (g0 &&& not32 H.B_GSTS_REG_QIES))] else [])
      ++ [Event.write64 (U.VtdUnitBaseAddress + H.R_IQT_REG) 0] ∧
    UINT32 (g0 &&& not32 H.B_GSTS_REG_QIES) &&& H.B_GSTS_REG_QIES = 0 ∧
    allocations r.2.trace = allocations w.trace
      ++ [Event.allocPages (H.EFI_SIZE_TO_PAGES (H.sizeof_QI_DESC * 256)) 0] ∧
    r.2.mVtdUnitInformation VtdIndex
      = { U with EnableQueuedInvalidation := 1, QiDescLength := 0, QiDesc := 0 } ∧
    (InvalidateContextCache H P VtdIndex r.2).1 = Res.stop Stop.divideByZero ∧
    (InvalidateIOTLB H P VtdIndex r.2).1 = Res.stop Stop.divideByZero := by
  intro U G C g0 r
  obtain ⟨ext0, hr, h0⟩ := Perpare_queued_failure H P VtdIndex w hMajor hQI hFail hDisable
  have hr' : r = _ := hr
  have hU : r.2.mVtdUnitInformation VtdIndex
      = { U with EnableQueuedInvalidation := 1, QiDescLength := 0, QiDesc := 0 } := by
    rw [hr']; simp
  refine ⟨by rw [hr'], ?_, and_not32_clear _ _, ?_, hU, ?_, ?_⟩
  · rw [hr']
    simp only [registerWrites_append]
    have e0 : registerWrites (if g0 &&& H.B_GSTS_REG_QIES ≠ 0 then
          Event.write32 C (UINT32 (g0 &&& not32 H.B_GSTS_REG_QIES)) :: ext0 else [])
        = (if g0 &&& H.B_GSTS_REG_QIES ≠ 0 then
          [Event.write32 C (UINT32 (g0 &&& not32 H.B_GSTS_REG_QIES))] else []) := by
      split
      · have := registerWrites_append [Event.write32 C (UINT32 (g0 &&& not32 H.B_GSTS_REG_QIES))] ext0
        simp only [List.singleton_append] at this
        rw [this, registerWrites_reads32 _ ext0 h0]
        rfl
      · rfl
    rw [e0]
    simp [registerWrites, Event.isWrite]
  · rw [hr']
    simp only [allocations_append]
    have e0 : allocations (if g0 &&& H.B_GSTS_REG_QIES ≠ 0 then
          Event.write32 C (UINT32 (g0 &&& not32 H.B_GSTS_REG_QIES)) :: ext0 else []) = [] := by
      split
      · have := allocations_append [Event.write32 C (UINT32 (g0 &&& not32 H.B_GSTS_REG_QIES))] ext0
        simp only [List.singleton_append] at this
        rw [this, allocations_reads32 _ ext0 h0]
        rfl
      · rfl
    rw [e0]
    simp [allocations, Event.isAlloc]
  · unfold InvalidateContextCache
    simp only [bind_run, unitInfo_run, andThen_ok, ite_run, hU]
    simp only [one_ne_zero, if_false]
    exact Submit_zero_length H P VtdIndex _ r.2 (by rw [hU])
  · unfold InvalidateIOTLB
    simp only [bind_run, unitInfo_run, andThen_ok, ite_run, hU]
    simp only [one_ne_zero, if_false]
    exact Submit_zero_length H P VtdIndex _ r.2 (by rw [hU])

/-- An engine of major version 6 with `ECAP.QI` set, on a platform whose allocator returns
`NULL`: the call fails and the engine is left flagged Queued with no ring. -/
theorem C16_allocation_failure_not_atomic_witness :
    (PerpareCacheInvalidationInterface vtdHeader (constPlatform 0 0 0) 0
      (oneUnitWorld { zeroUnit with VerReg := 0x60, ECapReg := 2 } false)).1
        = Res.ok EFI_OUT_OF_RESOURCES ∧
    (InvalidateContextCache vtdHeader (constPlatform 0 0 0) 0
      (PerpareCacheInvalidationInterface vtdHeader (constPlatform 0 0 0) 0
        (oneUnitWorld { zeroUnit with VerReg := 0x60, ECapReg := 2 } false)).2).1
        = Res.stop Stop.divideByZero := by
  have h := C16_allocation_failure_not_atomic vtdHeader (constPlatform 0 0 0) 0
    (oneUnitWorld { zeroUnit with VerReg := 0x60, ECapReg := 2 } false)
    (by decide) (by decide) (fun _ => rfl) (fun h => absurd h (by decide))
  exact ⟨h.1, h.2.2.2.2.2.1⟩

/-! ## Computations that return -/

theorem returns_bind {α β : Type} {m : M α} {f : α → M β} {Q : β → World → Prop} {w : World}
    (h : Returns m (fun a w' => Returns (f a) Q w') w) : Returns (m >>= f) Q w := by
  obtain ⟨a, w', hm, b, w'', hf, hQ⟩ := h
  exact ⟨b, w'', by rw [bind_run, hm, andThen_ok, hf], hQ⟩

theorem returns_pure {α : Type} {a : α} {Q : α → World → Prop} {w : World} (h : Q a w) :
    Returns (pure a) Q w := ⟨a, w, rfl, h⟩

theorem returns_mono {α : Type} {m : M α} {Q Q' : α → World → Prop} {w : World}
    (h : Returns m Q w) (hQ : ∀ a w', Q a w' → Q' a w') : Returns m Q' w := by
  obtain ⟨a, w', hm, hq⟩ := h
  exact ⟨a, w', hm, hQ a w' hq⟩

theorem returns_unitInfo {i : Nat} {Q : VTD_UNIT_INFORMATION → World → Prop} {w : World}
    (h : Q (w.mVtdUnitInformation i) w) : Returns (unitInfo i) Q w := ⟨_, _, rfl, h⟩

theorem returns_setUnitInfo {i : Nat} {g : VTD_UNIT_INFORMATION → VTD_UNIT_INFORMATION}
    {Q : Unit → World → Prop} {w : World}
    (h : Q () { w with
      mVtdUnitInformation :=
        Function.update w.mVtdUnitInformation i (g (w.mVtdUnitInformation i)) }) :
    Returns (setUnitInfo i g) Q w := ⟨_, _, rfl, h⟩

theorem returns_setVtdEnabled {b : Bool} {Q : Unit → World → Prop} {w : World}
    (h : Q () { w with mVtdEnabled := b }) : Returns (setVtdEnabled b) Q w := ⟨_, _, rfl, h⟩

theorem returns_read32 {P : Platform} {A : Nat} {Q : Nat → World → Prop} {w : World}
    (h : Q (UINT32 (P.reg w.trace 32 A))
      { w with trace := w.trace ++ [Event.read32 A (UINT32 (P.reg w.trace 32 A))] }) :
    Returns (MmioRead32 P A) Q w := ⟨_, _, rfl, h⟩

theorem returns_read64 {P : Platform} {A : Nat} {Q : Nat → World → Prop} {w : World}
    (h : Q (UINT64 (P.reg w.trace 64 A))
      { w with trace := w.trace ++ [Event.read64 A (UINT64 (P.reg w.trace 64 A))] }) :
    Returns (MmioRead64 P A) Q w := ⟨_, _, rfl, h⟩

theorem returns_write32 {A v : Nat} {Q : Unit → World → Prop} {w : World}
    (h : Q () { w with trace := w.trace ++ [Event.write32 A (UINT32 v)] }) :
    Returns (MmioWrite32 A v) Q w := ⟨_, _, rfl, h⟩

theorem returns_write64 {A v : Nat} {Q : Unit → World → Prop} {w : World}
    (h : Q () { w with trace := w.trace ++ [Event.write64 A (UINT64 v)] }) :
    Returns (MmioWrite64 A v) Q w := ⟨_, _, rfl, h⟩

theorem returns_freePages {B n : Nat} {Q : Unit → World → Prop} {w : World}
    (h : Q () { w with trace := w.trace ++ [Event.freePages B n] }) :
    Returns (FreePages B n) Q w := ⟨_, _, rfl, h⟩

theorem returns_report {Q : Unit → World → Prop} {w : World}
    (h : Q () { w with trace := w.trace ++ [Event.reportStatusCode] }) :
    Returns REPORT_STATUS_CODE Q w := ⟨_, _, rfl, h⟩

/-- A polling loop on the 32-bit register at `A` that the device acknowledges returns; it has
appended reads of `A` only, and the value returned is the last one read. -/
theorem poll32_last (P : Platform) (A : Nat) (again done : Nat → Bool)
    (body : M (Nat × Bool)) (w₀ : World) (hdone : ∀ x, done x = !again x)
    (hbody : ∀ t, body { w₀ with trace := t } =
      (Res.ok (UINT32 (P.reg t 32 A), again (UINT32 (P.reg t 32 A))),
        { w₀ with trace := t ++ [Event.read32 A (UINT32 (P.reg t 32 A))] })) :
    ∀ fuel t, acks32 P A done fuel t = true → ∃ v ext,
      doWhile body fuel { w₀ with trace := t }
        = (Res.ok v, { w₀ with trace := t ++ (ext ++ [Event.read32 A v]) }) ∧
      (∀ e ∈ ext, ∃ x, e = Event.read32 A x) ∧ done v = true := by
  intro fuel
  induction fuel with
  | zero =>
    intro t h
    simp only [acks32] at h
    have h' := h
    rw [hdone] at h'
    simp only [Bool.not_eq_true'] at h'
    refine ⟨UINT32 (P.reg t 32 A), [], ?_, by simp, h⟩
    rw [doWhile_zero, hbody, andThen_ok]
    simp only [h', Bool.false_eq_true, if_false, pure_run, List.nil_append]
  | succ n ih =>
    intro t h
    by_cases ha : again (UINT32 (P.reg t 32 A)) = true
    · have hacks : acks32 P A done n (t ++ [Event.read32 A (UINT32 (P.reg t 32 A))]) = true := by
        simpa only [acks32, hdone, ha, Bool.not_true, Bool.false_or] using h
      obtain ⟨v, ext, h1, h2, h3⟩ := ih _ hacks
      refine ⟨v, Event.read32 A (UINT32 (P.reg t 32 A)) :: ext, ?_, ?_, h3⟩
      · rw [doWhile_succ, hbody, andThen_ok]
        simp only [ha, if_true, h1, List.append_assoc, List.cons_append, List.nil_append]
      · intro e he
        rcases List.mem_cons.mp he with rfl | he
        · exact ⟨_, rfl⟩
        · exact h2 e he
    · have hd : done (UINT32 (P.reg t 32 A)) = true := by
        rw [hdone]
        simpa using ha
      refine ⟨UINT32 (P.reg t 32 A), [], ?_, by simp, hd⟩
      rw [doWhile_succ, hbody, andThen_ok]
      simp [ha]

/-- The 64-bit form of `poll32_last`. -/
theorem poll64_last (P : Platform) (A : Nat) (again done : Nat → Bool)
    (body : M (Nat × Bool)) (w₀ : World) (hdone : ∀ x, done x = !again x)
    (hbody : ∀ t, body { w₀ with trace := t } =
      (Res.ok (UINT64 (P.reg t 64 A), again (UINT64 (P.reg t 64 A))),
        { w₀ with trace := t ++ [Event.read64 A (UINT64 (P.reg t 64 A))] })) :
    ∀ fuel t, acks64 P A done fuel t = true → ∃ v ext,
      doWhile body fuel { w₀ with trace := t }
        = (Res.ok v, { w₀ with trace := t ++ (ext ++ [Event.read64 A v]) }) ∧
      (∀ e ∈ ext, ∃ x, e = Event.read64 A x) ∧ done v = true := by
  intro fuel
  induction fuel with
  | zero =>
    intro t h
    simp only [acks64] at h
    have h' := h
    rw [hdone] at h'
    simp only [Bool.not_eq_true'] at h'
    refine ⟨UINT64 (P.reg t 64 A), [], ?_, by simp, h⟩
    rw [doWhile_zero, hbody, andThen_ok]
    simp only [h', Bool.false_eq_true, if_false, pure_run, List.nil_append]
  | succ n ih =>
    intro t h
    by_cases ha : again (UINT64 (P.reg t 64 A)) = true
    · have hacks : acks64 P A done n (t ++ [Event.read64 A (UINT64 (P.reg t 64 A))]) = true := by
        simpa only [acks64, hdone, ha, Bool.not_true, Bool.false_or] using h
      obtain ⟨v, ext, h1, h2, h3⟩ := ih _ hacks
      refine ⟨v, Event.read64 A (UINT64 (P.reg t 64 A)) :: ext, ?_, ?_, h3⟩
      · rw [doWhile_succ, hbody, andThen_ok]
        simp only [ha, if_true, h1, List.append_assoc, List.cons_append, List.nil_append]
      · intro e he
        rcases List.mem_cons.mp he with rfl | he
        · exact ⟨_, rfl⟩
        · exact h2 e he
    · have hd : done (UINT64 (P.reg t 64 A)) = true := by
        rw [hdone]
        simpa using ha
      refine ⟨UINT64 (P.reg t 64 A), [], ?_, by simp, hd⟩
      rw [doWhile_succ, hbody, andThen_ok]
      simp [ha]

/-- An acknowledged 32-bit polling loop, in `Returns` form. -/
theorem returns_poll32 (P : Platform) (A : Nat) (again done : Nat → Bool)
    {body : M (Nat × Bool)} {Q : Nat → World → Prop} {w : World}
    (hdone : ∀ x, done x = !again x)
    (hbody : ∀ t, body { w with trace := t } =
      (Res.ok (UINT32 (P.reg t 32 A), again (UINT32 (P.reg t 32 A))),
        { w with trace := t ++ [Event.read32 A (UINT32 (P.reg t 32 A))] }))
    (hack : acks32 P A done P.fuel w.trace = true)
    (h : ∀ v ext, (∀ e ∈ ext, ∃ x, e = Event.read32 A x) → done v = true →
      Q v { w with trace := w.trace ++ (ext ++ [Event.read32 A v]) }) :
    Returns (doWhile body P.fuel) Q w := by
  obtain ⟨v, ext, h1, h2, h3⟩ := poll32_last P A again done body w hdone hbody P.fuel w.trace hack
  exact ⟨v, _, h1, h v ext h2 h3⟩

/-- An acknowledged 64-bit polling loop, in `Returns` form. -/
theorem returns_poll64 (P : Platform) (A : Nat) (again done : Nat → Bool)
    {body : M (Nat × Bool)} {Q : Nat → World → Prop} {w : World}
    (hdone : ∀ x, done x = !again x)
    (hbody : ∀ t, body { w with trace := t } =
      (Res.ok (UINT64 (P.reg t 64 A), again (UINT64 (P.reg t 64 A))),
        { w with trace := t ++ [Event.read64 A (UINT64 (P.reg t 64 A))] }))
    (hack : acks64 P A done P.fuel w.trace = true)
    (h : ∀ v ext, (∀ e ∈ ext, ∃ x, e = Event.read64 A x) → done v = true →
      Q v { w with trace := w.trace ++ (ext ++ [Event.read64 A v]) }) :
    Returns (doWhile body P.fuel) Q w := by
  obtain ⟨v, ext, h1, h2, h3⟩ := poll64_last P A again done body w hdone hbody P.fuel w.trace hack
  exact ⟨v, _, h1, h v ext h2 h3⟩

/-- A `for` loop returns when every pass does: `Inv k s w` holds before the pass `k`. -/
theorem returns_forIndex {σ : Type} (body : Nat → σ → M σ) (Inv : Nat → σ → World → Prop) :
    ∀ (n : Nat) (s : σ) (w : World), Inv 0 s w →
      (∀ k, k < n → ∀ s' w', Inv k s' w' → Returns (body k s') (Inv (k + 1)) w') →
      Returns (forIndex body n s) (Inv n) w := by
  intro n
  induction n with
  | zero =>
    intro s w h0 _
    exact ⟨s, w, rfl, h0⟩
  | succ n ih =>
    intro s w h0 hstep
    obtain ⟨s1, w1, hrun, hinv⟩ := ih s w h0 (fun k hk => hstep k (Nat.lt_succ_of_lt hk))
    obtain ⟨s2, w2, hrun2, hinv2⟩ := hstep n (Nat.lt_succ_self n) s1 w1 hinv
    refine ⟨s2, w2, ?_, hinv2⟩
    show M.andThen (forIndex body n s w) (body n) = _
    rw [hrun, andThen_ok, hrun2]

theorem registerWrites_nil : registerWrites [] = [] := rfl

theorem registerWrites_cons (e : Event) (t : List Event) :
    registerWrites (e :: t) = if e.isWrite = true then e :: registerWrites t
      else registerWrites t := by
  simp only [registerWrites, List.filter_cons]

theorem allocations_nil : allocations [] = [] := rfl

theorem allocations_cons (e : Event) (t : List Event) :
    allocations (e :: t) = if e.isAlloc = true then e :: allocations t else allocations t := by
  simp only [allocations, List.filter_cons]

theorem frees_nil : frees [] = [] := rfl

theorem frees_cons (e : Event) (t : List Event) :
    frees (e :: t) = if e.isFree = true then e :: frees t else frees t := by
  simp only [frees, List.filter_cons]

theorem frees_append (t u : List Event) : frees (t ++ u) = frees t ++ frees u := by
  simp [frees]

theorem frees_reads32 (A : Nat) (ext : List Event)
    (h : ∀ e ∈ ext, ∃ x, e = Event.read32 A x) : frees ext = [] := by
  simp only [frees, List.filter_eq_nil_iff]
  intro e he
  obtain ⟨x, rfl⟩ := h e he
  simp [Event.isFree]

theorem frees_reads64 (A : Nat) (ext : List Event)
    (h : ∀ e ∈ ext, ∃ x, e = Event.read64 A x) : frees ext = [] := by
  simp only [frees, List.filter_eq_nil_iff]
  intro e he
  obtain ⟨x, rfl⟩ := h e he
  simp [Event.isFree]

theorem allocations_reads64 (A : Nat) (ext : List Event)
    (h : ∀ e ∈ ext, ∃ x, e = Event.read64 A x) : allocations ext = [] := by
  simp only [allocations, List.filter_eq_nil_iff]
  intro e he
  obtain ⟨x, rfl⟩ := h e he
  simp [Event.isAlloc]

theorem all_isMmio_reads32 (A : Nat) (ext : List Event)
    (h : ∀ e ∈ ext, ∃ x, e = Event.read32 A x) : ext.all Event.isMmio = true := by
  rw [List.all_eq_true]
  intro e he
  obtain ⟨x, rfl⟩ := h e he
  rfl

theorem all_isMmio_reads64 (A : Nat) (ext : List Event)
    (h : ∀ e ∈ ext, ∃ x, e = Event.read64 A x) : ext.all Event.isMmio = true := by
  rw [List.all_eq_true]
  intro e he
  obtain ⟨x, rfl⟩ := h e he
  rfl

theorem allocations_of_isMmio (ext : List Event) (h : ext.all Event.isMmio = true) :
    allocations ext = [] := by
  rw [List.all_eq_true] at h
  simp only [allocations, List.filter_eq_nil_iff]
  intro e he
  have := h e he
  cases e <;> simp_all [Event.isMmio, Event.isRead, Event.isWrite, Event.isAlloc]

theorem frees_of_isMmio (ext : List Event) (h : ext.all Event.isMmio = true) :
    frees ext = [] := by
  rw [List.all_eq_true] at h
  simp only [frees, List.filter_eq_nil_iff]
  intro e he
  have := h e he
  cases e <;> simp_all [Event.isMmio, Event.isRead, Event.isWrite, Event.isFree]

/-! ## Disabling translation -/

theorem returns_FlushWriteBuffer (H : VtdHeader) (P : Platform) (i : Nat) (w : World)
    (hack : H.CapReg_RWBF (w.mVtdUnitInformation i).CapReg ≠ 0 → ∀ t v,
      acks32 P ((w.mVtdUnitInformation i).VtdUnitBaseAddress + H.R_GSTS_REG)
        (fun r => decide (r &&& H.B_GSTS_REG_WBF = 0)) P.fuel
        (t ++ [Event.write32 ((w.mVtdUnitInformation i).VtdUnitBaseAddress + H.R_GCMD_REG)
          (UINT32 (v ||| H.B_GMCD_REG_WBF))]) = true) :
    Returns (FlushWriteBuffer H P i) (fun _ w' => ∃ ext,
      w' = { w with trace := w.trace ++ ext } ∧ ext.all Event.isMmio = true ∧
      ∃ g, registerWrites ext = if H.CapReg_RWBF (w.mVtdUnitInformation i).CapReg ≠ 0 then
        [Event.write32 ((w.mVtdUnitInformation i).VtdUnitBaseAddress + H.R_GCMD_REG)
          (UINT32 (g ||| H.B_GMCD_REG_WBF))] else []) w := by
  unfold FlushWriteBuffer
  apply returns_bind
  apply returns_unitInfo
  by_cases hc : H.CapReg_RWBF (w.mVtdUnitInformation i).CapReg ≠ 0
  · rw [if_pos hc]
    apply returns_bind
    apply returns_read32
    generalize UINT32 (P.reg _ 32 _) = g
    apply returns_bind
    apply returns_write32
    apply returns_bind
    apply returns_poll32 P ((w.mVtdUnitInformation i).VtdUnitBaseAddress + H.R_GSTS_REG)
      (fun r => decide (r &&& H.B_GSTS_REG_WBF ≠ 0)) (fun r => decide (r &&& H.B_GSTS_REG_WBF = 0))
      (by intro x; simp) (by intro t; rfl) (hack hc _ _)
    intro v ext hext _
    apply returns_pure
    simp only [List.append_assoc]
    refine ⟨_, rfl, ?_, g, ?_⟩
    · simp [all_isMmio_reads32 _ ext hext, Event.isMmio, Event.isRead, Event.isWrite]
    · rw [if_pos hc]
      simp only [registerWrites_append, registerWrites_reads32 _ ext hext]
      simp [registerWrites, Event.isWrite]
  · rw [if_neg hc]
    apply returns_pure
    exact ⟨[], by simp, rfl, 0, by rw [if_neg hc]; rfl⟩

theorem returns_DisableQueuedInvalidationInterface (H : VtdHeader) (P : Platform) (i : Nat)
    (w : World)
    (hack : (w.mVtdUnitInformation i).EnableQueuedInvalidation ≠ 0 → ∀ t v,
      acks32 P ((w.mVtdUnitInformation i).VtdUnitBaseAddress + H.R_GSTS_REG)
        (fun r => decide (r &&& H.B_GSTS_REG_QIES = 0)) P.fuel
        (t ++ [Event.write32 ((w.mVtdUnitInformation i).VtdUnitBaseAddress + H.R_GCMD_REG)
          (UINT32 (v &&& not32 H.B_GMCD_REG_QIE))]) = true) :
    Returns (DisableQueuedInvalidationInterface H P i) (fun _ w' => ∃ ext,
      w' = { w with
        mVtdUnitInformation :=
          Function.update w.mVtdUnitInformation i (disabledUnit (w.mVtdUnitInformation i))
        trace := w.trace ++ ext } ∧
      allocations ext = [] ∧ frees ext = ringFrees H (w.mVtdUnitInformation i) ∧
      ∃ g, registerWrites ext
        = if (w.mVtdUnitInformation i).EnableQueuedInvalidation ≠ 0 then
          [Event.write32 ((w.mVtdUnitInformation i).VtdUnitBaseAddress + H.R_GCMD_REG)
            (UINT32 (g &&& not32 H.B_GMCD_REG_QIE))] else []) w := by
  unfold DisableQueuedInvalidationInterface
  apply returns_bind
  apply returns_unitInfo
  by_cases hq : (w.mVtdUnitInformation i).EnableQueuedInvalidation ≠ 0
  · rw [if_pos hq]
    apply returns_bind
    apply returns_unitInfo
    apply returns_bind
    apply returns_read32
    generalize UINT32 (P.reg _ 32 _) = g
    dsimp only
    apply returns_bind
    apply returns_unitInfo
    apply returns_bind
    apply returns_write32
    dsimp only
    apply returns_bind
    apply returns_poll32 P ((w.mVtdUnitInformation i).VtdUnitBaseAddress + H.R_GSTS_REG)
      (fun r => decide (r &&& H.B_GSTS_REG_QIES ≠ 0)) (fun r => decide (r &&& H.B_GSTS_REG_QIES = 0))
      (by intro x; simp) (by intro t; rfl) (hack hq _ _)
    intro v ext hext _
    dsimp only
    apply returns_bind
    apply returns_unitInfo
    dsimp only
    by_cases hd : (w.mVtdUnitInformation i).QiDesc ≠ 0
    · rw [if_pos hd]
      apply returns_bind
      apply returns_unitInfo
      apply returns_bind
      apply returns_unitInfo
      apply returns_bind
      apply returns_freePages
      dsimp only
      apply returns_bind
      apply returns_setUnitInfo
      dsimp only
      apply returns_bind
      apply returns_setUnitInfo
      dsimp only
      apply returns_setUnitInfo
      simp only [List.append_assoc, Function.update_same, Function.update_idem, disabledUnit,
        if_pos hq, if_pos hd]
      refine ⟨_, rfl, ?_, ?_, g, ?_⟩
      · simp [allocations_append, allocations_reads32 _ ext hext, allocations_cons,
          allocations_nil, Event.isAlloc]
      · simp [frees_append, frees_reads32 _ ext hext, frees_cons, frees_nil, ringFrees, hq, hd,
          Event.isFree]
      · simp [registerWrites_append, registerWrites_reads32 _ ext hext, registerWrites_cons,
          registerWrites_nil, Event.isWrite]
    · rw [if_neg hd]
      apply returns_bind
      apply returns_pure
      apply returns_setUnitInfo
      simp only [List.append_assoc, Function.update_same, Function.update_idem, disabledUnit,
        if_pos hq, if_neg hd]
      refine ⟨_, rfl, ?_, ?_, g, ?_⟩
      · simp [allocations_append, allocations_reads32 _ ext hext, allocations_cons,
          allocations_nil, Event.isAlloc]
      · simp [frees_append, frees_reads32 _ ext hext, frees_cons, frees_nil, ringFrees, hq, hd,
          Event.isFree]
      · simp [registerWrites_append, registerWrites_reads32 _ ext hext, registerWrites_cons,
          registerWrites_nil, Event.isWrite]
  · rw [if_neg hq]
    apply returns_pure
    refine ⟨[], ?_, rfl, ?_, 0, by rw [if_neg hq]; rfl⟩
    · simp [disabledUnit, hq]
    · simp [ringFrees, hq]; rfl

/-- A pass of the first loop of `DisableDmar` over an engine that answers: the history it
appends and the unit record it leaves. -/
theorem returns_DisableDmar_engine (H : VtdHeader) (P : Platform) (i : Nat) (w : World)
    (hack : AnswersDisable H P (w.mVtdUnitInformation i)) :
    Returns (DisableDmar.engine H P i) (fun _ w' => ∃ g g' pre mid post,
      w' = { w with
        mVtdUnitInformation :=
          Function.update w.mVtdUnitInformation i (disabledUnit (w.mVtdUnitInformation i))
        trace := w.trace ++ (pre ++
          (Event.read32 ((w.mVtdUnitInformation i).VtdUnitBaseAddress + H.R_GSTS_REG) g ::
           Event.write32 ((w.mVtdUnitInformation i).VtdUnitBaseAddress + H.R_GCMD_REG)
              (UINT32 (g &&& 0x96FFFFFF &&& not32 H.B_GMCD_REG_TE)) ::
           (mid ++
            (Event.read32 ((w.mVtdUnitInformation i).VtdUnitBaseAddress + H.R_GSTS_REG) g' ::
             Event.write32 ((w.mVtdUnitInformation i).VtdUnitBaseAddress + H.R_GCMD_REG)
                (UINT32 (g' &&& 0x96FFFFFF ||| H.B_GMCD_REG_SRTP)) :: post)))) } ∧
      pre.all Event.isMmio = true ∧
      (∃ gf, registerWrites pre = if H.CapReg_RWBF (w.mVtdUnitInformation i).CapReg ≠ 0 then
        [Event.write32 ((w.mVtdUnitInformation i).VtdUnitBaseAddress + H.R_GCMD_REG)
          (UINT32 (gf ||| H.B_GMCD_REG_WBF))] else []) ∧
      (∀ e ∈ mid, ∃ x,
        e = Event.read32 ((w.mVtdUnitInformation i).VtdUnitBaseAddress + H.R_GSTS_REG) x) ∧
      allocations post = [] ∧ frees post = ringFrees H (w.mVtdUnitInformation i) ∧
      (∃ gq, registerWrites post
        = if (w.mVtdUnitInformation i).EnableQueuedInvalidation ≠ 0 then
          [Event.write32 ((w.mVtdUnitInformation i).VtdUnitBaseAddress + H.R_GCMD_REG)
            (UINT32 (gq &&& not32 H.B_GMCD_REG_QIE))] else [])) w := by
  unfold DisableDmar.engine
  apply returns_bind
  apply returns_mono (returns_FlushWriteBuffer H P i w hack.flush)
  rintro _ _ ⟨pre, rfl, hpre, hprew⟩
  apply returns_bind
  apply returns_unitInfo
  apply returns_bind
  apply returns_read32
  generalize UINT32 (P.reg _ 32 _) = g
  dsimp only
  apply returns_bind
  apply returns_unitInfo
  apply returns_bind
  apply returns_write32
  dsimp only
  apply returns_bind
  apply returns_poll32 P ((w.mVtdUnitInformation i).VtdUnitBaseAddress + H.R_GSTS_REG)
    (fun r => decide (r &&& H.B_GSTS_REG_TE = H.B_GSTS_REG_TE))
    (fun r => decide (r &&& H.B_GSTS_REG_TE ≠ H.B_GSTS_REG_TE))
    (by intro x; simp) (by intro t; rfl) (hack.translationOff _ _)
  intro v1 ext1 hext1 _
  dsimp only
  apply returns_bind
  apply returns_unitInfo
  apply returns_bind
  apply returns_read32
  generalize UINT32 (P.reg _ 32 _) = g'
  dsimp only
  apply returns_bind
  apply returns_unitInfo
  apply returns_bind
  apply returns_write32
  dsimp only
  apply returns_bind
  apply returns_poll32 P ((w.mVtdUnitInformation i).VtdUnitBaseAddress + H.R_GSTS_REG)
    (fun r => decide (r &&& H.B_GSTS_REG_RTPS = 0))
    (fun r => decide (r &&& H.B_GSTS_REG_RTPS ≠ 0))
    (by intro x; simp) (by intro t; rfl) (hack.rootTable _ _)
  intro v2 ext2 hext2 _
  dsimp only
  apply returns_bind
  apply returns_unitInfo
  apply returns_bind
  apply returns_read32
  generalize UINT32 (P.reg _ 32 _) = g''
  dsimp only
  refine returns_mono (returns_DisableQueuedInvalidationInterface H P i _ ?_) ?_
  · exact hack.queueOff
  rintro _ _ ⟨extq, rfl, haq, hfq, hwq⟩
  dsimp only
  refine ⟨g, g', pre,
    ext1 ++ [Event.read32 ((w.mVtdUnitInformation i).VtdUnitBaseAddress + H.R_GSTS_REG) v1],
    ext2 ++ [Event.read32 ((w.mVtdUnitInformation i).VtdUnitBaseAddress + H.R_GSTS_REG) v2]
      ++ [Event.read32 ((w.mVtdUnitInformation i).VtdUnitBaseAddress + H.R_GSTS_REG) g''] ++ extq,
    ?_, hpre, hprew, ?_, ?_, ?_, ?_⟩
  · simp
  · intro e he
    rcases List.mem_append.mp he with he | he
    · exact hext1 e he
    · exact ⟨v1, List.mem_singleton.mp he⟩
  · simp [allocations_append, allocations_reads32 _ ext2 hext2, allocations_cons,
      allocations_nil, Event.isAlloc, haq]
  · simp [frees_append, frees_reads32 _ ext2 hext2, frees_cons, frees_nil, Event.isFree, hfq]
  · obtain ⟨gq, hgq⟩ := hwq
    refine ⟨gq, ?_⟩
    simp [registerWrites_append, registerWrites_reads32 _ ext2 hext2, registerWrites_cons,
      registerWrites_nil, Event.isWrite, hgq]

/-- The bits of the mask `0x96FFFFFF`: all of the low 32 but 30, 29, 27 and 24. -/
theorem oneShotMask_testBit (j : Nat) :
    (0x96FFFFFF : Nat).testBit j = decide (j < 32 ∧ j ≠ 30 ∧ j ≠ 29 ∧ j ≠ 27 ∧ j ≠ 24) := by
  by_cases h : j < 32
  · interval_cases j <;> rfl
  · have : (0x96FFFFFF : Nat).testBit j = false :=
      Nat.testBit_lt_two_pow (lt_of_lt_of_le (by decide : (0x96FFFFFF : Nat) < 2 ^ 32)
        (Nat.pow_le_pow_right (by decide) (not_lt.mp h)))
    simp [this, h]

theorem BIT_testBit (n j : Nat) : (BIT n).testBit j = decide (n = j) := by
  simp [BIT, Nat.testBit_two_pow]

/-- The first command of `DisableDmar`: of the status `g`, the bits below 31 other than the
one-shot bits 30, 29, 27 and 24. -/
theorem disableCommand_bits (g j : Nat) :
    (UINT32 (g &&& 0x96FFFFFF &&& not32 (BIT 31))).testBit j
      = (decide (j < 31 ∧ j ≠ 30 ∧ j ≠ 29 ∧ j ≠ 27 ∧ j ≠ 24) && g.testBit j) := by
  simp only [UINT32, Nat.testBit_mod_two_pow, Nat.testBit_and, testBit_not32, BIT_testBit,
    oneShotMask_testBit]
  by_cases h31 : j = 31
  · subst h31; simp
  · by_cases h : j < 32
    · have : j < 31 := by omega
      have h' : ¬ 31 = j := fun e => h31 e.symm
      cases g.testBit j <;> simp [h, this, h']
    · have : ¬ j < 31 := by omega
      simp [h, this]

/-- The second command of `DisableDmar`: bit 30 set, the one-shot bits 29, 27 and 24 clear, every
other bit of the low 32 as in the status `g`. -/
theorem rootTableCommand_bits (g j : Nat) :
    (UINT32 (g &&& 0x96FFFFFF ||| BIT 30)).testBit j
      = (decide (j = 30) || (decide (j < 32 ∧ j ≠ 29 ∧ j ≠ 27 ∧ j ≠ 24) && g.testBit j)) := by
  simp only [UINT32, Nat.testBit_mod_two_pow, Nat.testBit_and, Nat.testBit_or, BIT_testBit,
    oneShotMask_testBit]
  by_cases h30 : j = 30
  · subst h30; simp
  · have h' : ¬ 30 = j := fun e => h30 e.symm
    by_cases h : j < 32
    · cases g.testBit j <;> simp [h, h30, h']
    · simp [h, h30, h']

/-- C14: for an engine that answers, the pass of `DisableDmar` over the engine appends to the
history, after the write-buffer flush, a read of the global status `g`, the write of the
command `(g & 0x96FFFFFF) & ~TE`, polls of the status, a read of the status `g'`, the write of
the command `(g' & 0x96FFFFFF) | SRTP`, and the rest of the pass.  With `TE` bit 31 and `SRTP`
bit 30, the first command has bit 31 and the one-shot bits 30, 29, 27 and 24 clear and every
other bit as in `g`; the second has bit 30 set, the one-shot bits 29, 27 and 24 clear and every
other bit of the low 32 as in `g'`.  The only other register writes of the pass are the flush
command (on an engine that requires it) before them and the command that disables queued
invalidation (on an engine in Queued mode) after them. -/
theorem C14_disable_command_values (H : VtdHeader) (P : Platform) (Index : Nat) (w : World)
    (hTE : H.B_GMCD_REG_TE = BIT 31) (hSRTP : H.B_GMCD_REG_SRTP = BIT 30)
    (hack : AnswersDisable H P (w.mVtdUnitInformation Index)) :
    let U := w.mVtdUnitInformation Index
    let G := U.VtdUnitBaseAddress + H.R_GSTS_REG
    let C := U.VtdUnitBaseAddress + H.R_GCMD_REG
    let r := DisableDmar.engine H P Index w
    ∃ g g' v v' pre mid post gf gq,
      r.1 = Res.ok () ∧
      r.2.trace = w.trace ++ pre ++ [Event.read32 G g, Event.write32 C v] ++ mid
        ++ [Event.read32 G g', Event.write32 C v'] ++ post ∧
      v = UINT32 (g &&& 0x96FFFFFF &&& not32 H.B_GMCD_REG_TE) ∧
      v' = UINT32 (g' &&& 0x96FFFFFF ||| H.B_GMCD_REG_SRTP) ∧
      (∀ j, v.testBit j
        = (decide (j < 31 ∧ j ≠ 30 ∧ j ≠ 29 ∧ j ≠ 27 ∧ j ≠ 24) && g.testBit j)) ∧
      (∀ j, v'.testBit j
        = (decide (j = 30) || (decide (j < 32 ∧ j ≠ 29 ∧ j ≠ 27 ∧ j ≠ 24) && g'.testBit j))) ∧
      registerWrites r.2.trace = registerWrites w.trace
        ++ (if H.CapReg_RWBF U.CapReg ≠ 0 then
            [Event.write32 C (UINT32 (gf ||| H.B_GMCD_REG_WBF))] else [])
        ++ [Event.write32 C v, Event.write32 C v']
        ++ (if U.EnableQueuedInvalidation ≠ 0 then
            [Event.write32 C (UINT32 (gq &&& not32 H.B_GMCD_REG_QIE))] else []) := by
  intro U G C r
  obtain ⟨_, w', hr, g, g', pre, mid, post, hw', _, ⟨gf, hpre⟩, hmid, _, _, ⟨gq, hpost⟩⟩ :=
    returns_DisableDmar_engine H P Index w hack
  have hr' : r = _ := hr
  refine ⟨g, g', _, _, pre, mid, post, gf, gq, by rw [hr'], ?_, rfl, rfl, ?_, ?_, ?_⟩
  · rw [hr', hw']
    simp [G, C, U]
  · intro j
    rw [hTE]
    exact disableCommand_bits g j
  · intro j
    rw [hSRTP]
    exact rootTableCommand_bits g' j
  · rw [hr', hw']
    simp only [registerWrites_append, registerWrites_cons, registerWrites_nil, hpre, hpost,
      registerWrites_reads32 _ mid hmid]
    simp [Event.isWrite, G, C, U]

/-- On `promptPlatform` a poll of the global status after a write of the global command sees
the value written at the first read. -/
theorem promptPlatform_mirror (ver cap ecap buffer fuel : Nat) (done : Nat → Bool)
    (t : List Event) (x : Nat) (h : done (UINT32 x) = true) :
    acks32 (promptPlatform ver cap ecap buffer fuel) 0x1C done fuel
      (t ++ [Event.write32 0x18 (UINT32 x)]) = true := by
  have hv : UINT32 ((promptPlatform ver cap ecap buffer fuel).reg
      (t ++ [Event.write32 0x18 (UINT32 x)]) 32 0x1C) = UINT32 x := by
    simp [promptPlatform, vtdHeader, lastWrite32_append_write]
  cases fuel with
  | zero => simp only [acks32, hv]; exact h
  | succ n => simp only [acks32, hv, h, Bool.true_or]

/-- The engine of `promptPlatform` answers the commands of `DisableDmar`, for a unit record
at base address 0 that does not require the write-buffer flush. -/
theorem promptPlatform_answersDisable (ver cap ecap buffer fuel : Nat)
    (U : VTD_UNIT_INFORMATION) (hbase : U.VtdUnitBaseAddress = 0)
    (hcap : vtdHeader.CapReg_RWBF U.CapReg = 0) :
    AnswersDisable vtdHeader (promptPlatform ver cap ecap buffer fuel) U := by
  constructor
  · intro h
    exact absurd hcap h
  · intro t v
    rw [hbase]
    refine promptPlatform_mirror ver cap ecap buffer fuel _ t _ ?_
    have : UINT32 (v &&& 0x96FFFFFF &&& not32 (BIT 31)) &&& BIT 31 = 0 := and_not32_clear _ _
    simp only [vtdHeader, decide_eq_true_eq, ne_eq]
    rw [this]
    decide
  · intro t v
    rw [hbase]
    refine promptPlatform_mirror ver cap ecap buffer fuel _ t _ ?_
    have : UINT32 (v ||| BIT 30) &&& BIT 30 = BIT 30 := or_mask_set _ _ (by decide)
    simp only [vtdHeader, decide_eq_true_eq, ne_eq]
    rw [this]
    decide
  · intro _ t v
    rw [hbase]
    refine promptPlatform_mirror ver cap ecap buffer fuel _ t _ ?_
    have : UINT32 (v &&& not32 (BIT 26)) &&& BIT 26 = 0 := and_not32_clear _ _
    simp only [vtdHeader, decide_eq_true_eq]
    exact this

/-- A Register-Based engine on `promptPlatform`: the pass of `DisableDmar` returns. -/
theorem C14_disable_command_values_witness :
    ∃ g g' v v' pre mid post gf gq,
      (DisableDmar.engine vtdHeader (promptPlatform 0 0 0 0 0) 0 (oneUnitWorld zeroUnit true)).1
        = Res.ok () ∧
      (DisableDmar.engine vtdHeader (promptPlatform 0 0 0 0 0) 0
          (oneUnitWorld zeroUnit true)).2.trace
        = [] ++ pre ++ [Event.read32 0x1C g, Event.write32 0x18 v] ++ mid
          ++ [Event.read32 0x1C g', Event.write32 0x18 v'] ++ post ∧
      v = UINT32 (g &&& 0x96FFFFFF &&& not32 (BIT 31)) ∧
      v' = UINT32 (g' &&& 0x96FFFFFF ||| BIT 30) ∧
      (∀ j, v.testBit j
        = (decide (j < 31 ∧ j ≠ 30 ∧ j ≠ 29 ∧ j ≠ 27 ∧ j ≠ 24) && g.testBit j)) ∧
      (∀ j, v'.testBit j
        = (decide (j = 30) || (decide (j < 32 ∧ j ≠ 29 ∧ j ≠ 27 ∧ j ≠ 24) && g'.testBit j))) ∧
      registerWrites (DisableDmar.engine vtdHeader (promptPlatform 0 0 0 0 0) 0
          (oneUnitWorld zeroUnit true)).2.trace
        = registerWrites [] ++ (if (0 : Nat) ≠ 0 then
            [Event.write32 0x18 (UINT32 (gf ||| BIT 27))] else [])
          ++ [Event.write32 0x18 v, Event.write32 0x18 v']
          ++ (if (0 : Nat) ≠ 0 then
            [Event.write32 0x18 (UINT32 (gq &&& not32 (BIT 26)))] else []) :=
  C14_disable_command_values vtdHeader (promptPlatform 0 0 0 0 0) 0 (oneUnitWorld zeroUnit true)
    rfl rfl (promptPlatform_answersDisable 0 0 0 0 0 zeroUnit rfl rfl)

theorem all_isMmio_append (a b : List Event) (ha : a.all Event.isMmio = true)
    (hb : b.all Event.isMmio = true) : (a ++ b).all Event.isMmio = true := by
  rw [List.all_append, ha, hb]
  rfl

/-- `DisableDmar` on engines that answer: it returns `EFI_SUCCESS`, every engine is left with
the unit record `disabledUnit`, translation is recorded as disabled, nothing is allocated and
the rings of the Queued engines are released, one after the other. -/
theorem returns_DisableDmar (H : VtdHeader) (P : Platform) (w : World)
    (hack : ∀ j, j < w.mVtdUnitNumber → AnswersDisable H P (w.mVtdUnitInformation j)) :
    Returns (DisableDmar H P) (fun S w' => S = EFI_SUCCESS ∧ ∃ ext,
      w' = { w with
        mVtdUnitInformation := fun j =>
          if j < w.mVtdUnitNumber then disabledUnit (w.mVtdUnitInformation j)
          else w.mVtdUnitInformation j
        mVtdEnabled := false
        trace := w.trace ++ ext } ∧
      allocations ext = [] ∧ frees ext = ringFreesBelow H w w.mVtdUnitNumber) w := by
  unfold DisableDmar
  apply returns_bind
  have hloop := returns_forIndex (fun Index _ => DisableDmar.engine H P Index)
    (fun k _ w' => k ≤ w.mVtdUnitNumber ∧ ∃ ext,
      w' = { w with
        mVtdUnitInformation := fun j =>
          if j < k then disabledUnit (w.mVtdUnitInformation j) else w.mVtdUnitInformation j
        trace := w.trace ++ ext } ∧
      allocations ext = [] ∧ frees ext = ringFreesBelow H w k)
    w.mVtdUnitNumber () w
    ⟨Nat.zero_le _, [], by simp, rfl, rfl⟩
    (by
      rintro k hk _ w' ⟨_, ext, rfl, ha, hf⟩
      have hU : (if k < k then disabledUnit (w.mVtdUnitInformation k)
          else w.mVtdUnitInformation k) = w.mVtdUnitInformation k := by simp
      refine returns_mono (returns_DisableDmar_engine H P k _ ?_) ?_
      · dsimp only
        rw [hU]
        exact hack k hk
      · rintro _ _ ⟨g, g', pre, mid, post, rfl, hpre, _, hmid, hapost, hfpost, _⟩
        dsimp only
        rw [hU]
        refine ⟨hk, ext ++ (pre ++
          (Event.read32 ((w.mVtdUnitInformation k).VtdUnitBaseAddress + H.R_GSTS_REG) g ::
           Event.write32 ((w.mVtdUnitInformation k).VtdUnitBaseAddress + H.R_GCMD_REG)
              (UINT32 (g &&& 0x96FFFFFF &&& not32 H.B_GMCD_REG_TE)) ::
           (mid ++
            (Event.read32 ((w.mVtdUnitInformation k).VtdUnitBaseAddress + H.R_GSTS_REG) g' ::
             Event.write32 ((w.mVtdUnitInformation k).VtdUnitBaseAddress + H.R_GCMD_REG)
                (UINT32 (g' &&& 0x96FFFFFF ||| H.B_GMCD_REG_SRTP)) :: post)))), ?_, ?_, ?_⟩
        · simp only [List.append_assoc, World.mk.injEq, true_and, and_true]
          funext j
          by_cases hj : j = k
          · subst hj
            simp
          · rw [Function.update_noteq hj]
            have : j < k + 1 ↔ j < k := by omega
            simp only [this]
        · simp [allocations_append, allocations_cons, allocations_nil, Event.isAlloc, ha,
            allocations_of_isMmio _ hpre, allocations_reads32 _ mid hmid, hapost]
        · simp [frees_append, frees_cons, frees_nil, Event.isFree, hf, frees_of_isMmio _ hpre,
            frees_reads32 _ mid hmid, hfpost, ringFreesBelow])
  refine returns_mono hloop ?_
  rintro _ _ ⟨_, ext, rfl, ha, hf⟩
  apply returns_bind
  apply returns_setVtdEnabled
  apply returns_pure
  exact ⟨rfl, ext, rfl, ha, hf⟩

/-! ## Enabling translation -/

/-- A register-based context-cache invalidation on an engine that answers returns (with
`EFI_DEVICE_ERROR` when an invalidation is in progress, else `EFI_SUCCESS`) after register
accesses only. -/
theorem returns_InvalidateContextCache (H : VtdHeader) (P : Platform) (i : Nat) (w : World)
    (hreg : (w.mVtdUnitInformation i).EnableQueuedInvalidation = 0)
    (hack : ∀ t v, acks64 P ((w.mVtdUnitInformation i).VtdUnitBaseAddress + H.R_CCMD_REG)
      (fun r => decide (r &&& H.B_CCMD_REG_ICC = 0)) P.fuel
      (t ++ [Event.write64 ((w.mVtdUnitInformation i).VtdUnitBaseAddress + H.R_CCMD_REG) v])
        = true) :
    Returns (InvalidateContextCache H P i) (fun _ w' => ∃ ext,
      w' = { w with trace := w.trace ++ ext } ∧ ext.all Event.isMmio = true) w := by
  unfold InvalidateContextCache
  apply returns_bind
  apply returns_unitInfo
  rw [if_pos hreg]
  apply returns_bind
  apply returns_unitInfo
  apply returns_bind
  apply returns_read64
  generalize UINT64 (P.reg _ 64 _) = g
  dsimp only
  by_cases hb : g &&& H.B_CCMD_REG_ICC ≠ 0
  · rw [if_pos hb]
    apply returns_pure
    exact ⟨_, rfl, by simp [Event.isMmio, Event.isRead]⟩
  · rw [if_neg hb]
    apply returns_bind
    apply returns_unitInfo
    apply returns_bind
    apply returns_write64
    dsimp only
    apply returns_bind
    apply returns_poll64 P ((w.mVtdUnitInformation i).VtdUnitBaseAddress + H.R_CCMD_REG)
      (fun r => decide (r &&& H.B_CCMD_REG_ICC ≠ 0)) (fun r => decide (r &&& H.B_CCMD_REG_ICC = 0))
      (by intro x; simp) (by intro t; rfl) (hack _ _)
    intro v ext hext _
    dsimp only
    apply returns_pure
    simp only [List.append_assoc]
    exact ⟨_, rfl, by
      simp [all_isMmio_reads64 _ ext hext, Event.isMmio, Event.isRead, Event.isWrite]⟩

/-- A register-based IOTLB invalidation on an engine that answers returns after register
accesses only. -/
theorem returns_InvalidateIOTLB (H : VtdHeader) (P : Platform) (i : Nat) (w : World)
    (hreg : (w.mVtdUnitInformation i).EnableQueuedInvalidation = 0)
    (hack : ∀ t v, acks64 P (iotlbAddress H (w.mVtdUnitInformation i))
      (fun r => decide (r &&& H.B_IOTLB_REG_IVT = 0)) P.fuel
      (t ++ [Event.write64 (iotlbAddress H (w.mVtdUnitInformation i)) v]) = true) :
    Returns (InvalidateIOTLB H P i) (fun _ w' => ∃ ext,
      w' = { w with trace := w.trace ++ ext } ∧ ext.all Event.isMmio = true) w := by
  unfold InvalidateIOTLB
  apply returns_bind
  apply returns_unitInfo
  rw [if_pos hreg]
  apply returns_bind
  apply returns_unitInfo
  apply returns_bind
  apply returns_read64
  generalize UINT64 (P.reg _ 64 _) = g
  dsimp only
  by_cases hb : g &&& H.B_IOTLB_REG_IVT ≠ 0
  · rw [if_pos hb]
    apply returns_pure
    exact ⟨_, rfl, by simp [Event.isMmio, Event.isRead]⟩
  · rw [if_neg hb]
    apply returns_bind
    apply returns_unitInfo
    apply returns_bind
    apply returns_write64
    dsimp only
    apply returns_bind
    apply returns_poll64 P (iotlbAddress H (w.mVtdUnitInformation i))
      (fun r => decide (r &&& H.B_IOTLB_REG_IVT ≠ 0)) (fun r => decide (r &&& H.B_IOTLB_REG_IVT = 0))
      (by intro x; simp) (by intro t; rfl) (hack _ _)
    intro v ext hext _
    dsimp only
    apply returns_pure
    simp only [List.append_assoc]
    exact ⟨_, rfl, by
      simp [all_isMmio_reads64 _ ext hext, Event.isMmio, Event.isRead, Event.isWrite]⟩

/-- A pass of the loop of `EnableDmar` over a Register-Based engine that answers returns after
register accesses only. -/
theorem returns_EnableDmar_engine (H : VtdHeader) (P : Platform) (i : Nat) (w : World)
    (hreg : (w.mVtdUnitInformation i).EnableQueuedInvalidation = 0)
    (hack : AnswersEnable H P (w.mVtdUnitInformation i)) :
    Returns (EnableDmar.engine H P i) (fun _ w' => ∃ ext,
      w' = { w with trace := w.trace ++ ext } ∧ ext.all Event.isMmio = true) w := by
  unfold EnableDmar.engine
  apply returns_bind
  apply returns_unitInfo
  dsimp only
  have hstart : ∀ ext0 : List Event, ext0.all Event.isMmio = true →
      Returns (do
        let Reg32 ← MmioRead32 P ((← unitInfo i).VtdUnitBaseAddress + H.R_GSTS_REG)
        MmioWrite32 ((← unitInfo i).VtdUnitBaseAddress + H.R_GCMD_REG)
          (Reg32 ||| H.B_GMCD_REG_SRTP)
        let _ ← doWhile (do
          let Reg32 ← MmioRead32 P ((← unitInfo i).VtdUnitBaseAddress + H.R_GSTS_REG)
          pure (Reg32, decide (Reg32 &&& H.B_GSTS_REG_RTPS = 0))) P.fuel
        let _ ← MmioRead32 P ((← unitInfo i).VtdUnitBaseAddress + H.R_FEDATA_REG)
        FlushWriteBuffer H P i
        let _ ← InvalidateContextCache H P i
        let _ ← InvalidateIOTLB H P i
        let Reg32 ← MmioRead32 P ((← unitInfo i).VtdUnitBaseAddress + H.R_GSTS_REG)
        MmioWrite32 ((← unitInfo i).VtdUnitBaseAddress + H.R_GCMD_REG)
          (Reg32 ||| H.B_GMCD_REG_TE)
        let _ ← doWhile (do
          let Reg32 ← MmioRead32 P ((← unitInfo i).VtdUnitBaseAddress + H.R_GSTS_REG)
          pure (Reg32, decide (Reg32 &&& H.B_GSTS_REG_TE = 0))) P.fuel
        return ())
        (fun _ w' => ∃ ext,
          w' = { w with trace := w.trace ++ ext } ∧ ext.all Event.isMmio = true)
        { w with trace := w.trace ++ ext0 } := by
    intro ext0 h0
    apply returns_bind
    apply returns_unitInfo
    apply returns_bind
    apply returns_read32
    generalize UINT32 (P.reg _ 32 _) = g
    dsimp only
    apply returns_bind
    apply returns_unitInfo
    apply returns_bind
    apply returns_write32
    dsimp only
    apply returns_bind
    apply returns_poll32 P ((w.mVtdUnitInformation i).VtdUnitBaseAddress + H.R_GSTS_REG)
      (fun r => decide (r &&& H.B_GSTS_REG_RTPS = 0))
      (fun r => decide (r &&& H.B_GSTS_REG_RTPS ≠ 0))
      (by intro x; simp) (by intro t; rfl) (hack.rootTable _ _)
    intro v1 ext1 hext1 _
    dsimp only
    apply returns_bind
    apply returns_unitInfo
    apply returns_bind
    apply returns_read32
    generalize UINT32 (P.reg _ 32 _) = gfe
    dsimp only
    apply returns_bind
    refine returns_mono (returns_FlushWriteBuffer H P i _ ?_) ?_
    · exact hack.flush
    rintro _ _ ⟨extf, rfl, hextf, _⟩
    dsimp only
    apply returns_bind
    refine returns_mono (returns_InvalidateContextCache H P i _ ?_ ?_) ?_
    · exact hreg
    · exact hack.context
    rintro _ _ ⟨extc, rfl, hextc⟩
    dsimp only
    apply returns_bind
    refine returns_mono (returns_InvalidateIOTLB H P i _ ?_ ?_) ?_
    · exact hreg
    · exact hack.iotlb
    rintro _ _ ⟨exti, rfl, hexti⟩
    dsimp only
    apply returns_bind
    apply returns_unitInfo
    apply returns_bind
    apply returns_read32
    generalize UINT32 (P.reg _ 32 _) = g2
    dsimp only
    apply returns_bind
    apply returns_unitInfo
    apply returns_bind
    apply returns_write32
    dsimp only
    apply returns_bind
    apply returns_poll32 P ((w.mVtdUnitInformation i).VtdUnitBaseAddress + H.R_GSTS_REG)
      (fun r => decide (r &&& H.B_GSTS_REG_TE = 0))
      (fun r => decide (r &&& H.B_GSTS_REG_TE ≠ 0))
      (by intro x; simp) (by intro t; rfl) (hack.translationOn _ _)
    intro v2 ext2 hext2 _
    dsimp only
    apply returns_pure
    simp only [List.append_assoc]
    refine ⟨_, rfl, ?_⟩
    simp [h0, hextf, hextc, hexti, all_isMmio_reads32 _ ext1 hext1,
      all_isMmio_reads32 _ ext2 hext2, Event.isMmio, Event.isRead, Event.isWrite]
  by_cases he : (w.mVtdUnitInformation i).ExtRootEntryTable ≠ 0
  · rw [if_pos he]
    apply returns_bind
    apply returns_unitInfo
    apply returns_bind
    apply returns_unitInfo
    apply returns_bind
    apply returns_write64
    dsimp only
    exact hstart _ (by simp [Event.isMmio, Event.isWrite])
  · rw [if_neg he]
    apply returns_bind
    apply returns_unitInfo
    apply returns_bind
    apply returns_unitInfo
    apply returns_bind
    apply returns_write64
    dsimp only
    exact hstart _ (by simp [Event.isMmio, Event.isWrite])

theorem UINT32_zero : UINT32 0 = 0 := rfl

/-- The pass of `DisablePmr` over the engine `i`: the capability register is read; when one
of `PLMR`, `PHMR` is zero nothing else is done; else the PMR-enable register is read, and when
its bit 0 is set, 0 is written to it and it is polled until bit 0 reads clear. -/
theorem DisablePmr_engine_run (H : VtdHeader) (P : Platform) (i : Nat) (w : World) :
    let U := w.mVtdUnitInformation i
    let cap := UINT64 (P.reg w.trace 64 (U.VtdUnitBaseAddress + H.R_CAP_REG))
    let t1 := w.trace ++ [Event.read64 (U.VtdUnitBaseAddress + H.R_CAP_REG) cap]
    let pm := UINT32 (P.reg t1 32 (U.VtdUnitBaseAddress + H.R_PMEN_ENABLE_REG))
    let t2 := t1 ++ [Event.read32 (U.VtdUnitBaseAddress + H.R_PMEN_ENABLE_REG) pm]
    let t3 := t2 ++ [Event.write32 (U.VtdUnitBaseAddress + H.R_PMEN_ENABLE_REG) 0]
    let r := DisablePmr.engine H P i w
    (H.CapReg_PLMR cap = 0 ∨ H.CapReg_PHMR cap = 0 → r = (Res.ok (), { w with trace := t1 })) ∧
    (¬ (H.CapReg_PLMR cap = 0 ∨ H.CapReg_PHMR cap = 0) → pm &&& BIT 0 = 0 →
      r = (Res.ok (), { w with trace := t2 })) ∧
    (¬ (H.CapReg_PLMR cap = 0 ∨ H.CapReg_PHMR cap = 0) → pm &&& BIT 0 ≠ 0 →
      ∃ ext, r.2 = { w with trace := t3 ++ ext } ∧
        (∀ e ∈ ext, ∃ x, e = Event.read32 (U.VtdUnitBaseAddress + H.R_PMEN_ENABLE_REG) x) ∧
        r.1 = (if acks32 P (U.VtdUnitBaseAddress + H.R_PMEN_ENABLE_REG)
            (fun x => decide (x &&& BIT 0 = 0)) P.fuel t3 = true
          then Res.ok () else Res.stop Stop.spin)) := by
  intro U cap t1 pm t2 t3 r
  refine ⟨?_, ?_, ?_⟩
  · intro h
    show DisablePmr.engine H P i w = _
    unfold DisablePmr.engine
    simp only [bind_run, unitInfo_run, andThen_ok, MmioRead64_run, ite_run]
    rw [if_pos h]
    rfl
  · intro h hpm
    show DisablePmr.engine H P i w = _
    unfold DisablePmr.engine
    simp only [bind_run, unitInfo_run, andThen_ok, MmioRead64_run, MmioRead32_run, ite_run]
    rw [if_neg h]
    have hpm' : ¬ pm &&& BIT 0 ≠ 0 := fun hne => hne hpm
    rw [if_neg hpm']
    rfl
  · intro h hpm
    have hr : r = M.andThen (doWhile (do
          let Reg32 ← MmioRead32 P ((← unitInfo i).VtdUnitBaseAddress + H.R_PMEN_ENABLE_REG)
          pure (Reg32, decide (Reg32 &&& BIT 0 ≠ 0))) P.fuel { w with trace := t3 })
        (fun _ => pure ()) := by
      show DisablePmr.engine H P i w = _
      unfold DisablePmr.engine
      simp only [bind_run, unitInfo_run, andThen_ok, MmioRead64_run, MmioRead32_run, ite_run,
        MmioWrite32_run, UINT32_zero]
      rw [if_neg h, if_pos hpm]
    obtain ⟨ext, h1, h2, h3, h4⟩ := poll32_at P (U.VtdUnitBaseAddress + H.R_PMEN_ENABLE_REG)
      (fun x => decide (x &&& BIT 0 ≠ 0)) (fun x => decide (x &&& BIT 0 = 0))
      (do
        let Reg32 ← MmioRead32 P ((← unitInfo i).VtdUnitBaseAddress + H.R_PMEN_ENABLE_REG)
        pure (Reg32, decide (Reg32 &&& BIT 0 ≠ 0))) { w with trace := t3 }
      (by intro x; simp) (by intro t; rfl)
    refine ⟨ext, ?_, h2, ?_⟩
    · rw [hr, andThen_const_snd]
      exact h1
    · rw [hr]
      by_cases ha : acks32 P (U.VtdUnitBaseAddress + H.R_PMEN_ENABLE_REG)
          (fun x => decide (x &&& BIT 0 = 0)) P.fuel t3 = true
      · obtain ⟨v, hv⟩ := h3 ha
        rw [if_pos ha]
        rcases hd : doWhile (do
            let Reg32 ← MmioRead32 P ((← unitInfo i).VtdUnitBaseAddress + H.R_PMEN_ENABLE_REG)
            pure (Reg32, decide (Reg32 &&& BIT 0 ≠ 0))) P.fuel { w with trace := t3 }
          with ⟨v' | s, W'⟩
        · rfl
        · rw [hd] at hv
          simp at hv
      · rw [if_neg ha]
        have hs := h4 (by simpa using ha)
        rcases hd : doWhile (do
            let Reg32 ← MmioRead32 P ((← unitInfo i).VtdUnitBaseAddress + H.R_PMEN_ENABLE_REG)
            pure (Reg32, decide (Reg32 &&& BIT 0 ≠ 0))) P.fuel { w with trace := t3 }
          with ⟨v' | s, W'⟩
        · rw [hd] at hs
          simp at hs
        · rw [hd] at hs
          simp only [Res.stop.injEq] at hs
          subst hs
          rfl

/-- A pass of `DisablePmr` over an engine that answers returns after register accesses
only. -/
theorem returns_DisablePmr_engine (H : VtdHeader) (P : Platform) (i : Nat) (w : World)
    (hack : ∀ t, acks32 P ((w.mVtdUnitInformation i).VtdUnitBaseAddress + H.R_PMEN_ENABLE_REG)
      (fun r => decide (r &&& BIT 0 = 0)) P.fuel
      (t ++ [Event.write32 ((w.mVtdUnitInformation i).VtdUnitBaseAddress + H.R_PMEN_ENABLE_REG)
        0]) = true) :
    Returns (DisablePmr.engine H P i) (fun _ w' => ∃ ext,
      w' = { w with trace := w.trace ++ ext } ∧ ext.all Event.isMmio = true) w := by
  obtain ⟨h1, h2, h3⟩ := DisablePmr_engine_run H P i w
  by_cases hc : H.CapReg_PLMR (UINT64 (P.reg w.trace 64
      ((w.mVtdUnitInformation i).VtdUnitBaseAddress + H.R_CAP_REG))) = 0 ∨
    H.CapReg_PHMR (UINT64 (P.reg w.trace 64
      ((w.mVtdUnitInformation i).VtdUnitBaseAddress + H.R_CAP_REG))) = 0
  · exact ⟨(), _, h1 hc, _, rfl, by simp [Event.isMmio, Event.isRead]⟩
  · by_cases hp : UINT32 (P.reg (w.trace ++ [Event.read64
        ((w.mVtdUnitInformation i).VtdUnitBaseAddress + H.R_CAP_REG)
        (UINT64 (P.reg w.trace 64 ((w.mVtdUnitInformation i).VtdUnitBaseAddress + H.R_CAP_REG)))])
        32 ((w.mVtdUnitInformation i).VtdUnitBaseAddress + H.R_PMEN_ENABLE_REG)) &&& BIT 0 = 0
    · refine ⟨(), _, h2 hc hp, ?_⟩
      simp only [List.append_assoc]
      exact ⟨_, rfl, by simp [Event.isMmio, Event.isRead]⟩
    · obtain ⟨ext, e1, e2, e3⟩ := h3 hc hp
      rw [if_pos (hack _)] at e3
      refine ⟨(), _, Prod.ext e3 e1, ?_⟩
      simp only [List.append_assoc]
      exact ⟨_, rfl, by
        simp [all_isMmio_reads32 _ ext e2, Event.isMmio, Event.isRead, Event.isWrite]⟩

/-- `DisablePmr` on engines that answer returns after register accesses only. -/
theorem returns_DisablePmr (H : VtdHeader) (P : Platform) (w : World)
    (hack : ∀ j, j < w.mVtdUnitNumber → ∀ t,
      acks32 P ((w.mVtdUnitInformation j).VtdUnitBaseAddress + H.R_PMEN_ENABLE_REG)
        (fun r => decide (r &&& BIT 0 = 0)) P.fuel
        (t ++ [Event.write32 ((w.mVtdUnitInformation j).VtdUnitBaseAddress + H.R_PMEN_ENABLE_REG)
          0]) = true) :
    Returns (DisablePmr H P) (fun _ w' => ∃ ext,
      w' = { w with trace := w.trace ++ ext } ∧ ext.all Event.isMmio = true) w := by
  have hloop := returns_forIndex (fun Index _ => DisablePmr.engine H P Index)
    (fun _ _ w' => ∃ ext, w' = { w with trace := w.trace ++ ext } ∧ ext.all Event.isMmio = true)
    w.mVtdUnitNumber () w ⟨[], by simp, rfl⟩
    (by
      rintro k hk _ w' ⟨ext, rfl, hext⟩
      refine returns_mono (returns_DisablePmr_engine H P k _ ?_) ?_
      · exact hack k hk
      · rintro _ _ ⟨ext', rfl, hext'⟩
        exact ⟨ext ++ ext', by simp, all_isMmio_append _ _ hext hext'⟩)
  exact hloop

/-- The passes of `EnableDmar` over Register-Based engines that answer return after register
accesses only. -/
theorem returns_EnableDmar_loop (H : VtdHeader) (P : Platform) (w : World)
    (hreg : ∀ j, j < w.mVtdUnitNumber → (w.mVtdUnitInformation j).EnableQueuedInvalidation = 0)
    (hack : ∀ j, j < w.mVtdUnitNumber → AnswersEnable H P (w.mVtdUnitInformation j)) :
    Returns (forIndex (fun Index _ => EnableDmar.engine H P Index) w.mVtdUnitNumber ())
      (fun _ w' => ∃ ext,
        w' = { w with trace := w.trace ++ ext } ∧ ext.all Event.isMmio = true) w :=
  returns_forIndex (fun Index _ => EnableDmar.engine H P Index)
    (fun _ _ w' => ∃ ext, w' = { w with trace := w.trace ++ ext } ∧ ext.all Event.isMmio = true)
    w.mVtdUnitNumber () w ⟨[], by simp, rfl⟩
    (by
      rintro k hk _ w' ⟨ext, rfl, hext⟩
      refine returns_mono (returns_EnableDmar_engine H P k _ ?_ ?_) ?_
      · exact hreg k hk
      · exact hack k hk
      · rintro _ _ ⟨ext', rfl, hext'⟩
        exact ⟨ext ++ ext', by simp, all_isMmio_append _ _ hext hext'⟩)

/-- `EnableDmar` on Register-Based engines that answer: it returns `EFI_SUCCESS` after register
accesses only, and records translation as enabled. -/
theorem returns_EnableDmar (H : VtdHeader) (P : Platform) (w : World)
    (hreg : ∀ j, j < w.mVtdUnitNumber → (w.mVtdUnitInformation j).EnableQueuedInvalidation = 0)
    (hack : ∀ j, j < w.mVtdUnitNumber → AnswersEnable H P (w.mVtdUnitInformation j)) :
    Returns (EnableDmar H P) (fun S w' => S = EFI_SUCCESS ∧ ∃ ext,
      w' = { w with mVtdEnabled := true, trace := w.trace ++ ext } ∧
      ext.all Event.isMmio = true) w := by
  unfold EnableDmar
  apply returns_bind
  refine returns_mono (returns_EnableDmar_loop H P w hreg hack) ?_
  rintro _ _ ⟨ext, rfl, hext⟩
  apply returns_bind
  refine returns_mono (returns_DisablePmr H P _ ?_) ?_
  · exact fun j hj => (hack j hj).protectedOff
  rintro _ _ ⟨ext', rfl, hext'⟩
  apply returns_bind
  apply returns_setVtdEnabled
  apply returns_pure
  exact ⟨rfl, ext ++ ext', by simp, all_isMmio_append _ _ hext hext'⟩

theorem answersEnable_disabledUnit (H : VtdHeader) (P : Platform) (U : VTD_UNIT_INFORMATION)
    (h : AnswersEnable H P U) : AnswersEnable H P (disabledUnit U) := by
  unfold disabledUnit
  split
  · split
    · exact ⟨h.rootTable, h.flush, h.context, h.iotlb, h.translationOn, h.protectedOff⟩
    · exact ⟨h.rootTable, h.flush, h.context, h.iotlb, h.translationOn, h.protectedOff⟩
  · exact h

theorem disabledUnit_registerBased (U : VTD_UNIT_INFORMATION) :
    (disabledUnit U).EnableQueuedInvalidation = 0 := by
  unfold disabledUnit
  split
  · split <;> rfl
  · rename_i h
    exact not_not.mp h

/-- `DisableDmar` and then `EnableDmar`, on engines that answer: both return `EFI_SUCCESS`;
translation is recorded as enabled; every engine is left with the unit record `disabledUnit`;
nothing is allocated and the rings of the Queued engines are released. -/
theorem disable_then_enable (H : VtdHeader) (P : Platform) (w : World)
    (hD : ∀ j, j < w.mVtdUnitNumber → AnswersDisable H P (w.mVtdUnitInformation j))
    (hE : ∀ j, j < w.mVtdUnitNumber → AnswersEnable H P (w.mVtdUnitInformation j)) :
    (DisableDmar H P w).1 = Res.ok EFI_SUCCESS ∧
    (EnableDmar H P (DisableDmar H P w).2).1 = Res.ok EFI_SUCCESS ∧
    (EnableDmar H P (DisableDmar H P w).2).2.mVtdEnabled = true ∧
    (∀ j, j < w.mVtdUnitNumber →
      (EnableDmar H P (DisableDmar H P w).2).2.mVtdUnitInformation j
        = disabledUnit (w.mVtdUnitInformation j)) ∧
    allocations (EnableDmar H P (DisableDmar H P w).2).2.trace = allocations w.trace ∧
    frees (EnableDmar H P (DisableDmar H P w).2).2.trace
      = frees w.trace ++ ringFreesBelow H w w.mVtdUnitNumber := by
  obtain ⟨S1, w1, hr1, hS1, ext1, hw1, ha1, hf1⟩ := returns_DisableDmar H P w hD
  subst hS1
  have hn : w1.mVtdUnitNumber = w.mVtdUnitNumber := by rw [hw1]
  have hu : ∀ j, j < w.mVtdUnitNumber →
      w1.mVtdUnitInformation j = disabledUnit (w.mVtdUnitInformation j) := by
    intro j hj
    rw [hw1]
    simp [hj]
  obtain ⟨S2, w2, hr2, hS2, ext2, hw2, hm2⟩ := returns_EnableDmar H P w1
    (by
      intro j hj
      rw [hu j (hn ▸ hj)]
      exact disabledUnit_registerBased _)
    (by
      intro j hj
      rw [hu j (hn ▸ hj)]
      exact answersEnable_disabledUnit H P _ (hE j (hn ▸ hj)))
  subst hS2
  rw [hr1]
  simp only []
  rw [hr2]
  simp only []
  refine ⟨trivial, trivial, by rw [hw2], ?_, ?_, ?_⟩
  · intro j hj
    rw [hw2]
    exact hu j hj
  · rw [hw2, hw1]
    simp [allocations_append, ha1, allocations_of_isMmio _ hm2]
  · rw [hw2, hw1]
    simp [frees_append, hf1, frees_of_isMmio _ hm2]

/-- C11 (amended): on engines that acknowledge every poll, `DisableDmar` followed by
`EnableDmar` returns `EFI_SUCCESS` twice and leaves translation recorded as enabled, but the
queue is not set up again: every engine is left Register-Based; an engine that was Queued with
a ring has `QiDesc = NULL` and `QiDescLength = 0`; nothing is allocated, and the only releases
are those of the rings of the engines that were Queued, one each, in index order. -/
theorem C11_disable_then_enable (H : VtdHeader) (P : Platform) (w : World)
    (hD : ∀ j, j < w.mVtdUnitNumber → AnswersDisable H P (w.mVtdUnitInformation j))
    (hE : ∀ j, j < w.mVtdUnitNumber → AnswersEnable H P (w.mVtdUnitInformation j)) :
    let r1 := DisableDmar H P w
    let r2 := EnableDmar H P r1.2
    r1.1 = Res.ok EFI_SUCCESS ∧ r2.1 = Res.ok EFI_SUCCESS ∧ r2.2.mVtdEnabled = true ∧
    (∀ j, j < w.mVtdUnitNumber →
      (r2.2.mVtdUnitInformation j).EnableQueuedInvalidation = 0 ∧
      ((w.mVtdUnitInformation j).EnableQueuedInvalidation ≠ 0 →
        (w.mVtdUnitInformation j).QiDesc ≠ 0 →
        (r2.2.mVtdUnitInformation j).QiDesc = 0 ∧
        (r2.2.mVtdUnitInformation j).QiDescLength = 0)) ∧
    allocations r2.2.trace = allocations w.trace ∧
    frees r2.2.trace = frees w.trace ++ ringFreesBelow H w w.mVtdUnitNumber := by
  intro r1 r2
  obtain ⟨h1, h2, h3, h4, h5, h6⟩ := disable_then_enable H P w hD hE
  refine ⟨h1, h2, h3, ?_, h5, h6⟩
  intro j hj
  have hU : r2.2.mVtdUnitInformation j = disabledUnit (w.mVtdUnitInformation j) := h4 j hj
  rw [hU]
  refine ⟨disabledUnit_registerBased _, ?_⟩
  intro hq hd
  simp [disabledUnit, hq, hd]

theorem acks32_first (P : Platform) (A : Nat) (done : Nat → Bool) (fuel : Nat) (t : List Event)
    (h : done (UINT32 (P.reg t 32 A)) = true) : acks32 P A done fuel t = true := by
  cases fuel with
  | zero => exact h
  | succ n => simp only [acks32, h, Bool.true_or]

theorem acks64_first (P : Platform) (A : Nat) (done : Nat → Bool) (fuel : Nat) (t : List Event)
    (h : done (UINT64 (P.reg t 64 A)) = true) : acks64 P A done fuel t = true := by
  cases fuel with
  | zero => exact h
  | succ n => simp only [acks64, h, Bool.true_or]

/-- The engine of `promptPlatform 0 0 0` answers the commands of `EnableDmar`, for a unit
record at base address 0 with a zero capability and extended capability snapshot. -/
theorem promptPlatform_answersEnable (buffer fuel : Nat) (U : VTD_UNIT_INFORMATION)
    (hbase : U.VtdUnitBaseAddress = 0) (hcap : U.CapReg = 0) (hecap : U.ECapReg = 0) :
    AnswersEnable vtdHeader (promptPlatform 0 0 0 buffer fuel) U := by
  constructor
  · intro t v
    rw [hbase]
    refine promptPlatform_mirror 0 0 0 buffer fuel _ t _ ?_
    have : UINT32 (v ||| BIT 30) &&& BIT 30 = BIT 30 := or_mask_set _ _ (by decide)
    simp only [vtdHeader, decide_eq_true_eq, ne_eq]
    rw [this]
    decide
  · intro h
    rw [hcap] at h
    exact absurd rfl h
  · intro t v
    rw [hbase]
    exact acks64_first _ _ _ _ _ (by simp [promptPlatform, vtdHeader, UINT64])
  · intro t v
    have : iotlbAddress vtdHeader U = 8 := by
      simp [iotlbAddress, hbase, hecap, vtdHeader]
    rw [this]
    exact acks64_first _ _ _ _ _ (by simp [promptPlatform, vtdHeader, UINT64])
  · intro t v
    rw [hbase]
    refine promptPlatform_mirror 0 0 0 buffer fuel _ t _ ?_
    have : UINT32 (v ||| BIT 31) &&& BIT 31 = BIT 31 := or_mask_set _ _ (by decide)
    simp only [vtdHeader, decide_eq_true_eq, ne_eq]
    rw [this]
    decide
  · intro t
    rw [hbase]
    exact acks32_first _ _ _ _ _ (by simp [promptPlatform, vtdHeader, UINT32])

/-- One engine in Queued mode with a ring of 256 slots, translation enabled, on
`promptPlatform`: after `DisableDmar` and `EnableDmar` translation is enabled again, but the
engine is Register-Based, without a ring, and nothing has been allocated. -/
theorem C11_counterexample :
    ((oneUnitWorld (queuedUnit 256 0) true).mVtdUnitInformation 0).EnableQueuedInvalidation = 1 ∧
    (EnableDmar vtdHeader (promptPlatform 0 0 0 0 0)
      (DisableDmar vtdHeader (promptPlatform 0 0 0 0 0)
        (oneUnitWorld (queuedUnit 256 0) true)).2).1 = Res.ok EFI_SUCCESS ∧
    ((EnableDmar vtdHeader (promptPlatform 0 0 0 0 0)
      (DisableDmar vtdHeader (promptPlatform 0 0 0 0 0)
        (oneUnitWorld (queuedUnit 256 0) true)).2).2.mVtdUnitInformation 0)
      = { queuedUnit 256 0 with
          EnableQueuedInvalidation := 0, QiDesc := 0, QiDescLength := 0 } ∧
    allocations (EnableDmar vtdHeader (promptPlatform 0 0 0 0 0)
      (DisableDmar vtdHeader (promptPlatform 0 0 0 0 0)
        (oneUnitWorld (queuedUnit 256 0) true)).2).2.trace = [] := by
  obtain ⟨_, h2, _, h4, h5, _⟩ := disable_then_enable vtdHeader (promptPlatform 0 0 0 0 0)
    (oneUnitWorld (queuedUnit 256 0) true)
    (fun _ _ => promptPlatform_answersDisable 0 0 0 0 0 _ rfl
      (show vtdHeader.CapReg_RWBF (queuedUnit 256 0).CapReg = 0 by decide))
    (fun _ _ => promptPlatform_answersEnable 0 0 _ rfl rfl rfl)
  refine ⟨rfl, h2, ?_, h5⟩
  rw [h4 0 (by decide)]
  decide

/-- One engine in Queued mode with a ring of 256 slots on `promptPlatform`: `DisableDmar` and
then `EnableDmar` leave translation enabled and the engine Register-Based. -/
theorem C11_disable_then_enable_witness :
    (EnableDmar vtdHeader (promptPlatform 0 0 0 0 0)
      (DisableDmar vtdHeader (promptPlatform 0 0 0 0 0)
        (oneUnitWorld (queuedUnit 256 0) true)).2).2.mVtdEnabled = true ∧
    ((EnableDmar vtdHeader (promptPlatform 0 0 0 0 0)
      (DisableDmar vtdHeader (promptPlatform 0 0 0 0 0)
        (oneUnitWorld (queuedUnit 256 0) true)).2).2.mVtdUnitInformation
          0).EnableQueuedInvalidation = 0 := by
  have h := C11_disable_then_enable vtdHeader (promptPlatform 0 0 0 0 0)
    (oneUnitWorld (queuedUnit 256 0) true)
    (fun _ _ => promptPlatform_answersDisable 0 0 0 0 0 _ rfl
      (show vtdHeader.CapReg_RWBF (queuedUnit 256 0).CapReg = 0 by decide))
    (fun _ _ => promptPlatform_answersEnable 0 0 _ rfl rfl rfl)
  exact ⟨h.2.2.1, (h.2.2.2.1 0 (by decide)).1⟩

/-! ## Disabling the protected memory regions -/

theorem bind_returns_inv {α β : Type} {m : M α} {f : α → M β} {w w' : World} {b : β}
    (h : (m >>= f) w = (Res.ok b, w')) : ∃ a w1, m w = (Res.ok a, w1) ∧ f a w1 = (Res.ok b, w') := by
  rw [bind_run] at h
  rcases hm : m w with ⟨a | s, w1⟩
  · rw [hm, andThen_ok] at h
    exact ⟨a, w1, rfl, h⟩
  · rw [hm, andThen_stop] at h
    cases h

/-- A polling loop on a 32-bit register that has returned the value `v`: it has appended reads
of the register, the last of which shows `v`, and `v` ends the loop. -/
theorem poll32_confirmed (P : Platform) (A : Nat) (again done : Nat → Bool)
    (body : M (Nat × Bool)) (W W' : World) (v : Nat) (hdone : ∀ x, done x = !again x)
    (hbody : ∀ t, body { W with trace := t } =
      (Res.ok (UINT32 (P.reg t 32 A), again (UINT32 (P.reg t 32 A))),
        { W with trace := t ++ [Event.read32 A (UINT32 (P.reg t 32 A))] }))
    (h : doWhile body P.fuel W = (Res.ok v, W')) :
    ∃ ext, W' = { W with trace := W.trace ++ (ext ++ [Event.read32 A v]) } ∧
      (∀ e ∈ ext, ∃ x, e = Event.read32 A x) ∧ done v = true := by
  by_cases ha : acks32 P A done P.fuel W.trace = true
  · obtain ⟨v', ext, h1, h2, h3⟩ := poll32_last P A again done body W hdone hbody P.fuel W.trace ha
    have h1' : doWhile body P.fuel W = _ := h1
    rw [h] at h1'
    simp only [Prod.mk.injEq, Res.ok.injEq] at h1'
    obtain ⟨rfl, rfl⟩ := h1'
    exact ⟨ext, rfl, h2, h3⟩
  · obtain ⟨_, _, _, _, h4⟩ := doWhile_poll32 P A again done body W hdone hbody P.fuel W.trace
    have h4' : (doWhile body P.fuel W).1 = Res.stop Stop.spin := h4 (by simpa using ha)
    rw [h] at h4'
    cases h4'

/-- A pass of the loop of `EnableDmar` that has returned has ended with the write of the
global command with the translation-enable bit set, followed by reads of the global status
only, the last of which shows the translation-enable status bit set. -/
theorem EnableDmar_engine_confirmed (H : VtdHeader) (P : Platform) (i : Nat) (w w' : World)
    (h : EnableDmar.engine H P i w = (Res.ok (), w')) :
    EndsEnabled H i w' := by
  have htail : ∀ W : World,
      (do
        let Reg32 ← MmioRead32 P ((← unitInfo i).VtdUnitBaseAddress + H.R_GSTS_REG)
        MmioWrite32 ((← unitInfo i).VtdUnitBaseAddress + H.R_GCMD_REG)
          (Reg32 ||| H.B_GMCD_REG_TE)
        let _ ← doWhile (do
          let Reg32 ← MmioRead32 P ((← unitInfo i).VtdUnitBaseAddress + H.R_GSTS_REG)
          pure (Reg32, decide (Reg32 &&& H.B_GSTS_REG_TE = 0))) P.fuel
        return () : M Unit) W = (Res.ok (), w') →
      EndsEnabled H i w' := by
    intro W hW
    simp only [bind_run, unitInfo_run, MmioRead32_run, MmioWrite32_run, andThen_ok] at hW
    generalize hg : UINT32 (P.reg W.trace 32
      ((W.mVtdUnitInformation i).VtdUnitBaseAddress + H.R_GSTS_REG)) = g at hW
    rcases hd : doWhile (do
        let Reg32 ← MmioRead32 P ((← unitInfo i).VtdUnitBaseAddress + H.R_GSTS_REG)
        pure (Reg32, decide (Reg32 &&& H.B_GSTS_REG_TE = 0))) P.fuel
      { W with trace := W.trace
          ++ [Event.read32 ((W.mVtdUnitInformation i).VtdUnitBaseAddress + H.R_GSTS_REG) g]
          ++ [Event.write32 ((W.mVtdUnitInformation i).VtdUnitBaseAddress + H.R_GCMD_REG)
            (UINT32 (g ||| H.B_GMCD_REG_TE))] } with ⟨v | s, W2⟩
    · obtain ⟨ext, hW2, hext, hv⟩ := poll32_confirmed P
        ((W.mVtdUnitInformation i).VtdUnitBaseAddress + H.R_GSTS_REG)
        (fun r => decide (r &&& H.B_GSTS_REG_TE = 0))
        (fun r => decide (r &&& H.B_GSTS_REG_TE ≠ 0))
        _ _ _ v (by intro x; simp) (by intro t; rfl) hd
      have hbind : (doWhile (do
          let Reg32 ← MmioRead32 P ((← unitInfo i).VtdUnitBaseAddress + H.R_GSTS_REG)
          pure (Reg32, decide (Reg32 &&& H.B_GSTS_REG_TE = 0))) P.fuel >>=
            fun _ => (pure () : M Unit))
          { W with trace := W.trace
            ++ [Event.read32 ((W.mVtdUnitInformation i).VtdUnitBaseAddress + H.R_GSTS_REG) g]
            ++ [Event.write32 ((W.mVtdUnitInformation i).VtdUnitBaseAddress + H.R_GCMD_REG)
              (UINT32 (g ||| H.B_GMCD_REG_TE))] } = (Res.ok (), w') := hW
      rw [bind_run, hd, andThen_ok] at hbind
      cases hbind
      subst hW2
      refine ⟨W.trace, g, ext, v, ?_, hext, by simpa using hv⟩
      simp
    · have hbind : (doWhile (do
          let Reg32 ← MmioRead32 P ((← unitInfo i).VtdUnitBaseAddress + H.R_GSTS_REG)
          pure (Reg32, decide (Reg32 &&& H.B_GSTS_REG_TE = 0))) P.fuel >>=
            fun _ => (pure () : M Unit))
          { W with trace := W.trace
            ++ [Event.read32 ((W.mVtdUnitInformation i).VtdUnitBaseAddress + H.R_GSTS_REG) g]
            ++ [Event.write32 ((W.mVtdUnitInformation i).VtdUnitBaseAddress + H.R_GCMD_REG)
              (UINT32 (g ||| H.B_GMCD_REG_TE))] } = (Res.ok (), w') := hW
      rw [bind_run, hd, andThen_stop] at hbind
      cases hbind
  unfold EnableDmar.engine at h
  obtain ⟨_, _, h1, h⟩ := bind_returns_inv h
  cases h1
  have hrest : ∀ W : World,
      (do
        let Reg32 ← MmioRead32 P ((← unitInfo i).VtdUnitBaseAddress + H.R_GSTS_REG)
        MmioWrite32 ((← unitInfo i).VtdUnitBaseAddress + H.R_GCMD_REG)
          (Reg32 ||| H.B_GMCD_REG_SRTP)
        let _ ← doWhile (do
          let Reg32 ← MmioRead32 P ((← unitInfo i).VtdUnitBaseAddress + H.R_GSTS_REG)
          pure (Reg32, decide (Reg32 &&& H.B_GSTS_REG_RTPS = 0))) P.fuel
        let _ ← MmioRead32 P ((← unitInfo i).VtdUnitBaseAddress + H.R_FEDATA_REG)
        FlushWriteBuffer H P i
        let _ ← InvalidateContextCache H P i
        let _ ← InvalidateIOTLB H P i
        let Reg32 ← MmioRead32 P ((← unitInfo i).VtdUnitBaseAddress + H.R_GSTS_REG)
        MmioWrite32 ((← unitInfo i).VtdUnitBaseAddress + H.R_GCMD_REG)
          (Reg32 ||| H.B_GMCD_REG_TE)
        let _ ← doWhile (do
          let Reg32 ← MmioRead32 P ((← unitInfo i).VtdUnitBaseAddress + H.R_GSTS_REG)
          pure (Reg32, decide (Reg32 &&& H.B_GSTS_REG_TE = 0))) P.fuel
        return () : M Unit) W = (Res.ok (), w') → EndsEnabled H i w' := by
    intro W hW
    obtain ⟨_, _, _, hW⟩ := bind_returns_inv hW
    obtain ⟨_, _, _, hW⟩ := bind_returns_inv hW
    obtain ⟨_, _, _, hW⟩ := bind_returns_inv hW
    obtain ⟨_, _, _, hW⟩ := bind_returns_inv hW
    obtain ⟨_, _, _, hW⟩ := bind_returns_inv hW
    obtain ⟨_, _, _, hW⟩ := bind_returns_inv hW
    obtain ⟨_, _, _, hW⟩ := bind_returns_inv hW
    obtain ⟨_, _, _, hW⟩ := bind_returns_inv hW
    obtain ⟨_, _, _, hW⟩ := bind_returns_inv hW
    obtain ⟨_, _, _, hW⟩ := bind_returns_inv hW
    exact htail _ hW
  dsimp only at h
  split at h
  · obtain ⟨_, _, _, h⟩ := bind_returns_inv h
    obtain ⟨_, _, _, h⟩ := bind_returns_inv h
    obtain ⟨_, _, _, h⟩ := bind_returns_inv h
    exact hrest _ h
  · obtain ⟨_, _, _, h⟩ := bind_returns_inv h
    obtain ⟨_, _, _, h⟩ := bind_returns_inv h
    obtain ⟨_, _, _, h⟩ := bind_returns_inv h
    exact hrest _ h

theorem forIndex_succ {σ : Type} (body : Nat → σ → M σ) (n : Nat) (s : σ) (w : World) :
    forIndex body (n + 1) s w = M.andThen (forIndex body n s w) (body n) := rfl

/-- When a `for` loop has returned, each of its passes has returned. -/
theorem forIndex_returns_below {σ : Type} (body : Nat → σ → M σ) :
    ∀ (n : Nat) (s : σ) (w : World) (s' : σ) (w' : World),
      forIndex body n s w = (Res.ok s', w') → ∀ k, k < n → ∃ sk wk sk' wk',
        forIndex body k s w = (Res.ok sk, wk) ∧ body k sk wk = (Res.ok sk', wk') ∧
        forIndex body (k + 1) s w = (Res.ok sk', wk') := by
  intro n
  induction n with
  | zero =>
    intro s w s' w' _ k hk
    exact absurd hk (Nat.not_lt_zero k)
  | succ n ih =>
    intro s w s' w' h k hk
    rw [forIndex_succ] at h
    rcases hn : forIndex body n s w with ⟨s1 | x, w1⟩
    · rw [hn, andThen_ok] at h
      by_cases hkn : k = n
      · subst hkn
        exact ⟨s1, w1, s', w', hn, h, by rw [forIndex_succ, hn, andThen_ok, h]⟩
      · exact ih s w s1 w1 hn k (by omega)
    · rw [hn, andThen_stop] at h
      cases h

/-- When the passes below `k` of a `for` loop do not return, the loop does not return, and
ends in the same world. -/
theorem forIndex_stop {σ : Type} (body : Nat → σ → M σ) (k : Nat) (s : σ) (w w' : World)
    (x : Stop) (h : forIndex body k s w = (Res.stop x, w')) :
    ∀ m, forIndex body (k + m) s w = (Res.stop x, w') := by
  intro m
  induction m with
  | zero => exact h
  | succ m ih =>
    show forIndex body (k + m + 1) s w = _
    rw [forIndex_succ, ih, andThen_stop]

theorem EnableDmar_run (H : VtdHeader) (P : Platform) (w : World) :
    EnableDmar H P w = M.andThen
      (forIndex (fun Index _ => EnableDmar.engine H P Index) w.mVtdUnitNumber () w)
      (fun _ => (do
        DisablePmr H P
        setVtdEnabled true
        return EFI_SUCCESS)) := rfl

/-- C15 (amended): `DisablePmr` after the enabling of all engines.  When the passes of
`EnableDmar` over all engines have gone through to the world `wn`: `EnableDmar` runs
`DisablePmr` from `wn`, and every one of those passes has returned in a world whose history
ends with the translation-enable write and its confirmation.  When the passes of `DisablePmr`
below the engine `k` have gone through to `wk`, the pass over `k` reads the capability register
`cap`; if both `PLMR` and `PHMR` are set in `cap` and the PMR-enable register then reads with
bit 0 set, the pass writes 0 to the PMR-enable register of the engine, and that is its only
register write; if one of `PLMR`, `PHMR` is zero, or bit 0 reads clear, the pass returns
without a register write.  A pass that does not return ends `DisablePmr` there. -/
theorem C15_disablePmr_after_enable (H : VtdHeader) (P : Platform) (w wn wk : World) (k : Nat)
    (hloop : forIndex (fun Index _ => EnableDmar.engine H P Index) w.mVtdUnitNumber () w
      = (Res.ok (), wn))
    (hk : k < wn.mVtdUnitNumber)
    (hbelow : forIndex (fun Index _ => DisablePmr.engine H P Index) k () wn = (Res.ok (), wk)) :
    let U := wk.mVtdUnitInformation k
    let cap := UINT64 (P.reg wk.trace 64 (U.VtdUnitBaseAddress + H.R_CAP_REG))
    let t1 := wk.trace ++ [Event.read64 (U.VtdUnitBaseAddress + H.R_CAP_REG) cap]
    let pm := UINT32 (P.reg t1 32 (U.VtdUnitBaseAddress + H.R_PMEN_ENABLE_REG))
    let r := DisablePmr.engine H P k wk
    EnableDmar H P w = M.andThen (DisablePmr H P wn) (fun _ => (do
      setVtdEnabled true
      return EFI_SUCCESS)) ∧
    (∀ j, j < w.mVtdUnitNumber → ∃ wj wj',
      forIndex (fun Index _ => EnableDmar.engine H P Index) j () w = (Res.ok (), wj) ∧
      EnableDmar.engine H P j wj = (Res.ok (), wj') ∧ EndsEnabled H j wj') ∧
    forIndex (fun Index _ => DisablePmr.engine H P Index) (k + 1) () wn = r ∧
    (∀ x, r.1 = Res.stop x → DisablePmr H P wn = (Res.stop x, r.2)) ∧
    (H.CapReg_PLMR cap ≠ 0 → H.CapReg_PHMR cap ≠ 0 → pm &&& BIT 0 ≠ 0 →
      registerWrites r.2.trace = registerWrites wk.trace
        ++ [Event.write32 (U.VtdUnitBaseAddress + H.R_PMEN_ENABLE_REG) 0]) ∧
    (H.CapReg_PLMR cap = 0 ∨ H.CapReg_PHMR cap = 0 ∨ pm &&& BIT 0 = 0 →
      r.1 = Res.ok () ∧ registerWrites r.2.trace = registerWrites wk.trace) := by
  intro U cap t1 pm r
  obtain ⟨h1, h2, h3⟩ := DisablePmr_engine_run H P k wk
  have hsucc : forIndex (fun Index _ => DisablePmr.engine H P Index) (k + 1) () wn = r := by
    rw [forIndex_succ, hbelow, andThen_ok]
  refine ⟨?_, ?_, hsucc, ?_, ?_, ?_⟩
  · rw [EnableDmar_run, hloop, andThen_ok]
    rfl
  · intro j hj
    obtain ⟨_, wj, _, wj', ha, hb, _⟩ := forIndex_returns_below _ _ _ _ _ _ hloop j hj
    exact ⟨wj, wj', ha, hb, EnableDmar_engine_confirmed H P j wj wj' hb⟩
  · intro x hx
    obtain ⟨m, hm⟩ : ∃ m, wn.mVtdUnitNumber = k + 1 + m := ⟨wn.mVtdUnitNumber - (k + 1), by omega⟩
    show forIndex (fun Index _ => DisablePmr.engine H P Index) wn.mVtdUnitNumber () wn = _
    rw [hm]
    exact forIndex_stop _ (k + 1) () wn r.2 x (by rw [hsucc]; exact Prod.ext hx rfl) m
  · intro hl hh hp
    obtain ⟨ext, e1, e2, _⟩ := h3 (by
      intro hc
      rcases hc with hc | hc
      · exact hl hc
      · exact hh hc) hp
    have e1' : r.2 = _ := e1
    rw [e1']
    simp [registerWrites_append, registerWrites_reads32 _ ext e2, registerWrites_cons,
      registerWrites_nil, Event.isWrite, t1, U]
  · intro hc
    by_cases hcap : H.CapReg_PLMR cap = 0 ∨ H.CapReg_PHMR cap = 0
    · have hr : r = _ := h1 hcap
      rw [hr]
      refine ⟨rfl, ?_⟩
      simp [registerWrites_append, registerWrites_cons, registerWrites_nil, Event.isWrite]
    · have hp : pm &&& BIT 0 = 0 := by
        rcases hc with hc | hc | hc
        · exact absurd (Or.inl hc) hcap
        · exact absurd (Or.inr hc) hcap
        · exact hc
      have hr : r = _ := h2 hcap hp
      rw [hr]
      refine ⟨rfl, ?_⟩
      simp [registerWrites_append, registerWrites_cons, registerWrites_nil, Event.isWrite]

/-- One engine whose capability register reads with `PLMR` set and `PHMR` clear (`0x21`) and
whose PMR-enable register reads with bit 0 set: `DisablePmr` reads the capability register
and returns; it writes no register. -/
theorem C15_counterexample :
    vtdHeader.CapReg_PLMR (UINT64 ((constPlatform 0x21 0 0).reg [] 64 0x08)) ≠ 0 ∧
    UINT32 ((constPlatform 0x21 0 0).reg [Event.read64 0x08 0x21] 32 0x64) &&& BIT 0 ≠ 0 ∧
    DisablePmr vtdHeader (constPlatform 0x21 0 0) (oneUnitWorld zeroUnit false)
      = (Res.ok (), { oneUnitWorld zeroUnit false with trace := [Event.read64 0x08 0x21] }) ∧
    registerWrites (DisablePmr vtdHeader (constPlatform 0x21 0 0)
      (oneUnitWorld zeroUnit false)).2.trace = [] := by
  refine ⟨by decide, by decide, ?_, ?_⟩
  · rfl
  · rfl

/-- One Register-Based engine on `promptPlatform`: the passes of `EnableDmar` go through, and
`EnableDmar` runs `DisablePmr` from the world they reach. -/
theorem C15_disablePmr_after_enable_witness :
    ∃ wn,
      forIndex (fun Index _ => EnableDmar.engine vtdHeader (promptPlatform 0 0 0 0 0) Index)
        1 () (oneUnitWorld zeroUnit false) = (Res.ok (), wn) ∧
      EnableDmar vtdHeader (promptPlatform 0 0 0 0 0) (oneUnitWorld zeroUnit false)
        = M.andThen (DisablePmr vtdHeader (promptPlatform 0 0 0 0 0) wn) (fun _ => (do
          setVtdEnabled true
          return EFI_SUCCESS)) := by
  obtain ⟨_, wn, hrun, ext, hwn, _⟩ := returns_EnableDmar_loop vtdHeader
    (promptPlatform 0 0 0 0 0) (oneUnitWorld zeroUnit false) (fun _ _ => rfl)
    (fun _ _ => promptPlatform_answersEnable 0 0 _ rfl rfl rfl)
  have hk : 0 < wn.mVtdUnitNumber := by
    rw [hwn]
    exact Nat.one_pos
  exact ⟨wn, hrun, (C15_disablePmr_after_enable vtdHeader (promptPlatform 0 0 0 0 0)
    (oneUnitWorld zeroUnit false) wn wn 0 hrun hk rfl).1⟩

/-! ## The fault monitor -/

theorem clearBits_testBit (cur v i : Nat) :
    (clearBits cur v).testBit i = (cur.testBit i && !v.testBit i) := by
  simp only [clearBits, Nat.testBit_xor, Nat.testBit_and]
  cases cur.testBit i <;> cases v.testBit i <;> rfl

/-- Writing back to a write-1-to-clear register the 64 bits read from it leaves them zero. -/
theorem UINT64_clearBits_self (cur : Nat) : UINT64 (clearBits cur (UINT64 cur)) = 0 := by
  apply Nat.eq_of_testBit_eq
  intro i
  simp only [UINT64, Nat.testBit_mod_two_pow, clearBits_testBit, Nat.zero_testBit]
  by_cases h : i < 64 <;> cases cur.testBit i <;> simp [h]

/-- Writing back to a write-1-to-clear register the 32 bits read from it leaves them zero. -/
theorem UINT32_clearBits_self (cur : Nat) : UINT32 (clearBits cur (UINT32 cur)) = 0 := by
  apply Nat.eq_of_testBit_eq
  intro i
  simp only [UINT32, Nat.testBit_mod_two_pow, clearBits_testBit, Nat.zero_testBit]
  by_cases h : i < 32 <;> cases cur.testBit i <;> simp [h]

theorem w1cValue_append (init : Nat → Nat) (t u : List Event) (A : Nat) :
    w1cValue init (t ++ u) A = u.foldl (fun cur e =>
      match e with
      | Event.write32 a v => if a = A then clearBits cur v else cur
      | Event.write64 a v => if a = A then clearBits cur v else cur
      | _ => cur) (w1cValue init t A) := by
  simp only [w1cValue, List.foldl_append]

/-- A history that writes only to addresses in `S` leaves a register outside `S` as it was. -/
theorem w1cValue_frame (init : Nat → Nat) (S : Nat → Prop) (A : Nat) (hA : ¬ S A)
    (u : List Event) : ∀ t, WritesOnly S u → w1cValue init (t ++ u) A = w1cValue init t A := by
  induction u with
  | nil => intro t _; simp
  | cons e u ih =>
    intro t h
    have h1 : w1cValue init (t ++ [e]) A = w1cValue init t A := by
      rw [w1cValue_append]
      have he := h e (List.mem_cons_self e u)
      cases e with
      | write32 a v =>
        have : a ≠ A := fun hh => hA (hh ▸ he.1 a v rfl)
        simp [this]
      | write64 a v =>
        have : a ≠ A := fun hh => hA (hh ▸ he.2 a v rfl)
        simp [this]
      | _ => rfl
    have h2 := ih (t ++ [e]) (fun e' he' => h e' (List.mem_cons_of_mem e he'))
    rw [List.append_assoc, List.singleton_append] at h2
    rw [h2, h1]

theorem w1cValue_write64 (init : Nat → Nat) (t : List Event) (A v : Nat) :
    w1cValue init (t ++ [Event.write64 A v]) A = clearBits (w1cValue init t A) v := by
  rw [w1cValue_append]
  simp

theorem w1cValue_write32 (init : Nat → Nat) (t : List Event) (A v : Nat) :
    w1cValue init (t ++ [Event.write32 A v]) A = clearBits (w1cValue init t A) v := by
  rw [w1cValue_append]
  simp

theorem writesOnly_nil (S : Nat → Prop) : WritesOnly S [] := by
  intro e he
  cases he

theorem writesOnly_append {S : Nat → Prop} {a b : List Event} (ha : WritesOnly S a)
    (hb : WritesOnly S b) : WritesOnly S (a ++ b) := by
  intro e he
  rcases List.mem_append.mp he with he | he
  · exact ha e he
  · exact hb e he

theorem writesOnly_mono {S T : Nat → Prop} {a : List Event} (ha : WritesOnly S a)
    (h : ∀ A, S A → T A) : WritesOnly T a := by
  intro e he
  exact ⟨fun x v hx => h _ ((ha e he).1 x v hx), fun x v hx => h _ ((ha e he).2 x v hx)⟩

/-- A history of reads writes nowhere. -/
theorem writesOnly_of_reads {S : Nat → Prop} {a : List Event} (ha : a.all Event.isRead = true) :
    WritesOnly S a := by
  rw [List.all_eq_true] at ha
  intro e he
  have := ha e he
  constructor
  · rintro x v rfl
    cases this
  · rintro x v rfl
    cases this

theorem writesOnly_write64 {S : Nat → Prop} {A v : Nat} (h : S A) :
    WritesOnly S [Event.write64 A v] := by
  intro e he
  rw [List.mem_singleton] at he
  subst he
  constructor
  · intro x v' hx
    cases hx
  · intro x v' hx
    cases hx
    exact h

theorem writesOnly_write32 {S : Nat → Prop} {A v : Nat} (h : S A) :
    WritesOnly S [Event.write32 A v] := by
  intro e he
  rw [List.mem_singleton] at he
  subst he
  constructor
  · intro x v' hx
    cases hx
    exact h
  · intro x v' hx
    cases hx

theorem registerWrites_of_reads (a : List Event) (ha : a.all Event.isRead = true) :
    registerWrites a = [] := by
  rw [List.all_eq_true] at ha
  simp only [registerWrites, List.filter_eq_nil_iff]
  intro e he
  have := ha e he
  cases e <;> simp_all [Event.isRead, Event.isWrite]

theorem reports_append (t u : List Event) : reports (t ++ u) = reports t + reports u := by
  simp [reports]

theorem reports_of_reads (a : List Event) (ha : a.all Event.isRead = true) : reports a = 0 := by
  rw [List.all_eq_true] at ha
  simp only [reports, List.count_eq_zero]
  intro he
  have := ha _ he
  cases this

theorem anyFaultRecord_iff (H : VtdHeader) (ρ : Nat → Nat) (Base CapReg : Nat) (n : Nat) :
    anyFaultRecord H ρ Base CapReg n = true
      ↔ ∃ k, k < n ∧ H.FrcdReg_F (UINT64 (ρ (frcdHigh H Base CapReg k))) ≠ 0 := by
  induction n with
  | zero => simp [anyFaultRecord]
  | succ n ih =>
    simp only [anyFaultRecord, Bool.or_eq_true, ih, decide_eq_true_eq]
    constructor
    · rintro (⟨k, hk, h⟩ | h)
      · exact ⟨k, Nat.lt_succ_of_lt hk, h⟩
      · exact ⟨n, Nat.lt_succ_self n, h⟩
    · rintro ⟨k, hk, h⟩
      by_cases hkn : k = n
      · subst hkn
        exact Or.inr h
      · exact Or.inl ⟨k, by omega, h⟩

theorem frcdHigh_injective (H : VtdHeader) (Base CapReg k l : Nat)
    (h : frcdHigh H Base CapReg k = frcdHigh H Base CapReg l) : k = l := by
  unfold frcdHigh at h
  omega

theorem writesOnly_read64 {S : Nat → Prop} {A v : Nat} : WritesOnly S [Event.read64 A v] :=
  writesOnly_of_reads rfl

theorem writesOnly_read32 {S : Nat → Prop} {A v : Nat} : WritesOnly S [Event.read32 A v] :=
  writesOnly_of_reads rfl

theorem all_isRead_append (a b : List Event) (ha : a.all Event.isRead = true)
    (hb : b.all Event.isRead = true) : (a ++ b).all Event.isRead = true := by
  rw [List.all_append, ha, hb]
  rfl

theorem readsOnly_bind {α β : Type} {m : M α} {f : α → M β} (hm : ReadsOnly m)
    (hf : ∀ a, ReadsOnly (f a)) : ReadsOnly (m >>= f) := by
  intro w
  apply returns_bind
  refine returns_mono (hm w) ?_
  rintro a _ ⟨ext, rfl, hext⟩
  refine returns_mono (hf a _) ?_
  rintro b _ ⟨ext', rfl, hext'⟩
  exact ⟨ext ++ ext', by simp, all_isRead_append _ _ hext hext'⟩

theorem readsOnly_pure {α : Type} (a : α) : ReadsOnly (pure a : M α) :=
  fun w => ⟨a, w, rfl, [], by simp, rfl⟩

theorem readsOnly_unitInfo (i : Nat) : ReadsOnly (unitInfo i) :=
  fun w => ⟨_, w, rfl, [], by simp, rfl⟩

theorem readsOnly_read32 (P : Platform) (A : Nat) : ReadsOnly (MmioRead32 P A) :=
  fun _ => ⟨_, _, rfl, _, rfl, rfl⟩

theorem readsOnly_read64 (P : Platform) (A : Nat) : ReadsOnly (MmioRead64 P A) :=
  fun _ => ⟨_, _, rfl, _, rfl, rfl⟩

theorem readsOnly_forIndex {σ : Type} (body : Nat → σ → M σ)
    (hbody : ∀ k s, ReadsOnly (body k s)) : ∀ n s, ReadsOnly (forIndex body n s) := by
  intro n
  induction n with
  | zero => intro s; exact readsOnly_pure s
  | succ n ih => intro s; exact readsOnly_bind (ih s) (fun a => hbody n a)

/-- `DumpVtdRegs` returns, on every platform, after register reads only. -/
theorem readsOnly_DumpVtdRegs (H : VtdHeader) (P : Platform) (i : Nat) :
    ReadsOnly (DumpVtdRegs H P i) := by
  unfold DumpVtdRegs
  repeat (first
    | apply readsOnly_bind
    | apply readsOnly_forIndex
    | apply readsOnly_read32
    | apply readsOnly_read64
    | apply readsOnly_unitInfo
    | apply readsOnly_pure
    | intro _)

/-- Reads leave every register of the write-1-to-clear register file as it was. -/
theorem w1cValue_reads (init : Nat → Nat) (t ext : List Event) (A : Nat)
    (h : ext.all Event.isRead = true) : w1cValue init (t ++ ext) A = w1cValue init t A :=
  w1cValue_frame init (fun _ => False) A (fun h => h) ext t (writesOnly_of_reads h)

theorem w1cPlatform_reg (init : Nat → Nat) (fuel : Nat) (t : List Event) (width A : Nat) :
    (w1cPlatform init fuel).reg t width A = w1cValue init t A := rfl

/-- The first loop over the fault recording registers in `DumpVtdIfError`, on the
write-1-to-clear register file: it returns after reads only, and `HasError` is set when it was
set before or one of the registers has its valid bit set. -/
theorem returns_scan (H : VtdHeader) (init : Nat → Nat) (fuel : Nat) (j cap n : Nat) (s : Bool)
    (W : World) :
    Returns (forIndex (DumpVtdIfError.scan H (w1cPlatform init fuel) j cap) n s)
      (fun s' W' => ∃ ext, W' = { W with trace := W.trace ++ ext } ∧
        ext.all Event.isRead = true ∧
        s' = (s || anyFaultRecord H (w1cValue init W.trace)
          (W.mVtdUnitInformation j).VtdUnitBaseAddress cap n)) W := by
  refine returns_forIndex _
    (fun k s' W' => ∃ ext, W' = { W with trace := W.trace ++ ext } ∧
      ext.all Event.isRead = true ∧
      s' = (s || anyFaultRecord H (w1cValue init W.trace)
        (W.mVtdUnitInformation j).VtdUnitBaseAddress cap k))
    n s W ⟨[], by simp, rfl, by simp [anyFaultRecord]⟩ ?_
  rintro k _ s' _ ⟨ext, rfl, hext, rfl⟩
  unfold DumpVtdIfError.scan
  apply returns_bind
  apply returns_unitInfo
  apply returns_bind
  apply returns_read64
  dsimp only
  apply returns_bind
  apply returns_unitInfo
  apply returns_bind
  apply returns_read64
  dsimp only
  have hval : w1cValue init (W.trace ++ ext ++ [Event.read64
      ((W.mVtdUnitInformation j).VtdUnitBaseAddress
        + (H.CapReg_FRO cap * 16 + k * 16 + H.R_FRCD_REG))
      (UINT64 ((w1cPlatform init fuel).reg (W.trace ++ ext) 64
        ((W.mVtdUnitInformation j).VtdUnitBaseAddress
          + (H.CapReg_FRO cap * 16 + k * 16 + H.R_FRCD_REG))))])
      (frcdHigh H (W.mVtdUnitInformation j).VtdUnitBaseAddress cap k)
      = w1cValue init W.trace (frcdHigh H (W.mVtdUnitInformation j).VtdUnitBaseAddress cap k) := by
    rw [List.append_assoc]
    exact w1cValue_reads init _ _ _ (all_isRead_append _ _ hext rfl)
  rw [w1cPlatform_reg init fuel _ 64 (frcdHigh H _ cap k), hval]
  by_cases hF : H.FrcdReg_F (UINT64 (w1cValue init W.trace
      (frcdHigh H (W.mVtdUnitInformation j).VtdUnitBaseAddress cap k))) ≠ 0
  · rw [if_pos hF]
    apply returns_pure
    simp only [List.append_assoc]
    refine ⟨_, rfl, all_isRead_append _ _ hext rfl, ?_⟩
    simp [anyFaultRecord, hF]
  · rw [if_neg hF]
    apply returns_pure
    simp only [List.append_assoc]
    refine ⟨_, rfl, all_isRead_append _ _ hext rfl, ?_⟩
    simp [anyFaultRecord, hF]

theorem reports_nil : reports [] = 0 := rfl

theorem reports_cons (e : Event) (t : List Event) :
    reports (e :: t) = reports t + (if e = Event.reportStatusCode then 1 else 0) := by
  simp only [reports, List.count_cons, beq_iff_eq]

/-- The second loop ("Clear") over the fault recording registers in `DumpVtdIfError`, on the
write-1-to-clear register file: it returns, writes only to the upper halves of the registers,
reports nothing, and leaves the valid bit of every one of the registers clear. -/
theorem returns_clear (H : VtdHeader) (init : Nat → Nat) (fuel : Nat) (j cap n : Nat)
    (W : World) (hF0 : H.FrcdReg_F 0 = 0) :
    Returns (forIndex (fun Index _ => DumpVtdIfError.clear H (w1cPlatform init fuel) j cap Index)
        n ())
      (fun _ W' => ∃ ext, W' = { W with trace := W.trace ++ ext } ∧
        WritesOnly (fun A => ∃ k, k < n ∧
          A = frcdHigh H (W.mVtdUnitInformation j).VtdUnitBaseAddress cap k) ext ∧
        reports ext = 0 ∧
        ∀ k, k < n → H.FrcdReg_F (UINT64 (w1cValue init (W.trace ++ ext)
          (frcdHigh H (W.mVtdUnitInformation j).VtdUnitBaseAddress cap k))) = 0) W := by
  refine returns_forIndex _
    (fun m _ W' => ∃ ext, W' = { W with trace := W.trace ++ ext } ∧
      WritesOnly (fun A => ∃ k, k < m ∧
        A = frcdHigh H (W.mVtdUnitInformation j).VtdUnitBaseAddress cap k) ext ∧
      reports ext = 0 ∧
      ∀ k, k < m → H.FrcdReg_F (UINT64 (w1cValue init (W.trace ++ ext)
        (frcdHigh H (W.mVtdUnitInformation j).VtdUnitBaseAddress cap k))) = 0)
    n () W ⟨[], by simp, writesOnly_nil _, rfl, fun k hk => absurd hk (Nat.not_lt_zero k)⟩ ?_
  rintro m _ _ _ ⟨ext, rfl, hw, hr, hclean⟩
  have hmono : WritesOnly (fun A => ∃ k, k < m + 1 ∧
      A = frcdHigh H (W.mVtdUnitInformation j).VtdUnitBaseAddress cap k) ext :=
    writesOnly_mono hw (fun A ⟨k, hk, hA⟩ => ⟨k, Nat.lt_succ_of_lt hk, hA⟩)
  unfold DumpVtdIfError.clear
  apply returns_bind
  apply returns_unitInfo
  apply returns_bind
  apply returns_read64
  dsimp only
  rw [w1cPlatform_reg]
  generalize hx : w1cValue init (W.trace ++ ext)
    (frcdHigh H (W.mVtdUnitInformation j).VtdUnitBaseAddress cap m) = x
  by_cases hF : H.FrcdReg_F (UINT64 x) ≠ 0
  · rw [if_pos hF]
    apply returns_bind
    apply returns_unitInfo
    apply returns_write64
    dsimp only
    simp only [List.append_assoc, UINT64_UINT64]
    refine ⟨_, rfl, ?_, ?_, ?_⟩
    · refine writesOnly_append hmono (writesOnly_append writesOnly_read64 ?_)
      exact writesOnly_write64 ⟨m, Nat.lt_succ_self m, rfl⟩
    · simp [reports_append, hr, reports_cons, reports_nil]
    · intro k hk
      by_cases hkm : k = m
      · subst hkm
        have : w1cValue init (W.trace ++ (ext ++
            ([Event.read64 (frcdHigh H (W.mVtdUnitInformation j).VtdUnitBaseAddress cap k)
                (UINT64 x)] ++
              [Event.write64 (frcdHigh H (W.mVtdUnitInformation j).VtdUnitBaseAddress cap k)
                (UINT64 x)])))
            (frcdHigh H (W.mVtdUnitInformation j).VtdUnitBaseAddress cap k)
            = clearBits x (UINT64 x) := by
          rw [← List.append_assoc, ← List.append_assoc, w1cValue_write64,
            w1cValue_reads init _ _ _ (by rfl), hx]
        rw [this, UINT64_clearBits_self]
        exact hF0
      · have hne : ¬ frcdHigh H (W.mVtdUnitInformation j).VtdUnitBaseAddress cap k
            = frcdHigh H (W.mVtdUnitInformation j).VtdUnitBaseAddress cap m :=
          fun h => hkm (frcdHigh_injective H _ cap k m h)
        have : w1cValue init (W.trace ++ (ext ++
            ([Event.read64 (frcdHigh H (W.mVtdUnitInformation j).VtdUnitBaseAddress cap m)
                (UINT64 x)] ++
              [Event.write64 (frcdHigh H (W.mVtdUnitInformation j).VtdUnitBaseAddress cap m)
                (UINT64 x)])))
            (frcdHigh H (W.mVtdUnitInformation j).VtdUnitBaseAddress cap k)
            = w1cValue init (W.trace ++ ext)
              (frcdHigh H (W.mVtdUnitInformation j).VtdUnitBaseAddress cap k) := by
          rw [← List.append_assoc]
          exact w1cValue_frame init
            (fun A => A = frcdHigh H (W.mVtdUnitInformation j).VtdUnitBaseAddress cap m)
            (frcdHigh H (W.mVtdUnitInformation j).VtdUnitBaseAddress cap k) hne _ _
            (writesOnly_append writesOnly_read64 (writesOnly_write64 rfl))
        rw [this]
        exact hclean k (by omega)
  · rw [if_neg hF]
    apply returns_pure
    simp only [List.append_assoc]
    refine ⟨_, rfl, writesOnly_append hmono writesOnly_read64, ?_, ?_⟩
    · simp [reports_append, hr, reports_cons, reports_nil]
    · intro k hk
      rw [← List.append_assoc, w1cValue_reads init _ _ _ (by rfl)]
      by_cases hkm : k = m
      · subst hkm
        rw [hx]
        exact not_not.mp hF
      · exact hclean k (by omega)

/-- What `DumpVtdIfError` does for an engine with `HasError` set, on the write-1-to-clear
register file: it returns, reports once, writes only to the fault registers of the engine, and
leaves its fault-status register zero and the valid bits of its fault recording registers
clear. -/
theorem returns_reportPart (H : VtdHeader) (init : Nat → Nat) (fuel : Nat) (j cap : Nat)
    (W : World) (hF0 : H.FrcdReg_F 0 = 0)
    (hsep : ∀ k, k < frcdCount H cap →
      frcdHigh H (W.mVtdUnitInformation j).VtdUnitBaseAddress cap k
        ≠ (W.mVtdUnitInformation j).VtdUnitBaseAddress + H.R_FSTS_REG) :
    Returns (DumpVtdIfError.report H (w1cPlatform init fuel) j cap)
      (fun _ W' => ∃ ext, W' = { W with trace := W.trace ++ ext } ∧
        WritesOnly (fun A => A = (W.mVtdUnitInformation j).VtdUnitBaseAddress + H.R_FSTS_REG ∨
          ∃ k, k < frcdCount H cap ∧
            A = frcdHigh H (W.mVtdUnitInformation j).VtdUnitBaseAddress cap k) ext ∧
        reports ext = 1 ∧
        UINT32 (w1cValue init (W.trace ++ ext)
          ((W.mVtdUnitInformation j).VtdUnitBaseAddress + H.R_FSTS_REG)) = 0 ∧
        ∀ k, k < frcdCount H cap → H.FrcdReg_F (UINT64 (w1cValue init (W.trace ++ ext)
          (frcdHigh H (W.mVtdUnitInformation j).VtdUnitBaseAddress cap k))) = 0) W := by
  unfold DumpVtdIfError.report
  apply returns_bind
  apply returns_report
  apply returns_bind
  refine returns_mono (readsOnly_DumpVtdRegs H (w1cPlatform init fuel) j _) ?_
  rintro _ _ ⟨extd, rfl, hextd⟩
  dsimp only
  apply returns_bind
  refine returns_mono (returns_clear H init fuel j cap (frcdCount H cap) _ hF0) ?_
  rintro _ _ ⟨extc, rfl, hwc, hrc, hclean⟩
  dsimp only at hwc hclean ⊢
  apply returns_bind
  apply returns_unitInfo
  apply returns_bind
  apply returns_read32
  dsimp only
  rw [w1cPlatform_reg]
  generalize hx : w1cValue init (W.trace ++ [Event.reportStatusCode] ++ extd ++ extc)
    ((W.mVtdUnitInformation j).VtdUnitBaseAddress + H.R_FSTS_REG) = x
  apply returns_bind
  apply returns_unitInfo
  apply returns_write32
  dsimp only
  simp only [UINT32_UINT32]
  refine ⟨[Event.reportStatusCode] ++ extd ++ extc
    ++ [Event.read32 ((W.mVtdUnitInformation j).VtdUnitBaseAddress + H.R_FSTS_REG) (UINT32 x)]
    ++ [Event.write32 ((W.mVtdUnitInformation j).VtdUnitBaseAddress + H.R_FSTS_REG) (UINT32 x)],
    by simp, ?_, ?_, ?_, ?_⟩
  · refine writesOnly_append (writesOnly_append (writesOnly_append (writesOnly_append ?_ ?_) ?_)
      writesOnly_read32) (writesOnly_write32 (Or.inl rfl))
    · intro e he
      rw [List.mem_singleton] at he
      subst he
      exact ⟨fun a v h => (by cases h), fun a v h => (by cases h)⟩
    · exact writesOnly_of_reads hextd
    · exact writesOnly_mono hwc (fun A h => Or.inr h)
  · simp [reports_append, reports_cons, reports_nil, hrc, reports_of_reads _ hextd]
  · have : W.trace ++ ([Event.reportStatusCode] ++ extd ++ extc
        ++ [Event.read32 ((W.mVtdUnitInformation j).VtdUnitBaseAddress + H.R_FSTS_REG) (UINT32 x)]
        ++ [Event.write32 ((W.mVtdUnitInformation j).VtdUnitBaseAddress + H.R_FSTS_REG)
          (UINT32 x)])
        = (W.trace ++ [Event.reportStatusCode] ++ extd ++ extc
          ++ [Event.read32 ((W.mVtdUnitInformation j).VtdUnitBaseAddress + H.R_FSTS_REG)
            (UINT32 x)])
          ++ [Event.write32 ((W.mVtdUnitInformation j).VtdUnitBaseAddress + H.R_FSTS_REG)
            (UINT32 x)] := by
      simp
    rw [this, w1cValue_write32, w1cValue_reads init _ _ _ (by rfl), hx, UINT32_clearBits_self]
  · intro k hk
    have : W.trace ++ ([Event.reportStatusCode] ++ extd ++ extc
        ++ [Event.read32 ((W.mVtdUnitInformation j).VtdUnitBaseAddress + H.R_FSTS_REG) (UINT32 x)]
        ++ [Event.write32 ((W.mVtdUnitInformation j).VtdUnitBaseAddress + H.R_FSTS_REG)
          (UINT32 x)])
        = (W.trace ++ [Event.reportStatusCode] ++ extd ++ extc)
          ++ ([Event.read32 ((W.mVtdUnitInformation j).VtdUnitBaseAddress + H.R_FSTS_REG)
            (UINT32 x)]
          ++ [Event.write32 ((W.mVtdUnitInformation j).VtdUnitBaseAddress + H.R_FSTS_REG)
            (UINT32 x)]) := by
      simp
    rw [this, w1cValue_frame init
      (fun A => A = (W.mVtdUnitInformation j).VtdUnitBaseAddress + H.R_FSTS_REG)
      _ (hsep k hk) _ _ (writesOnly_append writesOnly_read32 (writesOnly_write32 rfl))]
    exact hclean k hk

theorem w1cValue_reads_fun (init : Nat → Nat) (t ext : List Event)
    (h : ext.all Event.isRead = true) : w1cValue init (t ++ ext) = w1cValue init t :=
  funext (fun A => w1cValue_reads init t ext A h)

/-- The pass of `DumpVtdIfError` over an engine, on the write-1-to-clear register file: it
returns and writes only to the fault registers of the engine; when `HasError` is not set it
only reads; when it is set it reports once and leaves the fault-status register zero and the
valid bits of the fault recording registers clear. -/
theorem returns_DumpVtdIfError_engine (H : VtdHeader) (init : Nat → Nat) (fuel : Nat) (j : Nat)
    (W : World) (hF0 : H.FrcdReg_F 0 = 0)
    (hsep : ∀ k, k < frcdCount H (UINT64 (w1cValue init W.trace
        ((W.mVtdUnitInformation j).VtdUnitBaseAddress + H.R_CAP_REG))) →
      frcdHigh H (W.mVtdUnitInformation j).VtdUnitBaseAddress
        (UINT64 (w1cValue init W.trace
          ((W.mVtdUnitInformation j).VtdUnitBaseAddress + H.R_CAP_REG))) k
        ≠ (W.mVtdUnitInformation j).VtdUnitBaseAddress + H.R_FSTS_REG) :
    Returns (DumpVtdIfError.engine H (w1cPlatform init fuel) j)
      (fun _ W' => ∃ ext, W' = { W with trace := W.trace ++ ext } ∧
        WritesOnly (IsFaultRegister H (w1cValue init W.trace) (W.mVtdUnitInformation j)) ext ∧
        (hasError H (w1cValue init W.trace) (W.mVtdUnitInformation j) = false →
          ext.all Event.isRead = true) ∧
        (hasError H (w1cValue init W.trace) (W.mVtdUnitInformation j) = true →
          reports ext = 1 ∧
          UINT32 (w1cValue init (W.trace ++ ext)
            ((W.mVtdUnitInformation j).VtdUnitBaseAddress + H.R_FSTS_REG)) = 0 ∧
          ∀ k, k < frcdCount H (UINT64 (w1cValue init W.trace
              ((W.mVtdUnitInformation j).VtdUnitBaseAddress + H.R_CAP_REG))) →
            H.FrcdReg_F (UINT64 (w1cValue init (W.trace ++ ext)
              (frcdHigh H (W.mVtdUnitInformation j).VtdUnitBaseAddress
                (UINT64 (w1cValue init W.trace
                  ((W.mVtdUnitInformation j).VtdUnitBaseAddress + H.R_CAP_REG))) k))) = 0)) W := by
  unfold DumpVtdIfError.engine
  dsimp only
  apply returns_bind
  apply returns_unitInfo
  apply returns_bind
  apply returns_read32
  dsimp only
  rw [w1cPlatform_reg]
  apply returns_bind
  apply returns_unitInfo
  apply returns_bind
  apply returns_read32
  dsimp only
  rw [w1cPlatform_reg, w1cValue_reads init _ _ _ (by rfl)]
  apply returns_bind
  apply returns_unitInfo
  apply returns_bind
  apply returns_read64
  dsimp only
  rw [w1cPlatform_reg, List.append_assoc, w1cValue_reads init _ _ _ (by rfl)]
  generalize hfsts : UINT32 (w1cValue init W.trace
    ((W.mVtdUnitInformation j).VtdUnitBaseAddress + H.R_FSTS_REG)) = fsts
  generalize hfectl : UINT32 (w1cValue init W.trace
    ((W.mVtdUnitInformation j).VtdUnitBaseAddress + H.R_FECTL_REG)) = fectl
  generalize hcap : UINT64 (w1cValue init W.trace
    ((W.mVtdUnitInformation j).VtdUnitBaseAddress + H.R_CAP_REG)) = cap at hsep ⊢
  have hread : ([Event.read32 ((W.mVtdUnitInformation j).VtdUnitBaseAddress + H.R_FSTS_REG) fsts]
      ++ [Event.read32 ((W.mVtdUnitInformation j).VtdUnitBaseAddress + H.R_FECTL_REG) fectl]
      ++ [Event.read64 ((W.mVtdUnitInformation j).VtdUnitBaseAddress + H.R_CAP_REG) cap]).all
        Event.isRead = true := rfl
  apply returns_bind
  refine returns_mono (returns_scan H init fuel j cap (frcdCount H cap) _ _) ?_
  rintro s' _ ⟨exts, rfl, hexts, rfl⟩
  dsimp only
  simp only [List.append_assoc] at hread ⊢
  rw [w1cValue_reads_fun init W.trace _ hread]
  have herr : hasError H (w1cValue init W.trace) (W.mVtdUnitInformation j)
      = ((if fectl &&& BIT 30 ≠ 0 then true else if fsts ≠ 0 then true else false)
        || anyFaultRecord H (w1cValue init W.trace)
          (W.mVtdUnitInformation j).VtdUnitBaseAddress cap (frcdCount H cap)) := by
    unfold hasError
    rw [hfsts, hfectl, hcap]
    by_cases h1 : fsts ≠ 0 <;> by_cases h2 : fectl &&& BIT 30 ≠ 0 <;> simp [h1, h2]
  rw [herr]
  have hall : ([Event.read32 ((W.mVtdUnitInformation j).VtdUnitBaseAddress + H.R_FSTS_REG) fsts]
      ++ ([Event.read32 ((W.mVtdUnitInformation j).VtdUnitBaseAddress + H.R_FECTL_REG) fectl]
      ++ ([Event.read64 ((W.mVtdUnitInformation j).VtdUnitBaseAddress + H.R_CAP_REG) cap]
      ++ exts))).all Event.isRead = true := by
    simpa [Event.isRead] using hexts
  generalize hE : ([Event.read32 ((W.mVtdUnitInformation j).VtdUnitBaseAddress + H.R_FSTS_REG) fsts]
      ++ ([Event.read32 ((W.mVtdUnitInformation j).VtdUnitBaseAddress + H.R_FECTL_REG) fectl]
      ++ ([Event.read64 ((W.mVtdUnitInformation j).VtdUnitBaseAddress + H.R_CAP_REG) cap]
      ++ exts))) = E at hall ⊢
  generalize ((if fectl &&& BIT 30 ≠ 0 then true else if fsts ≠ 0 then true else false)
    || anyFaultRecord H (w1cValue init W.trace)
      (W.mVtdUnitInformation j).VtdUnitBaseAddress cap (frcdCount H cap)) = b
  cases b
  · simp only [Bool.false_eq_true, if_false]
    apply returns_pure
    exact ⟨E, rfl, writesOnly_of_reads hall, fun _ => hall, fun h => (by cases h)⟩
  · simp only [if_true]
    refine returns_mono (returns_reportPart H init fuel j cap _ hF0 hsep) ?_
    rintro _ _ ⟨extr, rfl, hwr, hrr, hfr, hcr⟩
    dsimp only at hwr hfr hcr ⊢
    refine ⟨E ++ extr, by simp, ?_, fun h => (by cases h), fun _ => ⟨?_, ?_, ?_⟩⟩
    · refine writesOnly_append (writesOnly_of_reads hall) (writesOnly_mono hwr ?_)
      rintro A (hA | ⟨k, hk, hA⟩)
      · exact Or.inl hA
      · exact Or.inr ⟨k, by rw [hcap]; exact hk, by rw [hcap]; exact hA⟩
    · rw [reports_append, reports_of_reads _ hall, hrr]
    · rw [← List.append_assoc]
      exact hfr
    · intro k hk
      rw [← List.append_assoc]
      exact hcr k hk

theorem anyFaultRecord_congr (H : VtdHeader) (ρ ρ' : Nat → Nat) (Base CapReg : Nat) :
    ∀ n, (∀ k, k < n → ρ (frcdHigh H Base CapReg k) = ρ' (frcdHigh H Base CapReg k)) →
      anyFaultRecord H ρ Base CapReg n = anyFaultRecord H ρ' Base CapReg n := by
  intro n
  induction n with
  | zero => intro _; rfl
  | succ n ih =>
    intro h
    simp only [anyFaultRecord]
    rw [ih (fun k hk => h k (Nat.lt_succ_of_lt hk)), h n (Nat.lt_succ_self n)]

/-- Whether an engine has a fault to clear depends on its capability register and its fault
registers only. -/
theorem hasFault_congr (H : VtdHeader) (ρ ρ' : Nat → Nat) (U : VTD_UNIT_INFORMATION)
    (hcap : ρ (U.VtdUnitBaseAddress + H.R_CAP_REG) = ρ' (U.VtdUnitBaseAddress + H.R_CAP_REG))
    (hreg : ∀ A, IsFaultRegister H ρ U A → ρ A = ρ' A) :
    hasFault H ρ U = hasFault H ρ' U := by
  unfold hasFault
  rw [← hcap, ← hreg _ (Or.inl rfl)]
  congr 1
  exact anyFaultRecord_congr H ρ ρ' _ _ _ (fun k hk => hreg _ (Or.inr ⟨k, hk, rfl⟩))

/-- With bit 30 of the fault-event-control register clear, `HasError` is set exactly when the
engine has a fault to clear. -/
theorem hasError_eq_hasFault (H : VtdHeader) (ρ : Nat → Nat) (U : VTD_UNIT_INFORMATION)
    (hctl : UINT32 (ρ (U.VtdUnitBaseAddress + H.R_FECTL_REG)) &&& BIT 30 = 0) :
    hasError H ρ U = hasFault H ρ U := by
  unfold hasError hasFault
  simp [hctl]

theorem isFaultRegister_congr (H : VtdHeader) (ρ ρ' : Nat → Nat) (U : VTD_UNIT_INFORMATION)
    (hcap : ρ (U.VtdUnitBaseAddress + H.R_CAP_REG) = ρ' (U.VtdUnitBaseAddress + H.R_CAP_REG))
    (A : Nat) : IsFaultRegister H ρ U A ↔ IsFaultRegister H ρ' U A := by
  unfold IsFaultRegister
  rw [hcap]

/-- When only fault registers of the engines below `m` have been written, the capability and
fault-event-control registers of every engine are as before. -/
theorem frame_capability (H : VtdHeader) (init : Nat → Nat) (w : World) (n m : Nat)
    (hsep : Separate H (w1cValue init w.trace) w n) (hm : m ≤ n) (t ext : List Event)
    (hw : WritesOnly (fun A => ∃ i, i < m ∧
      IsFaultRegister H (w1cValue init w.trace) (w.mVtdUnitInformation i) A) ext)
    (j : Nat) (hj : j < n) :
    w1cValue init (t ++ ext) ((w.mVtdUnitInformation j).VtdUnitBaseAddress + H.R_CAP_REG)
      = w1cValue init t ((w.mVtdUnitInformation j).VtdUnitBaseAddress + H.R_CAP_REG) ∧
    w1cValue init (t ++ ext) ((w.mVtdUnitInformation j).VtdUnitBaseAddress + H.R_FECTL_REG)
      = w1cValue init t ((w.mVtdUnitInformation j).VtdUnitBaseAddress + H.R_FECTL_REG) := by
  constructor
  · refine w1cValue_frame init _ _ ?_ ext t hw
    rintro ⟨i, hi, hA⟩
    exact hsep.capability i j _ (by omega) hj hA rfl
  · refine w1cValue_frame init _ _ ?_ ext t hw
    rintro ⟨i, hi, hA⟩
    exact hsep.control i j _ (by omega) hj hA rfl

/-- When only fault registers of the engines below `m` have been written, the fault registers
of an engine from `m` on are as before. -/
theorem frame_later (H : VtdHeader) (init : Nat → Nat) (w : World) (n m : Nat)
    (hsep : Separate H (w1cValue init w.trace) w n) (t ext : List Event)
    (hw : WritesOnly (fun A => ∃ i, i < m ∧
      IsFaultRegister H (w1cValue init w.trace) (w.mVtdUnitInformation i) A) ext)
    (j : Nat) (hmj : m ≤ j) (hj : j < n) (A : Nat)
    (hA : IsFaultRegister H (w1cValue init w.trace) (w.mVtdUnitInformation j) A) :
    w1cValue init (t ++ ext) A = w1cValue init t A := by
  refine w1cValue_frame init _ _ ?_ ext t hw
  rintro ⟨i, hi, hiA⟩
  exact hsep.engines i j A (by omega) hj (by omega) hiA hA

/-- When only fault registers of the engine `m` have been written, the fault registers of
another engine are as before. -/
theorem frame_other (H : VtdHeader) (init : Nat → Nat) (w : World) (n m : Nat)
    (hsep : Separate H (w1cValue init w.trace) w n) (hm : m < n) (t ext : List Event)
    (hw : WritesOnly (IsFaultRegister H (w1cValue init w.trace) (w.mVtdUnitInformation m)) ext)
    (j : Nat) (hmj : j ≠ m) (hj : j < n) (A : Nat)
    (hA : IsFaultRegister H (w1cValue init w.trace) (w.mVtdUnitInformation j) A) :
    w1cValue init (t ++ ext) A = w1cValue init t A := by
  refine w1cValue_frame init _ _ ?_ ext t hw
  intro hmA
  exact hsep.engines m j A hm hj (fun h => hmj h.symm) hmA hA

/-- The first call of `DumpVtdIfError` on the write-1-to-clear register file, with bit 30 of
the fault-event-control registers clear and the registers of the engines distinct: it returns;
it writes only to fault registers; afterwards no engine has a fault to clear; and the pass over
each engine reports once if the engine had a fault to clear at the start, and not at all
otherwise. -/
theorem firstCall (H : VtdHeader) (init : Nat → Nat) (fuel : Nat) (w : World)
    (hF0 : H.FrcdReg_F 0 = 0)
    (hctl : ∀ j, j < w.mVtdUnitNumber → UINT32 (w1cValue init w.trace
      ((w.mVtdUnitInformation j).VtdUnitBaseAddress + H.R_FECTL_REG)) &&& BIT 30 = 0)
    (hsep : Separate H (w1cValue init w.trace) w w.mVtdUnitNumber) :
    Returns (forIndex (fun Num _ => DumpVtdIfError.engine H (w1cPlatform init fuel) Num)
        w.mVtdUnitNumber ())
      (fun _ W' =>
        forIndex (fun Num _ => DumpVtdIfError.engine H (w1cPlatform init fuel) Num)
          w.mVtdUnitNumber () w = (Res.ok (), W') ∧
        ∃ ext, W' = { w with trace := w.trace ++ ext } ∧
          WritesOnly (fun A => ∃ i, i < w.mVtdUnitNumber ∧
            IsFaultRegister H (w1cValue init w.trace) (w.mVtdUnitInformation i) A) ext ∧
          (∀ i, i < w.mVtdUnitNumber →
            hasFault H (w1cValue init (w.trace ++ ext)) (w.mVtdUnitInformation i) = false) ∧
          (∀ j, j < w.mVtdUnitNumber → ∃ wj wj',
            forIndex (fun Num _ => DumpVtdIfError.engine H (w1cPlatform init fuel) Num) j () w
              = (Res.ok (), wj) ∧
            DumpVtdIfError.engine H (w1cPlatform init fuel) j wj = (Res.ok (), wj') ∧
            reports wj'.trace = reports wj.trace
              + (if hasFault H (w1cValue init w.trace) (w.mVtdUnitInformation j) = true
                  then 1 else 0))) w := by
  refine returns_forIndex _
    (fun m _ W' =>
      forIndex (fun Num _ => DumpVtdIfError.engine H (w1cPlatform init fuel) Num) m () w
        = (Res.ok (), W') ∧
      ∃ ext, W' = { w with trace := w.trace ++ ext } ∧
        WritesOnly (fun A => ∃ i, i < m ∧
          IsFaultRegister H (w1cValue init w.trace) (w.mVtdUnitInformation i) A) ext ∧
        (∀ i, i < m →
          hasFault H (w1cValue init (w.trace ++ ext)) (w.mVtdUnitInformation i) = false) ∧
        (∀ j, j < m → ∃ wj wj',
          forIndex (fun Num _ => DumpVtdIfError.engine H (w1cPlatform init fuel) Num) j () w
            = (Res.ok (), wj) ∧
          DumpVtdIfError.engine H (w1cPlatform init fuel) j wj = (Res.ok (), wj') ∧
          reports wj'.trace = reports wj.trace
            + (if hasFault H (w1cValue init w.trace) (w.mVtdUnitInformation j) = true
                then 1 else 0)))
    w.mVtdUnitNumber () w
    ⟨rfl, [], by simp, writesOnly_nil _, fun i hi => absurd hi (Nat.not_lt_zero i),
      fun j hj => absurd hj (Nat.not_lt_zero j)⟩ ?_
  rintro m hm _ _ ⟨hrun, ext, rfl, hw, hclean, hpass⟩
  -- the registers of the engine `m` are as at the start
  have hcapm := (frame_capability H init w _ m hsep (Nat.le_of_lt hm) w.trace ext hw m hm).1
  have hctlm := (frame_capability H init w _ m hsep (Nat.le_of_lt hm) w.trace ext hw m hm).2
  have hregm : ∀ A, IsFaultRegister H (w1cValue init w.trace) (w.mVtdUnitInformation m) A →
      w1cValue init (w.trace ++ ext) A = w1cValue init w.trace A :=
    fun A hA => frame_later H init w _ m hsep w.trace ext hw m (Nat.le_refl m) hm A hA
  have hregm' : ∀ A,
      IsFaultRegister H (w1cValue init (w.trace ++ ext)) (w.mVtdUnitInformation m) A →
      w1cValue init (w.trace ++ ext) A = w1cValue init w.trace A :=
    fun A hA => hregm A ((isFaultRegister_congr H _ _ _ hcapm A).mp hA)
  have herr : hasError H (w1cValue init (w.trace ++ ext)) (w.mVtdUnitInformation m)
      = hasFault H (w1cValue init w.trace) (w.mVtdUnitInformation m) := by
    rw [hasError_eq_hasFault H _ _ (by rw [hctlm]; exact hctl m hm)]
    exact hasFault_congr H _ _ _ hcapm hregm'
  obtain ⟨_, W'', hrun', extm, hW'', hwm, hread, hrep⟩ :=
    returns_DumpVtdIfError_engine H init fuel m { w with trace := w.trace ++ ext } hF0
      (by
        intro k hk
        dsimp only at hk ⊢
        rw [hcapm] at hk ⊢
        exact hsep.status m k hm hk)
  dsimp only at hW'' hwm hread hrep
  rw [herr] at hread hrep
  have hwm0 : WritesOnly (IsFaultRegister H (w1cValue init w.trace) (w.mVtdUnitInformation m))
      extm :=
    writesOnly_mono hwm (fun A hA => (isFaultRegister_congr H _ _ _ hcapm A).mp hA)
  have hrun'' : forIndex (fun Num _ => DumpVtdIfError.engine H (w1cPlatform init fuel) Num)
      (m + 1) () w = (Res.ok (), W'') := by
    rw [forIndex_succ, hrun, andThen_ok]
    exact hrun'
  refine ⟨(), W'', hrun', hrun'', ext ++ extm, by rw [hW'']; simp, ?_, ?_, ?_⟩
  · refine writesOnly_append (writesOnly_mono hw ?_) (writesOnly_mono hwm0 ?_)
    · rintro A ⟨i, hi, hA⟩
      exact ⟨i, Nat.lt_succ_of_lt hi, hA⟩
    · intro A hA
      exact ⟨m, Nat.lt_succ_self m, hA⟩
  · intro i hi
    rw [← List.append_assoc]
    by_cases him : i = m
    · subst him
      cases hf : hasFault H (w1cValue init w.trace) (w.mVtdUnitInformation i)
      · -- no fault at the start: the pass only reads
        have hr := hread hf
        rw [w1cValue_reads_fun init _ _ hr, ← hf]
        exact hasFault_congr H _ _ _ hcapm hregm'
      · -- a fault: the pass clears it
        obtain ⟨_, hfsts, hrec⟩ := hrep hf
        have hcap2 : w1cValue init (w.trace ++ ext ++ extm)
            ((w.mVtdUnitInformation i).VtdUnitBaseAddress + H.R_CAP_REG)
            = w1cValue init (w.trace ++ ext)
              ((w.mVtdUnitInformation i).VtdUnitBaseAddress + H.R_CAP_REG) := by
          refine w1cValue_frame init _ _ ?_ extm _ hwm0
          intro hA
          exact hsep.capability i i _ hm hm hA rfl
        unfold hasFault
        rw [hcap2, hfsts]
        simp only [ne_eq, not_true_eq_false, decide_False, Bool.false_or]
        cases ha : anyFaultRecord H (w1cValue init (w.trace ++ ext ++ extm))
            (w.mVtdUnitInformation i).VtdUnitBaseAddress
            (UINT64 (w1cValue init (w.trace ++ ext)
              ((w.mVtdUnitInformation i).VtdUnitBaseAddress + H.R_CAP_REG)))
            (frcdCount H (UINT64 (w1cValue init (w.trace ++ ext)
              ((w.mVtdUnitInformation i).VtdUnitBaseAddress + H.R_CAP_REG))))
        · rfl
        · obtain ⟨k, hk, hne⟩ := (anyFaultRecord_iff H _ _ _ _).mp ha
          exact absurd (hrec k hk) hne
    · have hi' : i < m := by omega
      have hcap2 := (frame_capability H init w _ (m + 1) hsep hm (w.trace ++ ext) extm
        (writesOnly_mono hwm0 (fun A hA => ⟨m, Nat.lt_succ_self m, hA⟩)) i (by omega)).1
      have hcap1 := (frame_capability H init w _ m hsep (Nat.le_of_lt hm) w.trace ext hw i
        (by omega)).1
      rw [← hclean i hi']
      refine hasFault_congr H _ _ _ hcap2 ?_
      intro A hA
      have hA0 : IsFaultRegister H (w1cValue init w.trace) (w.mVtdUnitInformation i) A :=
        (isFaultRegister_congr H _ _ _ (hcap2.trans hcap1) A).mp hA
      exact frame_other H init w _ m hsep hm (w.trace ++ ext) extm hwm0 i him (by omega) A hA0
  · intro j hj
    by_cases hjm : j = m
    · subst hjm
      refine ⟨_, W'', hrun, hrun', ?_⟩
      rw [hW'']
      simp only [reports_append]
      cases hf : hasFault H (w1cValue init w.trace) (w.mVtdUnitInformation j)
      · rw [reports_of_reads _ (hread hf)]
        simp
      · rw [(hrep hf).1]
        simp
    · exact hpass j (by omega)

/-- A call of `DumpVtdIfError` on the write-1-to-clear register file in which no engine has
`HasError` set returns after register reads only. -/
theorem quietCall (H : VtdHeader) (init : Nat → Nat) (fuel : Nat) (W : World)
    (hF0 : H.FrcdReg_F 0 = 0)
    (hsep : ∀ j, j < W.mVtdUnitNumber → ∀ k,
      k < frcdCount H (UINT64 (w1cValue init W.trace
        ((W.mVtdUnitInformation j).VtdUnitBaseAddress + H.R_CAP_REG))) →
      frcdHigh H (W.mVtdUnitInformation j).VtdUnitBaseAddress
        (UINT64 (w1cValue init W.trace
          ((W.mVtdUnitInformation j).VtdUnitBaseAddress + H.R_CAP_REG))) k
        ≠ (W.mVtdUnitInformation j).VtdUnitBaseAddress + H.R_FSTS_REG)
    (hquiet : ∀ j, j < W.mVtdUnitNumber →
      hasError H (w1cValue init W.trace) (W.mVtdUnitInformation j) = false) :
    Returns (DumpVtdIfError H (w1cPlatform init fuel))
      (fun _ W' => ∃ ext, W' = { W with trace := W.trace ++ ext } ∧
        ext.all Event.isRead = true) W := by
  refine returns_forIndex _
    (fun _ _ W' => ∃ ext, W' = { W with trace := W.trace ++ ext } ∧ ext.all Event.isRead = true)
    W.mVtdUnitNumber () W ⟨[], by simp, rfl⟩ ?_
  rintro m hm _ _ ⟨ext, rfl, hext⟩
  have hρ : w1cValue init (W.trace ++ ext) = w1cValue init W.trace :=
    w1cValue_reads_fun init _ _ hext
  obtain ⟨_, W'', hrun', extm, hW'', _, hread, _⟩ :=
    returns_DumpVtdIfError_engine H init fuel m { W with trace := W.trace ++ ext } hF0
      (by
        intro k hk
        dsimp only at hk ⊢
        rw [hρ] at hk ⊢
        exact hsep m hm k hk)
  dsimp only at hW'' hread
  rw [hρ] at hread
  refine ⟨(), W'', hrun', ext ++ extm, by rw [hW'']; simp, ?_⟩
  exact all_isRead_append _ _ hext (hread (hquiet m hm))

theorem hasFault_false (H : VtdHeader) (ρ : Nat → Nat) (U : VTD_UNIT_INFORMATION)
    (h : hasFault H ρ U = false) :
    UINT32 (ρ (U.VtdUnitBaseAddress + H.R_FSTS_REG)) = 0 ∧
    ∀ k, k < frcdCount H (UINT64 (ρ (U.VtdUnitBaseAddress + H.R_CAP_REG))) →
      H.FrcdReg_F (UINT64 (ρ (frcdHigh H U.VtdUnitBaseAddress
        (UINT64 (ρ (U.VtdUnitBaseAddress + H.R_CAP_REG))) k))) = 0 := by
  unfold hasFault at h
  rw [Bool.or_eq_false_iff] at h
  obtain ⟨h1, h2⟩ := h
  refine ⟨by simpa using h1, ?_⟩
  intro k hk
  by_contra hne
  have := (anyFaultRecord_iff H ρ _ _ _).mpr ⟨k, hk, hne⟩
  rw [h2] at this
  cases this

/-- Two calls of `DumpVtdIfError` on the write-1-to-clear register file, with bit 30 of the
fault-event-control registers clear and the registers of the engines distinct. -/
theorem dump_twice (H : VtdHeader) (init : Nat → Nat) (fuel : Nat) (w : World)
    (hF0 : H.FrcdReg_F 0 = 0)
    (hctl : ∀ j, j < w.mVtdUnitNumber → UINT32 (w1cValue init w.trace
      ((w.mVtdUnitInformation j).VtdUnitBaseAddress + H.R_FECTL_REG)) &&& BIT 30 = 0)
    (hsep : Separate H (w1cValue init w.trace) w w.mVtdUnitNumber) :
    (DumpVtdIfError H (w1cPlatform init fuel) w).1 = Res.ok () ∧
    (DumpVtdIfError H (w1cPlatform init fuel)
      (DumpVtdIfError H (w1cPlatform init fuel) w).2).1 = Res.ok () ∧
    (∀ j, j < w.mVtdUnitNumber → ∃ wj wj',
      forIndex (fun Num _ => DumpVtdIfError.engine H (w1cPlatform init fuel) Num) j () w
        = (Res.ok (), wj) ∧
      DumpVtdIfError.engine H (w1cPlatform init fuel) j wj = (Res.ok (), wj') ∧
      reports wj'.trace = reports wj.trace
        + (if hasFault H (w1cValue init w.trace) (w.mVtdUnitInformation j) = true
            then 1 else 0)) ∧
    (∀ j, j < w.mVtdUnitNumber →
      hasFault H (w1cValue init (DumpVtdIfError H (w1cPlatform init fuel) w).2.trace)
        (w.mVtdUnitInformation j) = false) ∧
    reports (DumpVtdIfError H (w1cPlatform init fuel)
        (DumpVtdIfError H (w1cPlatform init fuel) w).2).2.trace
      = reports (DumpVtdIfError H (w1cPlatform init fuel) w).2.trace ∧
    registerWrites (DumpVtdIfError H (w1cPlatform init fuel)
        (DumpVtdIfError H (w1cPlatform init fuel) w).2).2.trace
      = registerWrites (DumpVtdIfError H (w1cPlatform init fuel) w).2.trace := by
  obtain ⟨_, W1, hr1, _, ext1, hW1, hw1, hclean, hpass⟩ := firstCall H init fuel w hF0 hctl hsep
  have hr1' : DumpVtdIfError H (w1cPlatform init fuel) w = (Res.ok (), W1) := hr1
  have hn : W1.mVtdUnitNumber = w.mVtdUnitNumber := by rw [hW1]
  have hu : W1.mVtdUnitInformation = w.mVtdUnitInformation := by rw [hW1]
  have ht : W1.trace = w.trace ++ ext1 := by rw [hW1]
  have hcap : ∀ j, j < w.mVtdUnitNumber →
      w1cValue init (w.trace ++ ext1) ((w.mVtdUnitInformation j).VtdUnitBaseAddress + H.R_CAP_REG)
        = w1cValue init w.trace ((w.mVtdUnitInformation j).VtdUnitBaseAddress + H.R_CAP_REG) :=
    fun j hj => (frame_capability H init w _ _ hsep (Nat.le_refl _) w.trace ext1 hw1 j hj).1
  have hfectl : ∀ j, j < w.mVtdUnitNumber →
      w1cValue init (w.trace ++ ext1)
        ((w.mVtdUnitInformation j).VtdUnitBaseAddress + H.R_FECTL_REG)
        = w1cValue init w.trace
          ((w.mVtdUnitInformation j).VtdUnitBaseAddress + H.R_FECTL_REG) :=
    fun j hj => (frame_capability H init w _ _ hsep (Nat.le_refl _) w.trace ext1 hw1 j hj).2
  obtain ⟨_, W2, hr2, ext2, hW2, hext2⟩ := quietCall H init fuel W1 hF0
    (by
      intro j hj k hk
      rw [hn] at hj
      rw [hu, ht] at hk ⊢
      rw [hcap j hj] at hk ⊢
      exact hsep.status j k hj hk)
    (by
      intro j hj
      rw [hn] at hj
      rw [hu, ht, hasError_eq_hasFault H _ _ (by rw [hfectl j hj]; exact hctl j hj)]
      exact hclean j hj)
  rw [hr1']
  simp only []
  rw [hr2]
  simp only []
  refine ⟨trivial, trivial, hpass, ?_, ?_, ?_⟩
  · intro j hj
    rw [ht]
    exact hclean j hj
  · rw [hW2, reports_append, reports_of_reads _ hext2]
    rfl
  · rw [hW2, registerWrites_append, registerWrites_of_reads _ hext2, List.append_nil]

/-- C12 (amended): idempotence of the fault monitor on a write-1-to-clear register file in
which no new fault arises, for register states in which bit 30 of the fault-event-control
register of every engine is clear (the code never clears that bit) and the registers of the
engines are distinct.  Both calls of `DumpVtdIfError` return.  In the first call the pass over
each engine reports once if the engine has a fault to clear (a non-zero fault-status register,
or a fault record with its valid bit `F` set), and not at all otherwise; after the first call
the fault-status register of every engine reads zero and the valid bit of every fault record is
clear.  The second call reports nothing and writes no register. -/
theorem C12_dump_reports_once (H : VtdHeader) (init : Nat → Nat) (fuel : Nat) (w : World)
    (hF0 : H.FrcdReg_F 0 = 0)
    (hctl : ∀ j, j < w.mVtdUnitNumber → UINT32 (w1cValue init w.trace
      ((w.mVtdUnitInformation j).VtdUnitBaseAddress + H.R_FECTL_REG)) &&& BIT 30 = 0)
    (hsep : Separate H (w1cValue init w.trace) w w.mVtdUnitNumber) :
    let P := w1cPlatform init fuel
    let r1 := DumpVtdIfError H P w
    let r2 := DumpVtdIfError H P r1.2
    r1.1 = Res.ok () ∧ r2.1 = Res.ok () ∧
    (∀ j, j < w.mVtdUnitNumber → ∃ wj wj',
      forIndex (fun Num _ => DumpVtdIfError.engine H P Num) j () w = (Res.ok (), wj) ∧
      DumpVtdIfError.engine H P j wj = (Res.ok (), wj') ∧
      reports wj'.trace = reports wj.trace
        + (if hasFault H (w1cValue init w.trace) (w.mVtdUnitInformation j) = true
            then 1 else 0)) ∧
    (∀ j, j < w.mVtdUnitNumber →
      UINT32 (w1cValue init r1.2.trace
        ((w.mVtdUnitInformation j).VtdUnitBaseAddress + H.R_FSTS_REG)) = 0 ∧
      ∀ k, k < frcdCount H (UINT64 (w1cValue init r1.2.trace
          ((w.mVtdUnitInformation j).VtdUnitBaseAddress + H.R_CAP_REG))) →
        H.FrcdReg_F (UINT64 (w1cValue init r1.2.trace
          (frcdHigh H (w.mVtdUnitInformation j).VtdUnitBaseAddress
            (UINT64 (w1cValue init r1.2.trace
              ((w.mVtdUnitInformation j).VtdUnitBaseAddress + H.R_CAP_REG))) k))) = 0) ∧
    reports r2.2.trace = reports r1.2.trace ∧
    registerWrites r2.2.trace = registerWrites r1.2.trace := by
  intro P r1 r2
  obtain ⟨h1, h2, h3, h4, h5, h6⟩ := dump_twice H init fuel w hF0 hctl hsep
  exact ⟨h1, h2, h3, fun j hj => hasFault_false H _ _ (h4 j hj), h5, h6⟩

/-- The fault registers of an engine at base address 0 whose capability register holds
`FRO = 0x20` and `NFR = 0`, with the layout of `vtdHeader`. -/
theorem isFaultRegister_example (ρ : Nat → Nat) (hcap : ρ 0x08 = 0x20000000) (A : Nat) :
    IsFaultRegister vtdHeader ρ zeroUnit A ↔ A = 0x34 ∨ A = 0x208 := by
  have hc : zeroUnit.VtdUnitBaseAddress + vtdHeader.R_CAP_REG = 0x08 := rfl
  have hn : frcdCount vtdHeader (UINT64 0x20000000) = 1 := by decide
  unfold IsFaultRegister
  rw [hc, hcap, hn]
  constructor
  · rintro (h | ⟨k, hk, h⟩)
    · left
      rw [h]
      rfl
    · right
      have : k = 0 := by omega
      subst this
      rw [h]
      decide
  · rintro (h | h)
    · left
      rw [h]
      rfl
    · right
      refine ⟨0, Nat.one_pos, ?_⟩
      rw [h]
      decide

theorem separate_example (ρ : Nat → Nat) (hcap : ρ 0x08 = 0x20000000) (enabled : Bool) :
    Separate vtdHeader ρ (oneUnitWorld zeroUnit enabled) 1 := by
  constructor
  · intro i j A _ _ hA
    rcases (isFaultRegister_example ρ hcap A).mp hA with h | h
    · rw [h]
      exact (by decide : (0x34 : Nat) ≠ 0x08)
    · rw [h]
      exact (by decide : (0x208 : Nat) ≠ 0x08)
  · intro i j A _ _ hA
    rcases (isFaultRegister_example ρ hcap A).mp hA with h | h
    · rw [h]
      exact (by decide : (0x34 : Nat) ≠ 0x38)
    · rw [h]
      exact (by decide : (0x208 : Nat) ≠ 0x38)
  · intro i k _ hk
    have hc : zeroUnit.VtdUnitBaseAddress + vtdHeader.R_CAP_REG = 0x08 := rfl
    have hn : frcdCount vtdHeader (UINT64 0x20000000) = 1 := by decide
    show frcdHigh vtdHeader zeroUnit.VtdUnitBaseAddress
      (UINT64 (ρ (zeroUnit.VtdUnitBaseAddress + vtdHeader.R_CAP_REG))) k ≠ _
    have hk' : k < frcdCount vtdHeader
        (UINT64 (ρ (zeroUnit.VtdUnitBaseAddress + vtdHeader.R_CAP_REG))) := hk
    rw [hc, hcap] at hk' ⊢
    rw [hn] at hk'
    have : k = 0 := by omega
    subst this
    exact (by decide : frcdHigh vtdHeader 0 (UINT64 0x20000000) 0 ≠ 0x34)
  · intro i j A hi hj hij
    omega

theorem hasError_of_control (H : VtdHeader) (ρ : Nat → Nat) (U : VTD_UNIT_INFORMATION)
    (h : UINT32 (ρ (U.VtdUnitBaseAddress + H.R_FECTL_REG)) &&& BIT 30 ≠ 0) :
    hasError H ρ U = true := by
  unfold hasError
  simp [h]

theorem forIndex_one {σ : Type} (body : Nat → σ → M σ) (s : σ) (w : World) :
    forIndex body 1 s w = body 0 s w := rfl

theorem DumpVtdIfError_one (H : VtdHeader) (P : Platform) (w : World)
    (h : w.mVtdUnitNumber = 1) :
    DumpVtdIfError H P w = DumpVtdIfError.engine H P 0 w := by
  show forIndex _ w.mVtdUnitNumber () w = _
  rw [h]
  rfl

/-- One engine with nothing but bit 30 of the fault-event-control register set, on the
write-1-to-clear register file, in which no new fault arises: the first call of
`DumpVtdIfError` reports, and the second call reports again. -/
theorem C12_counterexample :
    UINT32 (controlPending 0x38) &&& BIT 30 ≠ 0 ∧
    (DumpVtdIfError vtdHeader (w1cPlatform controlPending 0) (oneUnitWorld zeroUnit false)).1
      = Res.ok () ∧
    reports (DumpVtdIfError vtdHeader (w1cPlatform controlPending 0)
      (oneUnitWorld zeroUnit false)).2.trace = 1 ∧
    (DumpVtdIfError vtdHeader (w1cPlatform controlPending 0)
      (DumpVtdIfError vtdHeader (w1cPlatform controlPending 0)
        (oneUnitWorld zeroUnit false)).2).1 = Res.ok () ∧
    reports (DumpVtdIfError vtdHeader (w1cPlatform controlPending 0)
      (DumpVtdIfError vtdHeader (w1cPlatform controlPending 0)
        (oneUnitWorld zeroUnit false)).2).2.trace = 2 := by
  have hsep0 := separate_example (w1cValue controlPending []) rfl false
  obtain ⟨_, W1, hr1, ext1, hW1, hw1, _, hrep1⟩ :=
    returns_DumpVtdIfError_engine vtdHeader controlPending 0 0 (oneUnitWorld zeroUnit false)
      (by decide) (fun k hk => hsep0.status 0 k Nat.one_pos hk)
  have hrep1' := (hrep1 (hasError_of_control _ _ _ (by decide))).1
  have hr1' : DumpVtdIfError vtdHeader (w1cPlatform controlPending 0)
      (oneUnitWorld zeroUnit false) = (Res.ok (), W1) := by
    rw [DumpVtdIfError_one _ _ _ rfl]
    exact hr1
  have hn : W1.mVtdUnitNumber = 1 := by rw [hW1]; rfl
  have hu : W1.mVtdUnitInformation 0 = zeroUnit := by rw [hW1]; rfl
  have ht : W1.trace = ext1 := by rw [hW1]; rfl
  have hcap1 : w1cValue controlPending ext1 0x08 = 0x20000000 := by
    have := w1cValue_frame controlPending _ 0x08
      (fun h => by
        rcases (isFaultRegister_example (w1cValue controlPending []) rfl 0x08).mp h with h | h
        · exact absurd h (by decide)
        · exact absurd h (by decide)) ext1 [] hw1
    simpa using this
  have hctl1 : w1cValue controlPending ext1 0x38 = BIT 30 := by
    have := w1cValue_frame controlPending _ 0x38
      (fun h => by
        rcases (isFaultRegister_example (w1cValue controlPending []) rfl 0x38).mp h with h | h
        · exact absurd h (by decide)
        · exact absurd h (by decide)) ext1 [] hw1
    simpa using this
  have hsep1 := separate_example (w1cValue controlPending ext1) hcap1 false
  obtain ⟨_, W2, hr2, ext2, hW2, _, _, hrep2⟩ :=
    returns_DumpVtdIfError_engine vtdHeader controlPending 0 0 W1
      (by decide) (by
        intro k hk
        rw [hu, ht] at hk ⊢
        exact hsep1.status 0 k Nat.one_pos hk)
  have hrep2' := (hrep2 (by
    rw [hu, ht]
    refine hasError_of_control _ _ _ ?_
    show UINT32 (w1cValue controlPending ext1 0x38) &&& BIT 30 ≠ 0
    rw [hctl1]
    decide)).1
  have hr2' : DumpVtdIfError vtdHeader (w1cPlatform controlPending 0) W1 = (Res.ok (), W2) := by
    rw [DumpVtdIfError_one _ _ _ hn]
    exact hr2
  rw [hr1']
  simp only []
  rw [hr2']
  simp only []
  refine ⟨by decide, trivial, ?_, trivial, ?_⟩
  · rw [ht, ← hrep1']
  · rw [hW2, reports_append, ht, hrep1', hrep2']

/-- One engine with a non-zero fault-status register and a valid fault record, on the
write-1-to-clear register file: both calls of `DumpVtdIfError` return, and the second call
reports nothing and writes no register. -/
theorem C12_dump_reports_once_witness :
    (DumpVtdIfError vtdHeader (w1cPlatform faultPending 0) (oneUnitWorld zeroUnit false)).1
      = Res.ok () ∧
    reports (DumpVtdIfError vtdHeader (w1cPlatform faultPending 0)
      (DumpVtdIfError vtdHeader (w1cPlatform faultPending 0)
        (oneUnitWorld zeroUnit false)).2).2.trace
      = reports (DumpVtdIfError vtdHeader (w1cPlatform faultPending 0)
        (oneUnitWorld zeroUnit false)).2.trace ∧
    registerWrites (DumpVtdIfError vtdHeader (w1cPlatform faultPending 0)
      (DumpVtdIfError vtdHeader (w1cPlatform faultPending 0)
        (oneUnitWorld zeroUnit false)).2).2.trace
      = registerWrites (DumpVtdIfError vtdHeader (w1cPlatform faultPending 0)
        (oneUnitWorld zeroUnit false)).2.trace := by
  have h := C12_dump_reports_once vtdHeader faultPending 0 (oneUnitWorld zeroUnit false)
    (by decide)
    (fun _ _ => (by decide : UINT32 (w1cValue faultPending [] 0x38) &&& BIT 30 = 0))
    (separate_example (w1cValue faultPending []) rfl false)
  exact ⟨h.1, h.2.2.2.2.1, h.2.2.2.2.2⟩

end VtdReg
